import Mathlib

/-!
# RHD recording controller: acquisition engine

A shallow embedding of `Source/DeviceThread.cpp` (the block decoder `updateBuffer`,
the port scanner `scanPorts` / `getDeviceId`, and the headstage registry operations
`enableHeadstage` / `setNumChannels`), followed by theorems about it.

Conventions of the embedding
* the raw USB buffer is a function from byte offsets to bytes;
* `float` / `double` values are exact rationals (rounding is not modelled);
* a JUCE `Array<int>` is a `List Int`; reading out of range yields `0`, `set` past the
  end appends, exactly as the JUCE container does;
* C arrays of fixed size (`thisSample`, `auxBuffer`, `auxSamples`, the DAC tables) are
  total functions on indices;
* calls on the evaluation board are recorded, in order, in a command log.
-/

set_option autoImplicit false

namespace RhdRec

/-! ## Raw buffer access -/

/-- Raw transport buffer: the byte stored at each offset. -/
abbrev Buffer := Nat → Nat

/-- The 16-bit word `*(uint16*)(bufferPtr + i)` (little endian). -/
def readU16 (buf : Buffer) (i : Nat) : Nat :=
  buf i % 256 + 256 * (buf (i + 1) % 256)

/-- Electrode decode: `float(raw - 32768) * 0.195f`, the difference taken in `int`. -/
def decodeAmp (raw : Nat) : ℚ :=
  (((raw : Int) - 32768 : Int) : ℚ) * 0.195

/-- Auxiliary decode: `float(raw - 32768) * 0.0000374`. -/
def decodeAux (raw : Nat) : ℚ :=
  (((raw : Int) - 32768 : Int) : ℚ) * 0.0000374

/-- ADC decode: `0.00015258789 * float(raw) - 5 - 0.4096`. -/
def decodeAdc (raw : Nat) : ℚ :=
  0.00015258789 * (raw : ℚ) - 5 - 0.4096

/-! ## Declarations the sources use but do not contain -/

/-- Constants of `DeviceThread.h` (not part of the sources), taken as parameters. -/
structure Consts where
  CHIP_ID_RHD2132 : Int
  CHIP_ID_RHD2216 : Int
  CHIP_ID_RHD2164 : Int
  CHIP_ID_RHD2164_B : Int
  REGISTER_59_MISO_A : Int
  RHD2132_16CH_OFFSET : Nat
  MAX_NUM_DATA_STREAMS : Nat

/-- Static interface of `Rhd2000DataBlockUsb3` used by the decoder (the class is not part
of the sources): block length in frames, header check and timestamp read. -/
structure DataBlockApi where
  getSamplesPerDataBlock : Nat
  checkUsbHeader : Buffer → Nat → Bool
  convertUsbTimeStamp : Buffer → Nat → Int

/-- Modelled from the spec: the 8-byte magic header check of
`Rhd2000DataBlockUsb3::checkUsbHeader` (not in the sources); the eight bytes at `index`,
read little endian, must equal the protocol magic number. -/
def checkUsbHeaderMagic (magic : Nat) (buf : Buffer) (index : Nat) : Bool :=
  ((List.range 8).foldr (fun k acc => buf (index + k) % 256 + 256 * acc) 0) == magic

/-- Modelled from the spec: the 4-byte sample timestamp read of
`Rhd2000DataBlockUsb3::convertUsbTimeStamp` (not in the sources), little endian. -/
def convertUsbTimeStampLE (buf : Buffer) (index : Nat) : Int :=
  (((List.range 4).foldr (fun k acc => buf (index + k) % 256 + 256 * acc) 0 : Nat) : Int)

/-! ## Decoder configuration and state -/

/-- What `updateBuffer` borrows read-only while decoding a block. -/
structure DecodeConfig where
  numStreams : Nat
  numChannelsPerDataStream : List Int
  chipId : List Int
  acquireAux : Bool
  acquireAdc : Bool

/-- The member arrays the decoder writes: `thisSample`, `auxSamples`, `auxBuffer`. -/
structure SampleState where
  thisSample : Nat → ℚ
  auxSamples : Nat → Nat → ℚ
  auxBuffer : Nat → ℚ

/-- One `addToBuffer` call: the values written to `thisSample` in this frame (indices
`0 .. channel`), the timestamp and the digital event word. -/
structure Emission where
  samples : List ℚ
  timestamp : Int
  ttlEventWord : Nat

/-- Element read `a[i]` of a JUCE `Array<int>`: the default `0` when out of range. -/
def arrGet (a : List Int) (i : Nat) : Int := a.getD i 0

/-! ## The frame decoder (body of the `samp` loop of `updateBuffer`)

`channel` of the source starts at `-1` and is incremented before each use; the
embedding carries `next = channel + 1`, the index the next write goes to. -/

/-- The `chan` loop over one stream: `k` remaining channels. Returns `next` and
`thisSample`. -/
def ampChans (buf : Buffer) (numStreams : Nat) :
    Nat → Nat → Nat → (Nat → ℚ) → Nat × (Nat → ℚ)
  | 0, _, next, ts => (next, ts)
  | k + 1, chanIndex, next, ts =>
      ampChans buf numStreams k (chanIndex + 2 * numStreams) (next + 1)
        (Function.update ts next (decodeAmp (readU16 buf chanIndex)))

/-- Start offset `chanIndex` of stream `dataStream`, with the RHD2132 16-channel shift. -/
def chanIndexStart (K : Consts) (cfg : DecodeConfig) (index dataStream : Nat) : Nat :=
  if arrGet cfg.chipId dataStream = K.CHIP_ID_RHD2132
      ∧ arrGet cfg.numChannelsPerDataStream dataStream = 16 then
    index + 2 * dataStream + 2 * K.RHD2132_16CH_OFFSET * cfg.numStreams
  else
    index + 2 * dataStream

/-- The `dataStream` loop over the amplifier words, for streams `0 .. upTo - 1`. -/
def ampStreams (K : Consts) (cfg : DecodeConfig) (buf : Buffer) (index : Nat)
    (upTo : Nat) (init : Nat × (Nat → ℚ)) : Nat × (Nat → ℚ) :=
  (List.range upTo).foldl
    (fun acc dataStream =>
      ampChans buf cfg.numStreams
        (arrGet cfg.numChannelsPerDataStream dataStream).toNat
        (chanIndexStart K cfg index dataStream) acc.1 acc.2)
    init

/-- Loop state of the auxiliary pass. -/
structure AuxAcc where
  next : Nat
  thisSample : Nat → ℚ
  auxSamples : Nat → Nat → ℚ
  auxBuffer : Nat → ℚ

/-- The three-channel copy loop of one stream (`chan = 0, 1, 2`). -/
def auxChan (dataStream auxNum : Nat) (a : AuxAcc) (chan : Nat) : AuxAcc :=
  let auxBuffer :=
    if auxNum = 3 then Function.update a.auxBuffer a.next (a.auxSamples dataStream chan)
    else a.auxBuffer
  { a with
    next := a.next + 1,
    auxBuffer := auxBuffer,
    thisSample := Function.update a.thisSample a.next (auxBuffer a.next) }

/-- The store `auxSamples[dataStream][auxNum] = v`. -/
def auxStore (a : AuxAcc) (dataStream auxNum : Nat) (v : ℚ) : AuxAcc :=
  let row := Function.update (a.auxSamples dataStream) auxNum v
  { a with auxSamples := Function.update a.auxSamples dataStream row }

/-- Body of the auxiliary `dataStream` loop; the word of stream `dataStream` is at
`auxIndex + 2 * dataStream`. -/
def auxStream (K : Consts) (cfg : DecodeConfig) (buf : Buffer) (samp auxIndex : Nat)
    (a : AuxAcc) (dataStream : Nat) : AuxAcc :=
  if arrGet cfg.chipId dataStream ≠ K.CHIP_ID_RHD2164_B then
    let auxNum := (samp + 3) % 4
    let a1 : AuxAcc :=
      if auxNum < 3 then
        auxStore a dataStream auxNum (decodeAux (readU16 buf (auxIndex + 2 * dataStream)))
      else a
    (List.range 3).foldl (auxChan dataStream auxNum) a1
  else a

/-- The auxiliary `dataStream` loop, for streams `0 .. upTo - 1`. -/
def auxStreams (K : Consts) (cfg : DecodeConfig) (buf : Buffer) (samp auxIndex : Nat)
    (upTo : Nat) (a : AuxAcc) : AuxAcc :=
  (List.range upTo).foldl (auxStream K cfg buf samp auxIndex) a

/-- The ADC loop: `k` remaining channels. -/
def adcChans (buf : Buffer) : Nat → Nat → Nat → (Nat → ℚ) → Nat × (Nat → ℚ)
  | 0, _, next, ts => (next, ts)
  | k + 1, index, next, ts =>
      adcChans buf k (index + 2) (next + 1)
        (Function.update ts next (decodeAdc (readU16 buf index)))

/-- Result of decoding one frame. -/
structure FrameResult where
  emission : Emission
  state : SampleState
  index : Nat

/-- One iteration of the `samp` loop after a successful header check, for the frame
that starts at byte offset `index0`. -/
def decodeFrame (K : Consts) (api : DataBlockApi) (cfg : DecodeConfig) (buf : Buffer)
    (samp index0 : Nat) (st : SampleState) : FrameResult :=
  let numStreams := cfg.numStreams
  let index := index0 + 8
  let timestamp := api.convertUsbTimeStamp buf index
  let index := index + 4
  let auxIndex := index
  let index := index + 6 * numStreams
  let amp := ampStreams K cfg buf index numStreams (0, st.thisSample)
  let index := index + 64 * numStreams
  let auxIndex := auxIndex + 2 * numStreams
  let a0 : AuxAcc :=
    { next := amp.1, thisSample := amp.2, auxSamples := st.auxSamples,
      auxBuffer := st.auxBuffer }
  let a := if cfg.acquireAux then auxStreams K cfg buf samp auxIndex numStreams a0 else a0
  let index := index + 2 * (numStreams % 4)
  let adc := if cfg.acquireAdc then adcChans buf 8 index a.next a.thisSample
             else (a.next, a.thisSample)
  let index := index + 16
  let ttlEventWord := readU16 buf index
  let index := index + 4
  { emission :=
      { samples := (List.range adc.1).map adc.2,
        timestamp := timestamp,
        ttlEventWord := ttlEventWord },
    state := { thisSample := adc.2, auxSamples := a.auxSamples, auxBuffer := a.auxBuffer },
    index := index }

/-- Result of the `samp` loop: the tuples appended to the sink in order, the decoder
state, the final read offset and whether the header error was logged. -/
structure LoopResult where
  emitted : List Emission
  state : SampleState
  index : Nat
  headerError : Bool

/-- The `samp` loop of `updateBuffer` with `k` iterations left; a failed header check
logs the error and leaves the loop (`break`). -/
def sampLoop (K : Consts) (api : DataBlockApi) (cfg : DecodeConfig) (buf : Buffer) :
    Nat → Nat → Nat → SampleState → LoopResult
  | 0, _, index, st => { emitted := [], state := st, index := index, headerError := false }
  | k + 1, samp, index, st =>
      if !api.checkUsbHeader buf index then
        { emitted := [], state := st, index := index, headerError := true }
      else
        let fr := decodeFrame K api cfg buf samp index st
        let r := sampLoop K api cfg buf k (samp + 1) fr.index fr.state
        { r with emitted := fr.emission :: r.emitted }

/-! ## JUCE `Array<int>` operations -/

/-- The JUCE call `a.set (i, v)`: replaces in range, appends past the end, ignores a
negative index. -/
def arrSet (a : List Int) (i : Int) (v : Int) : List Int :=
  if i < 0 then a
  else if i.toNat < a.length then a.set i.toNat v
  else a ++ [v]

/-- The JUCE call `a.indexOf (v)`: position of the first occurrence, `-1` if absent. -/
def arrIndexOf (a : List Int) (v : Int) : Int :=
  if v ∈ a then (a.indexOf v : Int) else -1

/-- The JUCE call `a.remove (i)`: removes the element at `i` when `i` is in range. -/
def arrRemove (a : List Int) (i : Int) : List Int :=
  if i < 0 then a else a.eraseIdx i.toNat

/-! ## Headstages -/

/-- One headstage slot. The class `Headstage` is not part of the sources; its state is
the data model of the specification (slot identity, stream count, channels per stream,
16-channel mode, first stream position, first channel offset) together with the two
hardware stream indices the slot owns. -/
structure Headstage where
  slot : Nat
  dataStream0 : Int
  dataStream1 : Int
  numStreams : Int
  channelsPerStream : Int
  halfChannels : Bool
  streamIndex : Int
  firstChannelIndex : Int

namespace Headstage

/-- Modelled from the spec: the connected flag of `Headstage` (class not in the
sources), a slot being connected when its stream count is positive. -/
def isConnected (h : Headstage) : Bool := decide (0 < h.numStreams)

/-- Modelled from the spec: `Headstage::getNumChannels` (class not in the sources),
streams times channels per stream. -/
def getNumChannels (h : Headstage) : Int := h.channelsPerStream * h.numStreams

/-- Modelled from the spec: `Headstage::getNumActiveChannels` (class not in the sources),
the channel count, halved in 16-channel mode. -/
def getNumActiveChannels (h : Headstage) : Int :=
  Int.tdiv h.getNumChannels (if h.halfChannels then 2 else 1)

/-- Modelled from the spec: `Headstage::getDataStream` (class not in the sources), the
hardware stream index of the slot's first or second stream. -/
def getDataStream (h : Headstage) (index : Int) : Int :=
  if index = 1 then h.dataStream1 else h.dataStream0

/-- Modelled from the spec: `Headstage::getStreamIndex` (class not in the sources), the
position in the enabled-stream list of the slot's stream number `offset`. -/
def getStreamIndex (h : Headstage) (offset : Int) : Int := h.streamIndex + offset

end Headstage

/-! ## Controller state -/

/-- A queued digital output command. -/
structure DigitalOutputCommand where
  ttlLine : Int
  state : Bool

/-- A running `DigitalOutputTimer`: the output line it will switch off and the interval
it was started with. -/
structure DigitalOutputTimer where
  tllOutputLine : Int
  eventDurationMs : Int

/-- Calls on the evaluation board, as recorded in the command log. -/
inductive BoardCmd where
  | enableDac (k : Nat) (enabled : Bool)
  | selectDacDataStream (k : Nat) (stream : Int)
  | selectDacDataChannel (k : Nat) (channel : Int)
  | setDacThreshold (k : Nat) (threshold : Int) (trigPolarity : Bool)
  | setTtlMode (mode : Int)
  | enableExternalFastSettle (enabled : Bool)
  | setExternalFastSettleChannel (channel : Int)
  | setDacHighpassFilter (cutoff : ℚ)
  | enableDacHighpassFilter (enabled : Bool)
  | setTtlOut (state : List Int)
  | setCableDelay (port : Nat) (delay : Int)
  | enableDataStream (stream : Nat) (enabled : Bool)

/-- The part of `DeviceThread` the embedded operations read and write. -/
structure DeviceThread where
  deviceFound : Bool
  headstages : List Headstage
  enabledStreams : List Int
  numChannelsPerDataStream : List Int
  chipId : List Int
  acquireAux : Bool
  acquireAdc : Bool
  samples : SampleState
  sink : List Emission
  sinkChannels : Int
  headerErrors : Nat
  updateSettingsDuringAcquisition : Bool
  dacStream : Nat → Int
  dacChannels : Nat → Int
  dacThresholds : Nat → ℚ
  dacChannelsToUpdate : Nat → Bool
  ttlMode : Bool
  fastTTLSettleEnabled : Bool
  fastSettleTTLChannel : Int
  desiredDAChpf : ℚ
  desiredDAChpfState : Bool
  digitalOutputCommands : List DigitalOutputCommand
  TTL_OUTPUT_STATE : Int → Int
  boardLog : List BoardCmd
  isTransmitting : Bool
  ledsEnabled : Bool
  clockDivideFactor : Int
  digitalOutputTimers : List DigitalOutputTimer
  noiseSlicerLevel : Int
  savedSampleRateIndex : Int
  boardSampleRate : ℚ

namespace DeviceThread

/-- The read-only view the block decoder takes of the controller. -/
def decodeConfig (d : DeviceThread) : DecodeConfig :=
  { numStreams := d.enabledStreams.length
    numChannelsPerDataStream := d.numChannelsPerDataStream
    chipId := d.chipId
    acquireAux := d.acquireAux
    acquireAdc := d.acquireAdc }

/-- `getNumDataOutputs (ContinuousChannel::ELECTRODE)`. -/
def getNumElectrodeOutputs (d : DeviceThread) : Int :=
  d.headstages.foldl
    (fun totalChannels headstage =>
      if headstage.isConnected then totalChannels + headstage.getNumActiveChannels
      else totalChannels) 0

/-- `getNumDataOutputs (ContinuousChannel::AUX)`. -/
def getNumAuxOutputs (d : DeviceThread) : Int :=
  if d.acquireAux then
    d.headstages.foldl
      (fun numAuxOutputs headstage =>
        if headstage.isConnected then numAuxOutputs + 3 else numAuxOutputs) 0
  else 0

/-- `getNumDataOutputs (ContinuousChannel::ADC)`. -/
def getNumAdcOutputs (d : DeviceThread) : Int :=
  if d.acquireAdc then 8 else 0

/-- `getNumChannels`. -/
def getNumChannels (d : DeviceThread) : Int :=
  d.getNumElectrodeOutputs + d.getNumAuxOutputs + d.getNumAdcOutputs

/-- Applies `f` to `headstages[hsNum]` (no change when the slot does not exist). -/
def modifyHeadstage (d : DeviceThread) (hsNum : Nat) (f : Headstage → Headstage) :
    DeviceThread :=
  { d with headstages := d.headstages.modify f hsNum }

/-- `enableHeadstage (hsNum, enabled, nStr, strChans)`; the returned flag is always
`true` and is omitted, and the last two arguments are unused when disabling. -/
def enableHeadstage (d : DeviceThread) (hsNum : Nat) (enabled : Bool)
    (nStr : Int) (strChans : Int) : DeviceThread :=
  match d.headstages[hsNum]? with
  | none => d
  | some h =>
    let d1 : DeviceThread :=
      if enabled then
        let first := d.getNumElectrodeOutputs
        let h1 : Headstage :=
          { h with firstChannelIndex := first, numStreams := nStr,
                   channelsPerStream := strChans,
                   streamIndex := (d.enabledStreams.length : Int) }
        let d0 : DeviceThread :=
          { d with headstages := d.headstages.set hsNum h1,
                   enabledStreams := d.enabledStreams ++ [h1.getDataStream 0],
                   numChannelsPerDataStream := d.numChannelsPerDataStream ++ [strChans] }
        if 1 < nStr then
          { d0 with enabledStreams := d0.enabledStreams ++ [h1.getDataStream 1],
                    numChannelsPerDataStream := d0.numChannelsPerDataStream ++ [strChans] }
        else d0
      else
        let idx := arrIndexOf d.enabledStreams (h.getDataStream 0)
        let d0 : DeviceThread :=
          if 0 ≤ idx then
            { d with enabledStreams := arrRemove d.enabledStreams idx,
                     numChannelsPerDataStream := arrRemove d.numChannelsPerDataStream idx }
          else d
        let d2 : DeviceThread :=
          if 1 < h.numStreams then
            let idx1 := arrIndexOf d0.enabledStreams (h.getDataStream 1)
            if 0 ≤ idx1 then
              { d0 with enabledStreams := arrRemove d0.enabledStreams idx1,
                        numChannelsPerDataStream :=
                          arrRemove d0.numChannelsPerDataStream idx1 }
            else d0
          else d0
        { d2 with headstages := d2.headstages.set hsNum { h with numStreams := 0 } }
    { d1 with sinkChannels := d1.getNumChannels }

/-- The offset recomputation loop of `setNumChannels`: `channelIndex` runs over the
headstages in slot order. -/
def assignFirstChannels : Int → List Headstage → List Headstage
  | _, [] => []
  | channelIndex, hs :: rest =>
      if hs.isConnected then
        { hs with firstChannelIndex := channelIndex }
          :: assignFirstChannels (channelIndex + hs.getNumActiveChannels) rest
      else hs :: assignFirstChannels channelIndex rest

/-- `setNumChannels (hsNum, numChannels)`. -/
def setNumChannels (d : DeviceThread) (hsNum : Nat) (numChannels : Int) : DeviceThread :=
  match d.headstages[hsNum]? with
  | none => d
  | some h =>
    let d1 : DeviceThread :=
      if h.getNumChannels = 32 then
        let h1 : Headstage :=
          { h with halfChannels := decide (numChannels < h.getNumChannels) }
        { d with headstages := d.headstages.set hsNum h1,
                 numChannelsPerDataStream :=
                   arrSet d.numChannelsPerDataStream (h1.getStreamIndex 0) numChannels }
      else d
    { d1 with headstages := assignFirstChannels 0 d1.headstages }

/-- The `switch` of `setSampleRate`: the value stored in `boardSampleRate` for a sample
rate index, 10 kHz in the `default` case. -/
def sampleRateOf (sampleRateIndex : Int) : ℚ :=
  if sampleRateIndex = 0 then 1000
  else if sampleRateIndex = 1 then 1250
  else if sampleRateIndex = 2 then 1500
  else if sampleRateIndex = 3 then 2000
  else if sampleRateIndex = 4 then 2500
  else if sampleRateIndex = 5 then 3000
  else if sampleRateIndex = 6 then 3333
  else if sampleRateIndex = 7 then 4000
  else if sampleRateIndex = 8 then 5000
  else if sampleRateIndex = 9 then 6250
  else if sampleRateIndex = 10 then 8000
  else if sampleRateIndex = 11 then 10000
  else if sampleRateIndex = 12 then 12500
  else if sampleRateIndex = 13 then 15000
  else if sampleRateIndex = 14 then 20000
  else if sampleRateIndex = 15 then 25000
  else if sampleRateIndex = 16 then 30000
  else 10000

/-- `setSampleRate (sampleRateIndex, isTemporary)`: the two settings it stores. The
impedance thread, the calls on the board and the register update are outside the
embedding. -/
def setSampleRate (d : DeviceThread) (sampleRateIndex : Int) (isTemporary : Bool) :
    DeviceThread :=
  let d1 : DeviceThread :=
    if !isTemporary then { d with savedSampleRateIndex := sampleRateIndex } else d
  { d1 with boardSampleRate := sampleRateOf sampleRateIndex }

end DeviceThread

/-! ## `updateBuffer` -/

/-- Outcome of `usbThread->usbRead (bufferPtr)`: the return code and the buffer. -/
structure UsbRead where
  return_code : Int
  bufferPtr : Buffer

namespace DeviceThread

/-- Body of the DAC loop of `updateBuffer` for slot `k`. -/
def applyDac (d : DeviceThread) (k : Nat) : DeviceThread :=
  if d.dacChannelsToUpdate k then
    let d1 : DeviceThread :=
      { d with dacChannelsToUpdate := Function.update d.dacChannelsToUpdate k false }
    if 0 ≤ d.dacChannels k then
      { d1 with boardLog := d1.boardLog ++
          [BoardCmd.enableDac k true,
           BoardCmd.selectDacDataStream k (d.dacStream k),
           BoardCmd.selectDacDataChannel k (d.dacChannels k),
           BoardCmd.setDacThreshold k (Rat.floor |d.dacThresholds k / 0.195 + 32768|)
             (decide (0 ≤ d.dacThresholds k))] }
    else
      { d1 with boardLog := d1.boardLog ++ [BoardCmd.enableDac k false] }
  else d

/-- The deferred settings block of `updateBuffer`. -/
def applySettings (d : DeviceThread) : DeviceThread :=
  if d.updateSettingsDuringAcquisition then
    let d1 := (List.range 8).foldl applyDac d
    { d1 with
      boardLog := d1.boardLog ++
        [BoardCmd.setTtlMode (if d1.ttlMode then 1 else 0),
         BoardCmd.enableExternalFastSettle d1.fastTTLSettleEnabled,
         BoardCmd.setExternalFastSettleChannel d1.fastSettleTTLChannel,
         BoardCmd.setDacHighpassFilter d1.desiredDAChpf,
         BoardCmd.enableDacHighpassFilter d1.desiredDAChpfState],
      updateSettingsDuringAcquisition := false }
  else d

/-- The digital output block of `updateBuffer`: drains the queue front to back. -/
def drainDigitalOutput (d : DeviceThread) : DeviceThread :=
  if !d.digitalOutputCommands.isEmpty then
    let st := d.digitalOutputCommands.foldl
      (fun s command => Function.update s command.ttlLine (if command.state then 1 else 0))
      d.TTL_OUTPUT_STATE
    { d with
      TTL_OUTPUT_STATE := st,
      digitalOutputCommands := [],
      boardLog := d.boardLog ++ [BoardCmd.setTtlOut ((List.range 16).map fun i => st i)] }
  else d

/-- `updateBuffer`: the returned flag and the controller afterwards. -/
def updateBuffer (K : Consts) (api : DataBlockApi) (d : DeviceThread) (r : UsbRead) :
    Bool × DeviceThread :=
  if r.return_code = 0 then (true, d)
  else
    let res := sampLoop K api d.decodeConfig r.bufferPtr api.getSamplesPerDataBlock 0 0
      d.samples
    let d1 : DeviceThread :=
      { d with
        samples := res.state,
        sink := d.sink ++ res.emitted,
        headerErrors := d.headerErrors + (if res.headerError then 1 else 0) }
    (true, drainDigitalOutput (applySettings d1))

end DeviceThread

/-! ## Port scan -/

/-- The field `auxiliaryData[stream][slot][index]` of a data block read during the scan. -/
structure DataBlock where
  auxiliaryData : Nat → Nat → Nat → Int

/-- The conversion `(char) x` of an `int`. -/
def castChar (x : Int) : Int :=
  if x % 256 < 128 then x % 256 else x % 256 - 256

/-- Code of a character literal. -/
def charCode (c : Char) : Int := (c.toNat : Int)

/-- `getDeviceId (dataBlock, stream, register59Value)`: the returned id and the value left
in `register59Value`. -/
def getDeviceId (dataBlock : DataBlock) (stream : Nat) : Int × Int :=
  let intanChipPresent : Bool :=
    castChar (dataBlock.auxiliaryData stream 2 32) == charCode 'I' &&
    castChar (dataBlock.auxiliaryData stream 2 33) == charCode 'N' &&
    castChar (dataBlock.auxiliaryData stream 2 34) == charCode 'T' &&
    castChar (dataBlock.auxiliaryData stream 2 35) == charCode 'A' &&
    castChar (dataBlock.auxiliaryData stream 2 36) == charCode 'N' &&
    castChar (dataBlock.auxiliaryData stream 2 24) == charCode 'R' &&
    castChar (dataBlock.auxiliaryData stream 2 25) == charCode 'H' &&
    castChar (dataBlock.auxiliaryData stream 2 26) == charCode 'D'
  if !intanChipPresent then (-1, -1)
  else (dataBlock.auxiliaryData stream 2 19, dataBlock.auxiliaryData stream 2 23)

/-- The acceptance test of the sweep on the pair returned by `getDeviceId`. -/
def goodDeviceId (K : Consts) (r : Int × Int) : Bool :=
  r.1 == K.CHIP_ID_RHD2132 || r.1 == K.CHIP_ID_RHD2216 ||
    (r.1 == K.CHIP_ID_RHD2164 && r.2 == K.REGISTER_59_MISO_A)

/-- The tallies of the delay sweep. -/
structure SweepAcc where
  sumGoodDelays : List Int
  indexFirstGoodDelay : List Int
  indexSecondGoodDelay : List Int
  tmpChipId : List Int

/-- Body of the `hs` loop of the sweep at one delay. -/
def sweepSlot (K : Consts) (dataBlock : DataBlock) (delay : Nat) (acc : SweepAcc)
    (hs : Nat) : SweepAcc :=
  let r := getDeviceId dataBlock hs
  if goodDeviceId K r then
    let acc1 : SweepAcc :=
      { acc with sumGoodDelays := arrSet acc.sumGoodDelays hs (arrGet acc.sumGoodDelays hs + 1) }
    if arrGet acc1.indexFirstGoodDelay hs = -1 then
      { acc1 with indexFirstGoodDelay := arrSet acc1.indexFirstGoodDelay hs delay,
                  tmpChipId := arrSet acc1.tmpChipId hs r.1 }
    else if arrGet acc1.indexSecondGoodDelay hs = -1 then
      { acc1 with indexSecondGoodDelay := arrSet acc1.indexSecondGoodDelay hs delay,
                  tmpChipId := arrSet acc1.tmpChipId hs r.1 }
    else acc1
  else acc

/-- One pass of the `delay` loop: all slots at this delay, on the block read back. -/
def sweepDelay (K : Consts) (blocks : Nat → DataBlock) (numHs : Nat) (acc : SweepAcc)
    (delay : Nat) : SweepAcc :=
  (List.range numHs).foldl (sweepSlot K (blocks delay) delay) acc

/-- The 16-delay sweep of `scanPorts`; `blocks delay` is the data block read back at
that delay setting. -/
def sweep (K : Consts) (blocks : Nat → DataBlock) (numHs : Nat) : SweepAcc :=
  (List.range 16).foldl (sweepDelay K blocks numHs)
    { sumGoodDelays := List.replicate (K.MAX_NUM_DATA_STREAMS / 2) 0,
      indexFirstGoodDelay := List.replicate (K.MAX_NUM_DATA_STREAMS / 2) (-1),
      indexSecondGoodDelay := List.replicate (K.MAX_NUM_DATA_STREAMS / 2) (-1),
      tmpChipId := List.replicate (K.MAX_NUM_DATA_STREAMS / 2) (-1) }

/-- The `optimumDelay` array of `scanPorts`. -/
def optimumDelay (acc : SweepAcc) (numHs : Nat) : List Int :=
  (List.range numHs).foldl
    (fun opt hs =>
      if arrGet acc.sumGoodDelays hs = 1 ∨ arrGet acc.sumGoodDelays hs = 2 then
        arrSet opt hs (arrGet acc.indexFirstGoodDelay hs)
      else if 2 < arrGet acc.sumGoodDelays hs then
        arrSet opt hs (arrGet acc.indexSecondGoodDelay hs)
      else opt)
    (List.replicate numHs 0)

/-- The eight final `setCableDelay` calls of `scanPorts`, ports A to H. -/
def cableDelayCommands (opt : List Int) : List BoardCmd :=
  (List.range 8).map fun port =>
    BoardCmd.setCableDelay port (max (arrGet opt (2 * port)) (arrGet opt (2 * port + 1)))

namespace DeviceThread

/-- Loop state of the stream assignment in `scanPorts`: the controller and `chipIdx`. -/
structure AssignAcc where
  device : DeviceThread
  chipIdx : Nat

/-- Body of the stream assignment loop of `scanPorts` for slot `hs`. -/
def assignSlot (K : Consts) (tmpChipId : List Int) (a : AssignAcc) (hs : Nat) : AssignAcc :=
  let d := a.device
  if 0 < arrGet tmpChipId hs ∧ d.enabledStreams.length < K.MAX_NUM_DATA_STREAMS then
    let d1 : DeviceThread := { d with chipId := arrSet d.chipId a.chipIdx (arrGet tmpChipId hs) }
    let chipIdx := a.chipIdx + 1
    if arrGet tmpChipId hs = K.CHIP_ID_RHD2164 then
      if (d1.enabledStreams.length : Int) < (K.MAX_NUM_DATA_STREAMS : Int) - 1 then
        let d2 := d1.enableHeadstage hs true 2 32
        { device := { d2 with chipId := arrSet d2.chipId chipIdx K.CHIP_ID_RHD2164_B },
          chipIdx := chipIdx + 1 }
      else
        { device := d1.enableHeadstage hs true 1 32, chipIdx := chipIdx }
    else
      { device := d1.enableHeadstage hs true 1 (if arrGet tmpChipId hs = 1 then 32 else 16),
        chipIdx := chipIdx }
  else
    { device := d.enableHeadstage hs false 1 32, chipIdx := a.chipIdx }

/-- `updateBoardStreams`. -/
def updateBoardStreams (K : Consts) (d : DeviceThread) : DeviceThread :=
  { d with boardLog := d.boardLog ++
      (List.range K.MAX_NUM_DATA_STREAMS).map fun i =>
        BoardCmd.enableDataStream i (decide ((i : Int) ∈ d.enabledStreams)) }

/-- The stream set-up of `scanPorts` before the sweep: even streams on, odd streams
off. -/
def scanStreamCommands (K : Consts) : List BoardCmd :=
  (List.range ((K.MAX_NUM_DATA_STREAMS + 1) / 2)).flatMap fun j =>
    [BoardCmd.enableDataStream (2 * j) true, BoardCmd.enableDataStream (2 * j + 1) false]

/-- The cable delay writes of the sweep: every port at every delay. -/
def sweepCommands : List BoardCmd :=
  (List.range 16).flatMap fun delay =>
    (List.range 8).map fun port => BoardCmd.setCableDelay port delay

/-- `scanPorts`, given the data blocks the board returns at the 16 delay settings. The
impedance thread, the command bank and run control calls, the cable length estimate and
the temporary switch to 30 kHz for the sweep are outside the embedding; the final
`setSampleRate (settings.savedSampleRateIndex)` restores the saved rate. -/
def scanPorts (K : Consts) (d : DeviceThread) (blocks : Nat → DataBlock) : DeviceThread :=
  if !d.deviceFound then d
  else
    let d1 : DeviceThread :=
      { d with
        enabledStreams := [],
        headstages := d.headstages.map fun h => { h with numStreams := 0 },
        chipId := List.replicate (K.MAX_NUM_DATA_STREAMS / 2) (-1),
        boardLog := d.boardLog ++ scanStreamCommands K ++ sweepCommands }
    let acc := sweep K blocks d.headstages.length
    let a := (List.range d.headstages.length).foldl (assignSlot K acc.tmpChipId)
      { device := d1, chipIdx := 0 }
    let d2 := updateBoardStreams K a.device
    let opt := optimumDelay acc d.headstages.length
    let d3 : DeviceThread := { d2 with boardLog := d2.boardLog ++ cableDelayCommands opt }
    d3.setSampleRate d3.savedSampleRateIndex false

end DeviceThread

/-! ## Runtime setters -/

namespace DeviceThread

/-- `isAcquisitionActive`. -/
def isAcquisitionActive (d : DeviceThread) : Bool := d.isTransmitting

/-- `setDACthreshold (dacOutput, threshold)`. -/
def setDACthreshold (d : DeviceThread) (dacOutput : Nat) (threshold : ℚ) : DeviceThread :=
  { d with
    dacThresholds := Function.update d.dacThresholds dacOutput threshold,
    dacChannelsToUpdate := Function.update d.dacChannelsToUpdate dacOutput true,
    updateSettingsDuringAcquisition := true }

/-- The stream search loop of `setDACchannel`, `n` iterations left at stream position `i`
with running total `channelCount`: the position and in-stream channel stored at the
`break`, or `none` when the loop runs out. -/
def findDacStream (numChannelsPerDataStream : List Int) (channel : Int) :
    Nat → Nat → Int → Option (Nat × Int)
  | 0, _, _ => none
  | n + 1, i, channelCount =>
      if channel < channelCount + arrGet numChannelsPerDataStream i then
        some (i, channel - channelCount)
      else
        findDacStream numChannelsPerDataStream channel n (i + 1)
          (channelCount + arrGet numChannelsPerDataStream i)

/-- `setDACchannel (dacOutput, channel)`. -/
def setDACchannel (d : DeviceThread) (dacOutput : Nat) (channel : Int) : DeviceThread :=
  if channel < d.getNumElectrodeOutputs then
    let d1 : DeviceThread :=
      match findDacStream d.numChannelsPerDataStream channel d.enabledStreams.length 0 0 with
      | some (i, c) =>
          { d with
            dacChannels := Function.update d.dacChannels dacOutput c,
            dacStream := Function.update d.dacStream dacOutput (i : Int) }
      | none => d
    { d1 with
      dacChannelsToUpdate := Function.update d1.dacChannelsToUpdate dacOutput true,
      updateSettingsDuringAcquisition := true }
  else d

/-- `setTTLoutputMode (state)`. -/
def setTTLoutputMode (d : DeviceThread) (state : Bool) : DeviceThread :=
  { d with ttlMode := state, updateSettingsDuringAcquisition := true }

/-- `setDAChpf (cutoff, enabled)`. -/
def setDAChpf (d : DeviceThread) (cutoff : ℚ) (enabled : Bool) : DeviceThread :=
  { d with
    desiredDAChpf := cutoff,
    desiredDAChpfState := enabled,
    updateSettingsDuringAcquisition := true }

/-- `setFastTTLSettle (state, channel)`. -/
def setFastTTLSettle (d : DeviceThread) (state : Bool) (channel : Int) : DeviceThread :=
  { d with
    fastTTLSettleEnabled := state,
    fastSettleTTLChannel := channel,
    updateSettingsDuringAcquisition := true }

/-- `enableBoardLeds (enable)`. -/
def enableBoardLeds (d : DeviceThread) (enable : Bool) : DeviceThread :=
  let d1 : DeviceThread := { d with ledsEnabled := enable }
  if d1.isAcquisitionActive then { d1 with updateSettingsDuringAcquisition := true }
  else d1

/-- `setClockDivider (divide_ratio)`: the returned ratio and the controller afterwards;
the cast to `uint16` is the residue modulo 65536. -/
def setClockDivider (d : DeviceThread) (divide_ratio : Int) : Int × DeviceThread :=
  if !d.deviceFound then (1, d)
  else
    let ratio : Int :=
      if divide_ratio ≠ 1 ∧ Int.tmod divide_ratio 2 ≠ 0 then divide_ratio - 1
      else divide_ratio
    let d1 : DeviceThread :=
      { d with clockDivideFactor := if ratio = 1 then 0 else Int.tdiv ratio 2 % 65536 }
    (ratio,
      if d1.isAcquisitionActive then { d1 with updateSettingsDuringAcquisition := true }
      else d1)

/-- `enableAuxs (t)`; the register update it ends with is outside the embedding. -/
def enableAuxs (d : DeviceThread) (t : Bool) : DeviceThread :=
  let d1 : DeviceThread := { d with acquireAux := t }
  { d1 with sinkChannels := d1.getNumChannels }

/-- `enableAdcs (t)`. -/
def enableAdcs (d : DeviceThread) (t : Bool) : DeviceThread :=
  let d1 : DeviceThread := { d with acquireAdc := t }
  { d1 with sinkChannels := d1.getNumChannels }

/-- The loop `while (!digitalOutputCommands.empty ()) digitalOutputCommands.pop ()`. -/
def popAll : List DigitalOutputCommand → List DigitalOutputCommand
  | [] => []
  | _ :: rest => popAll rest

/-- `stopAcquisition`: the returned flag and the controller afterwards. The USB thread,
the worker thread and the run control calls on the board are outside the embedding. -/
def stopAcquisition (d : DeviceThread) : Bool × DeviceThread :=
  (true,
    { d with
      sink := [],
      isTransmitting := false,
      updateSettingsDuringAcquisition := false,
      digitalOutputTimers := [],
      digitalOutputCommands := popAll d.digitalOutputCommands })

end DeviceThread

/-! ## Broadcast messages -/

/-- The JUCE string operations `handleBroadcastMessage` calls (library code, not in the
sources): `StringArray::fromTokens (msg, " ", "")`, `String::equalsIgnoreCase` and
`String::getIntValue`. -/
structure JuceStringApi where
  fromTokens : String → List String
  equalsIgnoreCase : String → String → Bool
  getIntValue : String → Int

/-- The JUCE call `parts[i]` on a `StringArray`: the empty string out of range. -/
def partGet (parts : List String) (i : Nat) : String := parts.getD i ""

namespace DeviceThread

/-- `handleBroadcastMessage (msg, messageTimeMilliseconds)`; the time stamp is unused. -/
def handleBroadcastMessage (J : JuceStringApi) (d : DeviceThread) (msg : String) :
    DeviceThread :=
  let parts := J.fromTokens msg
  if J.equalsIgnoreCase (partGet parts 0) "RHDCONTROL" then
    if 1 < parts.length then
      let command := partGet parts 1
      if J.equalsIgnoreCase command "TRIGGER" then
        if parts.length = 4 then
          let ttlLine := J.getIntValue (partGet parts 2) - 1
          if ttlLine < 0 ∨ 7 < ttlLine then d
          else
            let eventDurationMs := J.getIntValue (partGet parts 3)
            if eventDurationMs < 10 ∨ 5000 < eventDurationMs then d
            else
              { d with
                digitalOutputCommands :=
                  d.digitalOutputCommands ++ [{ ttlLine := ttlLine, state := true }],
                digitalOutputTimers :=
                  d.digitalOutputTimers ++
                    [{ tllOutputLine := ttlLine, eventDurationMs := eventDurationMs }] }
        else d
      else d
    else d
  else d

end DeviceThread

/-! ## Channel lookups -/

namespace DeviceThread

end DeviceThread

/-! ## Pulse timers, numeric settings and the editor's headstage options -/

namespace DeviceThread

/-- `addDigitalOutputCommand (timerToDelete, ttlLine, state)`; the timer object is named
by its position in `digitalOutputTimers`, and `removeObject` leaves the list as it is
when the object is not in it. -/
def addDigitalOutputCommand (d : DeviceThread) (timerToDelete : Nat) (ttlLine : Int)
    (state : Bool) : DeviceThread :=
  { d with
    digitalOutputCommands := d.digitalOutputCommands ++ [{ ttlLine := ttlLine, state := state }],
    digitalOutputTimers := d.digitalOutputTimers.eraseIdx timerToDelete }

/-- `DigitalOutputTimer::timerCallback` of the timer at position `i` of
`digitalOutputTimers`: the expiry of that timer. -/
def timerCallback (d : DeviceThread) (i : Nat) : DeviceThread :=
  match d.digitalOutputTimers[i]? with
  | none => d
  | some timer => d.addDigitalOutputCommand i timer.tllOutputLine false

/-- `setNoiseSlicerLevel (level)`: the returned level and the controller afterwards; the
call on the board is outside the embedding. -/
def setNoiseSlicerLevel (d : DeviceThread) (level : Int) : Int × DeviceThread :=
  let d1 : DeviceThread := { d with noiseSlicerLevel := level }
  (d1.noiseSlicerLevel, d1)

/-- `foundInputSource`. -/
def foundInputSource (d : DeviceThread) : Bool := d.deviceFound

/-- `getChannelsInHeadstage (hsNum)`. -/
def getChannelsInHeadstage (d : DeviceThread) (hsNum : Nat) : Int :=
  match d.headstages[hsNum]? with
  | none => 0
  | some h => h.getNumChannels

/-- `getActiveChannelsInHeadstage (hsNum)`. -/
def getActiveChannelsInHeadstage (d : DeviceThread) (hsNum : Nat) : Int :=
  match d.headstages[hsNum]? with
  | none => 0
  | some h => h.getNumActiveChannels

end DeviceThread

/-- The state of `ClockDivideInterface` the label handler writes. -/
structure ClockDivideInterface where
  actualDivideRatio : Int

/-- `ClockDivideInterface::labelTextChanged` on the divide ratio label, the label's text
read as `requestedValue`; label texts and status messages are outside the embedding. -/
def ClockDivideInterface.labelTextChanged (ui : ClockDivideInterface) (board : DeviceThread)
    (requestedValue : Int) : ClockDivideInterface × DeviceThread :=
  if board.foundInputSource then
    if requestedValue < 1 ∨ 65534 < requestedValue then (ui, board)
    else
      ({ actualDivideRatio := (board.setClockDivider requestedValue).1 },
        (board.setClockDivider requestedValue).2)
  else (ui, board)

/-- The state of `AudioInterface` the label handler writes. -/
structure AudioInterface where
  actualNoiseSlicerLevel : Int

/-- `AudioInterface::labelTextChanged` on the noise slicer label, the label's text read
as `requestedValue`; label texts and status messages are outside the embedding. -/
def AudioInterface.labelTextChanged (ui : AudioInterface) (board : DeviceThread)
    (requestedValue : Int) : AudioInterface × DeviceThread :=
  if board.foundInputSource then
    if requestedValue < 0 ∨ 127 < requestedValue then (ui, board)
    else
      ({ actualNoiseSlicerLevel := (board.setNoiseSlicerLevel requestedValue).1 },
        (board.setNoiseSlicerLevel requestedValue).2)
  else (ui, board)

/-- The state of `HeadstageOptionsInterface` besides its buttons: the two slots of the
port and the channel counts shown for them. -/
structure HeadstageOptionsInterface where
  hsNumber1 : Nat
  hsNumber2 : Nat
  channelsOnHs1 : Int
  channelsOnHs2 : Int

namespace HeadstageOptionsInterface

/-- `set32Channel (hsIndex, is32Channel)`: the interface and the board afterwards; the
button labels are outside the embedding. -/
def set32Channel (ui : HeadstageOptionsInterface) (board : DeviceThread) (hsIndex : Int)
    ( is32Channel : Bool) : HeadstageOptionsInterface × DeviceThread :=
  if hsIndex = 0 ∧ board.getChannelsInHeadstage ui.hsNumber1 = 32 then
    let ui1 : HeadstageOptionsInterface :=
      { ui with channelsOnHs1 := if is32Channel then 32 else 16 }
    (ui1, board.setNumChannels ui1.hsNumber1 ui1.channelsOnHs1)
  else if hsIndex = 1 ∧ board.getChannelsInHeadstage ui.hsNumber2 = 32 then
    let ui1 : HeadstageOptionsInterface :=
      { ui with channelsOnHs2 := if is32Channel then 32 else 16 }
    (ui1, board.setNumChannels ui1.hsNumber1 ui1.channelsOnHs1)
  else (ui, board)

/-- `buttonClicked (button)` for the first (`second = false`) or second headstage
button, with `acquisitionIsActive` the editor's flag; the button labels and the signal
chain update are outside the embedding. -/
def buttonClicked (ui : HeadstageOptionsInterface) (board : DeviceThread)
    (acquisitionIsActive : Bool) (second : Bool) : HeadstageOptionsInterface × DeviceThread :=
  if !acquisitionIsActive && board.foundInputSource then
    if second = false ∧ board.getChannelsInHeadstage ui.hsNumber1 = 32 then
      let ui1 : HeadstageOptionsInterface :=
        { ui with channelsOnHs1 := if ui.channelsOnHs1 = 32 then 16 else 32 }
      (ui1, board.setNumChannels ui1.hsNumber1 ui1.channelsOnHs1)
    else if second = true ∧ board.getChannelsInHeadstage ui.hsNumber2 = 32 then
      let ui1 : HeadstageOptionsInterface :=
        { ui with channelsOnHs2 := if ui.channelsOnHs2 = 32 then 16 else 32 }
      (ui1, board.setNumChannels ui1.hsNumber2 ui1.channelsOnHs2)
    else (ui, board)
  else (ui, board)

end HeadstageOptionsInterface

/-! ## The trigger message of `RecControllerOutput` -/

/-- The JUCE conversions `RecControllerOutput` uses to build its message (library code,
not in the sources): `String (int)` and `var::toString` on the value of the float
parameter `event_duration`. -/
structure JuceFormatApi where
  ofInt : Int → String
  varToString : ℚ → String

/-- The message `RecControllerOutput::parameterValueChanged` and
`RecControllerOutput::handleTTLEvent` broadcast, for the selected line of `ttl_out` and
the value of `event_duration`. -/
def triggerMessage (F : JuceFormatApi) (selectedLine : Int) (eventDuration : ℚ) : String :=
  "RHDCONTROL TRIGGER " ++ F.ofInt (selectedLine + 1) ++ " " ++ F.varToString eventDuration

/-! ## Documented layout of a frame (written from the specification) -/

/-- Loop bound of the `chan` loop for stream `s`. -/
def nChans (cfg : DecodeConfig) (s : Nat) : Nat :=
  (arrGet cfg.numChannelsPerDataStream s).toNat

/-- Number of electrode values of the streams below `s`. -/
def chanBase (cfg : DecodeConfig) (s : Nat) : Nat :=
  ((List.range s).map (nChans cfg)).sum

/-- Documented byte offset of the word of channel `c` of stream `s` in the frame that
starts at `f`. -/
def electrodeWordOffset (K : Consts) (cfg : DecodeConfig) (f s c : Nat) : Nat :=
  if arrGet cfg.chipId s = K.CHIP_ID_RHD2132 ∧ arrGet cfg.numChannelsPerDataStream s = 16 then
    f + 12 + 6 * cfg.numStreams + 2 * s + 2 * cfg.numStreams * (K.RHD2132_16CH_OFFSET + c)
  else
    f + 12 + 6 * cfg.numStreams + 2 * s + 2 * cfg.numStreams * c

/-- Documented electrode part of a tuple: streams in order, channels in order. -/
def specElectrode (K : Consts) (cfg : DecodeConfig) (buf : Buffer) (f : Nat) : List ℚ :=
  (List.range cfg.numStreams).flatMap fun s =>
    (List.range (nChans cfg s)).map fun c =>
      decodeAmp (readU16 buf (electrodeWordOffset K cfg f s c))

/-- Whether stream `s` contributes auxiliary channels (its chip is not the B half). -/
def hasAux (K : Consts) (cfg : DecodeConfig) (s : Nat) : Bool :=
  decide (arrGet cfg.chipId s ≠ K.CHIP_ID_RHD2164_B)

/-- Number of auxiliary values of the streams below `s`. -/
def auxBase (K : Consts) (cfg : DecodeConfig) (s : Nat) : Nat :=
  3 * ((List.range s).filter (hasAux K cfg)).length

/-- The value held for auxiliary channel `j` of stream `s` at output position `pos` in
frame `samp`: the stored sample on a refresh frame, the buffered value otherwise. -/
def heldAux (samp : Nat) (auxSamples : Nat → Nat → ℚ) (auxBuffer : Nat → ℚ)
    (pos s j : Nat) : ℚ :=
  if (samp + 3) % 4 = 3 then auxSamples s j else auxBuffer pos

/-- Documented auxiliary part of a tuple, starting at output position `base`. -/
def specAux (K : Consts) (cfg : DecodeConfig) (samp : Nat) (auxSamples : Nat → Nat → ℚ)
    (auxBuffer : Nat → ℚ) (base : Nat) : List ℚ :=
  (List.range cfg.numStreams).flatMap fun s =>
    if hasAux K cfg s then
      (List.range 3).map fun j =>
        heldAux samp auxSamples auxBuffer (base + auxBase K cfg s + j) s j
    else []

/-- Documented ADC part of a tuple for the frame that starts at `f`. -/
def specAdc (cfg : DecodeConfig) (buf : Buffer) (f : Nat) : List ℚ :=
  (List.range 8).map fun a =>
    decodeAdc (readU16 buf (f + 12 + 70 * cfg.numStreams + 2 * (cfg.numStreams % 4) + 2 * a))

/-- Documented frame size in bytes for `n` enabled streams. -/
def frameSize (n : Nat) : Nat := 32 + 70 * n + 2 * (n % 4)

/-- Decoder state after the first `k` frames of a block, the loop entered at frame
index `samp` and byte offset `index` with state `st`. -/
def blockState (K : Consts) (api : DataBlockApi) (cfg : DecodeConfig) (buf : Buffer)
    (samp index : Nat) (st : SampleState) : Nat → SampleState
  | 0 => st
  | k + 1 =>
      (decodeFrame K api cfg buf (samp + k) (index + k * frameSize cfg.numStreams)
        (blockState K api cfg buf samp index st k)).state

/-- The tuple of frame `k` of a block: the frame decoded at its documented offset in the
state the preceding frames leave. -/
def blockTuple (K : Consts) (api : DataBlockApi) (cfg : DecodeConfig) (buf : Buffer)
    (samp index : Nat) (st : SampleState) (k : Nat) : Emission :=
  (decodeFrame K api cfg buf (samp + k) (index + k * frameSize cfg.numStreams)
    (blockState K api cfg buf samp index st k)).emission

/-! ## Worked example data -/

/-- Example values of the header constants (those of the Intan RHD2000 interface). -/
def exampleConsts : Consts :=
  { CHIP_ID_RHD2132 := 1
    CHIP_ID_RHD2216 := 2
    CHIP_ID_RHD2164 := 4
    CHIP_ID_RHD2164_B := 1000
    REGISTER_59_MISO_A := 53
    RHD2132_16CH_OFFSET := 8
    MAX_NUM_DATA_STREAMS := 32 }

/-- Example header magic number. -/
def exampleMagic : Nat := 0xd7a22aaa38132a53

/-- Byte `j` of the example header, least significant first. -/
def exampleMagicByte (j : Nat) : Nat := exampleMagic / 256 ^ j % 256

/-- Example data block interface: 256 frames per block, magic header, little endian
timestamp. -/
def exampleApi : DataBlockApi :=
  { getSamplesPerDataBlock := 256
    checkUsbHeader := checkUsbHeaderMagic exampleMagic
    convertUsbTimeStamp := convertUsbTimeStampLE }

/-- A freshly constructed headstage slot `i`. -/
def exampleHeadstage (i : Nat) : Headstage :=
  { slot := i
    dataStream0 := 2 * (i : Int)
    dataStream1 := 2 * (i : Int) + 1
    numStreams := 0
    channelsPerStream := 32
    halfChannels := false
    streamIndex := -1
    firstChannelIndex := 0 }

/-- A freshly constructed controller: 16 slots, nothing enabled, zeroed sample arrays. -/
def exampleDevice : DeviceThread :=
  { deviceFound := true
    headstages := (List.range 16).map exampleHeadstage
    enabledStreams := []
    numChannelsPerDataStream := []
    chipId := []
    acquireAux := true
    acquireAdc := false
    samples := { thisSample := fun _ => 0, auxSamples := fun _ _ => 0, auxBuffer := fun _ => 0 }
    sink := []
    sinkChannels := 2
    headerErrors := 0
    updateSettingsDuringAcquisition := false
    dacStream := fun _ => 0
    dacChannels := fun _ => 0
    dacThresholds := fun _ => 0
    dacChannelsToUpdate := fun _ => false
    ttlMode := false
    fastTTLSettleEnabled := false
    fastSettleTTLChannel := 0
    desiredDAChpf := 0
    desiredDAChpfState := false
    digitalOutputCommands := []
    TTL_OUTPUT_STATE := fun _ => 0
    boardLog := []
    isTransmitting := false
    ledsEnabled := true
    clockDivideFactor := 0
    digitalOutputTimers := []
    noiseSlicerLevel := 0
    savedSampleRateIndex := 16
    boardSampleRate := 30000 }

/-- The example controller with one RHD2216 headstage (one stream of 16 channels) on
slot 0, auxiliary channels on, ADC channels off. -/
def exampleDevice16 : DeviceThread :=
  { exampleDevice with
    headstages := (List.range 16).map fun i =>
      if i = 0 then { exampleHeadstage 0 with numStreams := 1, channelsPerStream := 16,
                                              streamIndex := 0 }
      else exampleHeadstage i
    enabledStreams := [0]
    numChannelsPerDataStream := [16]
    chipId := 2 :: List.replicate 15 (-1)
    sinkChannels := 19 }

/-- A block for one enabled stream (frames of 104 bytes): the first `goodFrames` frames
carry the example header, later frames a zeroed header; the other bytes are `payload`. -/
def exampleBlock (goodFrames : Nat) (payload : Nat → Nat) : Buffer := fun i =>
  if i % 104 < 8 then
    (if i / 104 < goodFrames then exampleMagicByte (i % 104) else 0)
  else payload i

/-- The example block, all 256 headers valid, with the aux word of frame 3 (bytes 326 and
327) set to 36864 and every other payload byte zero. -/
def exampleAuxBlock : Buffer :=
  exampleBlock 256 (fun i => if i = 327 then 144 else 0)

/-! ## Description of the sweep, slot by slot (written from the specification) -/

/-- The tallies of one slot: count, first and second good delay. -/
structure SlotView where
  sum : Int
  first : Int
  second : Int

/-- The tallies of slot `s` inside the sweep arrays. -/
def slotView (acc : SweepAcc) (s : Nat) : SlotView :=
  { sum := arrGet acc.sumGoodDelays s
    first := arrGet acc.indexFirstGoodDelay s
    second := arrGet acc.indexSecondGoodDelay s }

/-- What one delay does to the tallies of one slot. -/
def slotStep (good : Bool) (delay : Nat) (v : SlotView) : SlotView :=
  if good then
    if v.first = -1 then { sum := v.sum + 1, first := delay, second := v.second }
    else if v.second = -1 then { sum := v.sum + 1, first := v.first, second := delay }
    else { sum := v.sum + 1, first := v.first, second := v.second }
  else v

/-- The sweep arrays all have `L` entries. -/
def sweepLengths (acc : SweepAcc) (L : Nat) : Prop :=
  acc.sumGoodDelays.length = L ∧ acc.indexFirstGoodDelay.length = L
    ∧ acc.indexSecondGoodDelay.length = L ∧ acc.tmpChipId.length = L

/-- Whether slot `s` gave a valid match at `delay`. -/
def validMatch (K : Consts) (blocks : Nat → DataBlock) (s delay : Nat) : Bool :=
  goodDeviceId K (getDeviceId (blocks delay) s)

/-- The delays of the sweep at which slot `s` gave a valid match, in increasing order. -/
def hitList (K : Consts) (blocks : Nat → DataBlock) (s : Nat) : List Nat :=
  (List.range 16).filter (validMatch K blocks s)

/-- The set `V_s` of delays in `0 .. 15` at which slot `s` gave a valid match. -/
def validDelays (K : Consts) (blocks : Nat → DataBlock) (s : Nat) : Finset Nat :=
  (Finset.range 16).filter (fun delay => validMatch K blocks s delay = true)

/-- The tallies that describe a list of hits: its length, its first and its second
element (`-1` when missing). -/
def viewOfHits (H : List Nat) : SlotView :=
  { sum := (H.length : Int)
    first := match H with
      | [] => -1
      | a :: _ => (a : Int)
    second := match H with
      | _ :: b :: _ => (b : Int)
      | _ => -1 }

/-- The two ROM markers `INTAN` (positions 32 to 36) and `RHD` (positions 24 to 26) in
the third auxiliary read-back of `stream`. -/
def hasMarkers (dataBlock : DataBlock) (stream : Nat) : Prop :=
  castChar (dataBlock.auxiliaryData stream 2 32) = charCode 'I'
  ∧ castChar (dataBlock.auxiliaryData stream 2 33) = charCode 'N'
  ∧ castChar (dataBlock.auxiliaryData stream 2 34) = charCode 'T'
  ∧ castChar (dataBlock.auxiliaryData stream 2 35) = charCode 'A'
  ∧ castChar (dataBlock.auxiliaryData stream 2 36) = charCode 'N'
  ∧ castChar (dataBlock.auxiliaryData stream 2 24) = charCode 'R'
  ∧ castChar (dataBlock.auxiliaryData stream 2 25) = charCode 'H'
  ∧ castChar (dataBlock.auxiliaryData stream 2 26) = charCode 'D'

/-- The selection rule of `scanPorts` on the tallies of one slot. -/
def pickDelay (v : SlotView) : Int :=
  if v.sum = 1 ∨ v.sum = 2 then v.first
  else if 2 < v.sum then v.second
  else 0

/-- Example read-back: an RHD2132 (chip id 1) answers on slot 0 at the delays 3 to 6 and
nothing answers anywhere else. -/
def exampleScanBlocks (delay : Nat) : DataBlock :=
  { auxiliaryData := fun stream slot index =>
      if stream = 0 ∧ slot = 2 ∧ 3 ≤ delay ∧ delay ≤ 6 then
        (if index = 32 then charCode 'I' else if index = 33 then charCode 'N'
         else if index = 34 then charCode 'T' else if index = 35 then charCode 'A'
         else if index = 36 then charCode 'N' else if index = 24 then charCode 'R'
         else if index = 25 then charCode 'H' else if index = 26 then charCode 'D'
         else if index = 19 then 1 else 0)
      else 0 }

/-! ## Channel offsets (written from the specification) -/

/-- Sum of the active channel counts of the connected headstages of a list. -/
def activeSum (l : List Headstage) : Int :=
  ((l.filter Headstage.isConnected).map Headstage.getNumActiveChannels).sum

/-- The offsets of the connected headstages of `l` count, from `base`, the active
channels of the connected headstages in lower positions. -/
def offsetsFrom (base : Int) (l : List Headstage) : Prop :=
  ∀ i h, l[i]? = some h → h.isConnected = true →
    h.firstChannelIndex = base + activeSum (l.take i)

/-- The first-channel offset of every connected headstage is the sum of the active
channel counts of the connected headstages in lower slots. -/
def offsetsContiguous (d : DeviceThread) : Prop := offsetsFrom 0 d.headstages

/-- The example controller after `enableHeadstage (0, true, 1, 32)`,
`enableHeadstage (1, true, 1, 32)` and `enableHeadstage (0, false)`. -/
def exampleAfterDisable : DeviceThread :=
  ((exampleDevice.enableHeadstage 0 true 1 32).enableHeadstage 1 true 1 32).enableHeadstage
    0 false 1 32

/-- The example controller after `enableHeadstage (1, true, 1, 32)` followed by
`enableHeadstage (0, true, 1, 32)`: the two slots enabled in decreasing slot order. -/
def exampleEnabledDescending : DeviceThread :=
  (exampleDevice.enableHeadstage 1 true 1 32).enableHeadstage 0 true 1 32


/-! ## Worked example data for the registry and the setters -/

/-- Example read-back: an RHD2216 (chip id 2) answers on slot 0 at the delays 3 to 6 and
nothing answers anywhere else. -/
def exampleScanBlocks2216 (delay : Nat) : DataBlock :=
  { auxiliaryData := fun stream slot index =>
      if stream = 0 ∧ slot = 2 ∧ 3 ≤ delay ∧ delay ≤ 6 then
        (if index = 32 then charCode 'I' else if index = 33 then charCode 'N'
         else if index = 34 then charCode 'T' else if index = 35 then charCode 'A'
         else if index = 36 then charCode 'N' else if index = 24 then charCode 'R'
         else if index = 25 then charCode 'H' else if index = 26 then charCode 'D'
         else if index = 19 then 2 else 0)
      else 0 }

/-- The example controller after `enableHeadstage (0, true, 1, 32)`: one 32-channel
headstage on slot 0, auxiliary channels on. -/
def exampleDevice32 : DeviceThread := exampleDevice.enableHeadstage 0 true 1 32

/-! ## Channel lookups (written from the specification) -/

/-- The DAC commands slot `k` is to receive when the deferred settings are applied: none
when the slot is not dirty, enable with stream, channel and threshold selection when its
stored channel is not negative, disable otherwise. -/
def dacCommands (d : DeviceThread) (k : Nat) : List BoardCmd :=
  if d.dacChannelsToUpdate k then
    if 0 ≤ d.dacChannels k then
      [BoardCmd.enableDac k true,
       BoardCmd.selectDacDataStream k (d.dacStream k),
       BoardCmd.selectDacDataChannel k (d.dacChannels k),
       BoardCmd.setDacThreshold k (Rat.floor |d.dacThresholds k / 0.195 + 32768|)
         (decide (0 ≤ d.dacThresholds k))]
    else [BoardCmd.enableDac k false]
  else []

/-- The five global writes: TTL mode, fast settle enable and channel, DAC high-pass
cutoff and enable, each once. -/
def globalCommands (d : DeviceThread) : List BoardCmd :=
  [BoardCmd.setTtlMode (if d.ttlMode then 1 else 0),
   BoardCmd.enableExternalFastSettle d.fastTTLSettleEnabled,
   BoardCmd.setExternalFastSettleChannel d.fastSettleTTLChannel,
   BoardCmd.setDacHighpassFilter d.desiredDAChpf,
   BoardCmd.enableDacHighpassFilter d.desiredDAChpfState]

/-- The digital output write that follows the settings block: one `setTtlOut` with the
queued commands folded into the output state when the queue is not empty. -/
def ttlOutCommands (d : DeviceThread) : List BoardCmd :=
  if d.digitalOutputCommands.isEmpty then []
  else
    [BoardCmd.setTtlOut ((List.range 16).map fun i =>
      (d.digitalOutputCommands.foldl
        (fun s command => Function.update s command.ttlLine (if command.state then 1 else 0))
        d.TTL_OUTPUT_STATE) i)]

/-- Sum of the per-stream channel counts of the stream positions below `s`. -/
def streamBase (numChannelsPerDataStream : List Int) (s : Nat) : Int :=
  ((List.range s).map (arrGet numChannelsPerDataStream)).sum

/-- The example controller with one RHD2216 headstage, the threshold of DAC slot 1 set
and the TTL output mode switched on, both still pending. -/
def examplePending : DeviceThread :=
  (exampleDevice16.setDACthreshold 1 0).setTTLoutputMode true

/-! ## Trigger messages (written from the specification) -/

/-- The line field of a trigger message, made zero-based. -/
def triggerLine (J : JuceStringApi) (msg : String) : Int :=
  J.getIntValue (partGet (J.fromTokens msg) 2) - 1

/-- The duration field of a trigger message. -/
def triggerDuration (J : JuceStringApi) (msg : String) : Int :=
  J.getIntValue (partGet (J.fromTokens msg) 3)

/-- A valid trigger message: four tokens, the tag `RHDCONTROL` and the command `TRIGGER`
(both compared ignoring case), a zero-based line in `[0, 7]` and a duration in
`[10, 5000]`. -/
def validTrigger (J : JuceStringApi) (msg : String) : Prop :=
  (J.fromTokens msg).length = 4
  ∧ J.equalsIgnoreCase (partGet (J.fromTokens msg) 0) "RHDCONTROL" = true
  ∧ J.equalsIgnoreCase (partGet (J.fromTokens msg) 1) "TRIGGER" = true
  ∧ 0 ≤ triggerLine J msg ∧ triggerLine J msg ≤ 7
  ∧ 10 ≤ triggerDuration J msg ∧ triggerDuration J msg ≤ 5000

/-- Example tokenizer: the text between single spaces, the token under construction kept
reversed in the first argument. -/
def exampleTokens : List Char → List Char → List String
  | cur, [] => [String.mk cur.reverse]
  | cur, c :: rest =>
      if c = ' ' then String.mk cur.reverse :: exampleTokens [] rest
      else exampleTokens (c :: cur) rest

/-- Example decimal reader: the value of the leading digits. -/
def exampleDigits : List Char → Int → Int
  | [], acc => acc
  | c :: rest, acc =>
      if c.isDigit then exampleDigits rest (acc * 10 + ((c.toNat : Int) - 48)) else acc

/-- Example string operations for ASCII text: splitting at spaces (no token for an empty
text), comparison after lower-casing, and the value of an optional minus sign followed
by leading digits. -/
def exampleJuce : JuceStringApi :=
  { fromTokens := fun s => if s.data = [] then [] else exampleTokens [] s.data
    equalsIgnoreCase := fun a b => decide (a.data.map Char.toLower = b.data.map Char.toLower)
    getIntValue := fun s =>
      match s.data with
      | '-' :: rest => - exampleDigits rest 0
      | l => exampleDigits l 0 }

/-! ## Digital output (written from the specification) -/

/-- The last command of a queue that names line `l`, if any. -/
def lastCommand (q : List DigitalOutputCommand) (l : Int) : Option DigitalOutputCommand :=
  q.reverse.find? (fun c => decide (c.ttlLine = l))

/-- The TTL output state line `l` is to have after the queue `q` is drained: the state
of the last command naming `l`, or the previous state `old`. -/
def drainedState (q : List DigitalOutputCommand) (old : Int → Int) (l : Int) : Int :=
  match lastCommand q l with
  | some c => if c.state then 1 else 0
  | none => old l

/-- Whether a board command is the TTL output write. -/
def isTtlOut : BoardCmd → Bool
  | BoardCmd.setTtlOut _ => true
  | _ => false

/-- The example controller with two pulses pending on line 2 (a re-trigger: timers of
100 ms and 250 ms) and one on line 5. -/
def exampleTimers : DeviceThread :=
  { exampleDevice with
    digitalOutputCommands :=
      [{ ttlLine := 2, state := true }, { ttlLine := 5, state := true },
       { ttlLine := 2, state := true }]
    digitalOutputTimers :=
      [{ tllOutputLine := 2, eventDurationMs := 100 },
       { tllOutputLine := 5, eventDurationMs := 300 },
       { tllOutputLine := 2, eventDurationMs := 250 }] }

/-- The example controller with two 32-channel headstages, on slots 0 and 1 (the two
headstages of port A). -/
def exampleDeviceTwo : DeviceThread :=
  (exampleDevice.enableHeadstage 0 true 1 32).enableHeadstage 1 true 1 32

/-- The headstage options of port A: slots 0 and 1, both shown with 32 channels. -/
def exampleOptions : HeadstageOptionsInterface :=
  { hsNumber1 := 0, hsNumber2 := 1, channelsOnHs1 := 32, channelsOnHs2 := 32 }

/-- Example decimal writer: the digits of `n`, most significant first, `fuel` digits at
most. -/
def exampleDecimalDigits : Nat → Nat → List Char → List Char
  | 0, _, acc => acc
  | fuel + 1, n, acc =>
      if n / 10 = 0 then Char.ofNat (48 + n % 10) :: acc
      else exampleDecimalDigits fuel (n / 10) (Char.ofNat (48 + n % 10) :: acc)

/-- Example conversions for non-negative values: decimal digits of the integer, and of
the integer part of the parameter value. -/
def exampleFormat : JuceFormatApi :=
  { ofInt := fun n => String.mk (exampleDecimalDigits 20 n.toNat [])
    varToString := fun q => String.mk (exampleDecimalDigits 20 (Rat.floor q).toNat []) }

/-! ## Outcome of the port scan (written from the specification) -/

/-- The chip ids the sweep accepts. -/
def isChipId (K : Consts) (x : Int) : Prop :=
  x = K.CHIP_ID_RHD2132 ∨ x = K.CHIP_ID_RHD2216 ∨ x = K.CHIP_ID_RHD2164

/-- The stream indices a headstage holds in the enabled-stream list: its first stream
with one stream, both with two, none otherwise. -/
def streamsOf (h : Headstage) : List Int :=
  if h.numStreams = 1 then [h.dataStream0]
  else if h.numStreams = 2 then [h.dataStream0, h.dataStream1]
  else []

/-- The per-stream channel counts that go with `streamsOf`. -/
def countsOf (h : Headstage) : List Int :=
  if h.numStreams = 1 then [h.channelsPerStream]
  else if h.numStreams = 2 then [h.channelsPerStream, h.channelsPerStream]
  else []

/-- The stream count and channels per stream a slot is given when it is processed with
`len` streams already enabled and `id` recorded for it by the sweep: nothing without a
positive id or without a free stream, two streams of 32 channels for an RHD2164 when two
streams are free and one otherwise, one stream of 32 channels for id 1 and of 16
channels for any other id. -/
def granted (K : Consts) (id : Int) (len : Nat) : Int × Int :=
  if 0 < id ∧ len < K.MAX_NUM_DATA_STREAMS then
    if id = K.CHIP_ID_RHD2164 then
      (if (len : Int) < (K.MAX_NUM_DATA_STREAMS : Int) - 1 then (2, 32) else (1, 32))
    else (1, if id = 1 then 32 else 16)
  else (0, 0)

/-- Modelled from the spec: the stream indices of different slots are different (the
class `Headstage`, whose constructor assigns them, is not in the sources). -/
def streamsDisjoint (l : List Headstage) : Prop :=
  ∀ (p q : Nat) (hp hq : Headstage), l[p]? = some hp → l[q]? = some hq → p ≠ q →
    hp.dataStream0 ≠ hq.dataStream0 ∧ hp.dataStream0 ≠ hq.dataStream1
      ∧ hp.dataStream1 ≠ hq.dataStream0 ∧ hp.dataStream1 ≠ hq.dataStream1

/-- The assignment loop of `scanPorts` after the slots below `n`, started on the
controller as `scanPorts` has reset it. -/
def assignState (K : Consts) (d : DeviceThread) (blocks : Nat → DataBlock) (n : Nat) :
    DeviceThread.AssignAcc :=
  (List.range n).foldl
    (DeviceThread.assignSlot K (sweep K blocks d.headstages.length).tmpChipId)
    { device :=
        { d with
          enabledStreams := [],
          headstages := d.headstages.map fun h => { h with numStreams := 0 },
          chipId := List.replicate (K.MAX_NUM_DATA_STREAMS / 2) (-1),
          boardLog := d.boardLog ++ DeviceThread.scanStreamCommands K
            ++ DeviceThread.sweepCommands },
      chipIdx := 0 }

/-- The headstage of a slot after the assignment loop has processed it with the grant
`g` (stream count and channels per stream), `first` electrode channels and `len` streams
being enabled before: left disconnected for a grant of no stream. -/
def grantTo (h : Headstage) (g : Int × Int) (first : Int) (len : Nat) : Headstage :=
  if g.1 = 0 then { h with numStreams := 0 }
  else
    { h with firstChannelIndex := first, numStreams := g.1, channelsPerStream := g.2,
             streamIndex := (len : Int) }

/-- Number of streams the slots below `p` hold in the enabled-stream list. -/
def streamsBelow (l : List Headstage) (p : Nat) : Nat :=
  ((l.take p).flatMap streamsOf).length

/-- What holds of the assignment loop of `scanPorts` after the slots below `n`: the
stream indices and the 16-channel flags are those of the headstages `orig` the scan
started from, the slots from `n` on are disconnected, the enabled streams are those of
the slots below `n` in slot order, and every slot below `n` has the stream count and
channels per stream granted for the chip id recorded for it. -/
structure ScanInv (K : Consts) (tmp : List Int) (orig : List Headstage)
    (a : DeviceThread.AssignAcc) (n : Nat) : Prop where
  same : ∀ (p : Nat) (h : Headstage), a.device.headstages[p]? = some h →
    ∃ o, orig[p]? = some o ∧ h.dataStream0 = o.dataStream0 ∧ h.dataStream1 = o.dataStream1
      ∧ h.halfChannels = o.halfChannels
  future : ∀ (p : Nat) (h : Headstage), n ≤ p → a.device.headstages[p]? = some h →
    h.numStreams = 0
  streams : a.device.enabledStreams = (a.device.headstages.take n).flatMap streamsOf
  outcome : ∀ (p : Nat) (h : Headstage), p < n → a.device.headstages[p]? = some h →
    h.numStreams = (granted K (arrGet tmp p) (streamsBelow a.device.headstages p)).1
    ∧ (h.numStreams ≠ 0 →
        h.channelsPerStream
            = (granted K (arrGet tmp p) (streamsBelow a.device.headstages p)).2
        ∧ h.streamIndex = (streamsBelow a.device.headstages p : Int))

/-- What holds in addition when the loop started with an empty list of channel counts:
the channel counts are those of the slots below `n` in slot order, `chipIdx` is the
number of enabled streams and within `chipId`, and the entries of `chipId` below
`chipIdx` other than `CHIP_ID_RHD2164_B` are as many as the connected slots. -/
structure ScanCount (K : Consts) (a : DeviceThread.AssignAcc) (n : Nat) : Prop where
  counts : a.device.numChannelsPerDataStream
    = (a.device.headstages.take n).flatMap countsOf
  idx : a.chipIdx = a.device.enabledStreams.length
  chipLen : a.chipIdx ≤ a.device.chipId.length
  aux : ((List.range a.chipIdx).filter
      fun s => decide (arrGet a.device.chipId s ≠ K.CHIP_ID_RHD2164_B)).length
    = ((a.device.headstages.take n).filter Headstage.isConnected).length

/-! ## Channel count toggles (written from the specification) -/

/-- A call that changes the number of channels of a scanned controller. -/
inductive ToggleOp where
  | setNumChannels (hsNum : Nat) (numChannels : Int)
  | enableAuxs (t : Bool)
  | enableAdcs (t : Bool)

/-- The controller after one toggle. -/
def applyToggle (d : DeviceThread) : ToggleOp → DeviceThread
  | ToggleOp.setNumChannels hsNum numChannels => d.setNumChannels hsNum numChannels
  | ToggleOp.enableAuxs t => d.enableAuxs t
  | ToggleOp.enableAdcs t => d.enableAdcs t

/-- The controller after a sequence of toggles, first to last. -/
def applyToggles (d : DeviceThread) (ops : List ToggleOp) : DeviceThread :=
  ops.foldl applyToggle d

/-- The toggles considered: `setNumChannels` on one of the `numHs` slots with 16 or 32
channels, or an aux or ADC toggle. -/
def validToggle (numHs : Nat) : ToggleOp → Prop
  | ToggleOp.setNumChannels hsNum numChannels =>
      hsNum < numHs ∧ (numChannels = 16 ∨ numChannels = 32)
  | ToggleOp.enableAuxs _ => True
  | ToggleOp.enableAdcs _ => True

/-- Modelled from the spec: a freshly constructed controller has no enabled stream and no
per-stream channel count, every headstage disconnected and in 32-channel mode, and
different stream indices on different slots (the class `Headstage` and the member
initialisers of `DeviceThread.h` are not in the sources). -/
def freshController (d : DeviceThread) : Prop :=
  d.enabledStreams = [] ∧ d.numChannelsPerDataStream = []
    ∧ (∀ h, h ∈ d.headstages → h.numStreams = 0 ∧ h.halfChannels = false)
    ∧ streamsDisjoint d.headstages

/-- The number of values the frame decoder of `updateBuffer` writes per frame, read off
the stream tables: the channel counts of the enabled streams, three per enabled stream
whose chip id is not `CHIP_ID_RHD2164_B` when aux is enabled, eight when ADC is
enabled. -/
def frameWidth (K : Consts) (d : DeviceThread) : Nat :=
  ((List.range d.enabledStreams.length).map
      fun s => (arrGet d.numChannelsPerDataStream s).toNat).sum
    + (if d.acquireAux then
        3 * ((List.range d.enabledStreams.length).filter
              fun s => decide (arrGet d.chipId s ≠ K.CHIP_ID_RHD2164_B)).length
       else 0)
    + (if d.acquireAdc then 8 else 0)

/-- Two headstages that differ at most in the first-channel offset. -/
def sameButFirst (h h1 : Headstage) : Prop :=
  h1 = { h with firstChannelIndex := h1.firstChannelIndex }

/-- The stream tables and the headstage registry agree: one channel count per enabled
stream, none negative, their sum the active channels of the connected headstages; no
negative stream count; a headstage of 32 channels finds its active channel count at its
stream position, different such headstages at different positions; and the enabled
streams whose chip id is not `CHIP_ID_RHD2164_B` are as many as the connected
headstages. -/
structure CountsAgree (K : Consts) (d : DeviceThread) : Prop where
  len : d.numChannelsPerDataStream.length = d.enabledStreams.length
  nonneg : ∀ x, x ∈ d.numChannelsPerDataStream → 0 ≤ x
  total : d.numChannelsPerDataStream.sum = activeSum d.headstages
  streamsNonneg : ∀ h, h ∈ d.headstages → 0 ≤ h.numStreams
  pos : ∀ (p : Nat) (h : Headstage), d.headstages[p]? = some h → h.getNumChannels = 32 →
    0 ≤ h.streamIndex ∧ h.streamIndex.toNat < d.numChannelsPerDataStream.length
      ∧ arrGet d.numChannelsPerDataStream h.streamIndex.toNat = h.getNumActiveChannels
  dist : ∀ (p q : Nat) (hp hq : Headstage), p ≠ q →
    d.headstages[p]? = some hp → d.headstages[q]? = some hq →
    hp.getNumChannels = 32 → hq.getNumChannels = 32 → hp.streamIndex ≠ hq.streamIndex
  aux : ((List.range d.enabledStreams.length).filter
      fun s => decide (arrGet d.chipId s ≠ K.CHIP_ID_RHD2164_B)).length
    = (d.headstages.filter Headstage.isConnected).length
/-! ## Lemmas on the decode loops -/

theorem map_range_update (ts : Nat → ℚ) (next : Nat) (v : ℚ) :
    (List.range (next + 1)).map (Function.update ts next v)
      = (List.range next).map ts ++ [v] := by
  rw [List.range_succ, List.map_append]
  congr 1
  · apply List.map_congr_left
    intro i hi
    have : i ≠ next := Nat.ne_of_lt (List.mem_range.mp hi)
    simp [Function.update, this]
  · simp

theorem map_range_shift (g : Nat → ℚ) (k : Nat) :
    (List.range (k + 1)).map g = g 0 :: (List.range k).map (fun c => g (c + 1)) := by
  rw [List.range_succ_eq_map, List.map_cons, List.map_map]
  rfl

theorem ampChans_list (buf : Buffer) (n : Nat) (k : Nat) :
    ∀ (ci next : Nat) (ts : Nat → ℚ),
      (List.range (ampChans buf n k ci next ts).1).map (ampChans buf n k ci next ts).2
        = (List.range next).map ts
          ++ (List.range k).map (fun c => decodeAmp (readU16 buf (ci + 2 * n * c))) := by
  induction k with
  | zero => intro ci next ts; simp [ampChans]
  | succ k ih =>
    intro ci next ts
    have e : ∀ c, ci + 2 * n + 2 * n * c = ci + 2 * n * (c + 1) := fun c => by ring
    rw [ampChans, ih, map_range_update,
      map_range_shift (fun c => decodeAmp (readU16 buf (ci + 2 * n * c)))]
    simp only [e, Nat.mul_zero, Nat.add_zero, List.append_assoc, List.singleton_append]

theorem ampChans_fst (buf : Buffer) (n : Nat) (k : Nat) :
    ∀ (ci next : Nat) (ts : Nat → ℚ), (ampChans buf n k ci next ts).1 = next + k := by
  induction k with
  | zero => intro ci next ts; simp [ampChans]
  | succ k ih => intro ci next ts; rw [ampChans, ih]; omega

theorem adcChans_list (buf : Buffer) (k : Nat) :
    ∀ (index next : Nat) (ts : Nat → ℚ),
      (List.range (adcChans buf k index next ts).1).map (adcChans buf k index next ts).2
        = (List.range next).map ts
          ++ (List.range k).map (fun a => decodeAdc (readU16 buf (index + 2 * a))) := by
  induction k with
  | zero => intro index next ts; simp [adcChans]
  | succ k ih =>
    intro index next ts
    have e : ∀ c, index + 2 + 2 * c = index + 2 * (c + 1) := fun c => by ring
    rw [adcChans, ih, map_range_update,
      map_range_shift (fun a => decodeAdc (readU16 buf (index + 2 * a)))]
    simp only [e, Nat.mul_zero, Nat.add_zero, List.append_assoc, List.singleton_append]

theorem adcChans_fst (buf : Buffer) (k : Nat) :
    ∀ (index next : Nat) (ts : Nat → ℚ), (adcChans buf k index next ts).1 = next + k := by
  induction k with
  | zero => intro index next ts; simp [adcChans]
  | succ k ih => intro index next ts; rw [adcChans, ih]; omega

theorem chanIndexStart_eq (K : Consts) (cfg : DecodeConfig) (f s c : Nat) :
    chanIndexStart K cfg (f + 8 + 4 + 6 * cfg.numStreams) s + 2 * cfg.numStreams * c
      = electrodeWordOffset K cfg f s c := by
  unfold chanIndexStart electrodeWordOffset
  split <;> ring

theorem ampStreams_succ (K : Consts) (cfg : DecodeConfig) (buf : Buffer) (index : Nat)
    (init : Nat × (Nat → ℚ)) (m : Nat) :
    ampStreams K cfg buf index (m + 1) init
      = ampChans buf cfg.numStreams (nChans cfg m) (chanIndexStart K cfg index m)
          (ampStreams K cfg buf index m init).1 (ampStreams K cfg buf index m init).2 := by
  unfold ampStreams nChans
  rw [List.range_succ, List.foldl_append]
  rfl

theorem ampStreams_list (K : Consts) (cfg : DecodeConfig) (buf : Buffer) (f : Nat)
    (init : Nat × (Nat → ℚ)) (upTo : Nat) :
    (List.range (ampStreams K cfg buf (f + 8 + 4 + 6 * cfg.numStreams) upTo init).1).map
        (ampStreams K cfg buf (f + 8 + 4 + 6 * cfg.numStreams) upTo init).2
      = (List.range init.1).map init.2
        ++ (List.range upTo).flatMap (fun s =>
            (List.range (nChans cfg s)).map fun c =>
              decodeAmp (readU16 buf (electrodeWordOffset K cfg f s c))) := by
  induction upTo with
  | zero => simp [ampStreams]
  | succ m ih =>
    rw [ampStreams_succ, ampChans_list, ih, List.range_succ, List.flatMap_append,
      List.append_assoc]
    simp only [List.flatMap_cons, List.flatMap_nil, List.append_nil, chanIndexStart_eq]

theorem ampStreams_fst (K : Consts) (cfg : DecodeConfig) (buf : Buffer) (index : Nat)
    (init : Nat × (Nat → ℚ)) (upTo : Nat) :
    (ampStreams K cfg buf index upTo init).1 = init.1 + chanBase cfg upTo := by
  induction upTo with
  | zero => simp [ampStreams, chanBase]
  | succ m ih =>
    rw [ampStreams_succ, ampChans_fst, ih]
    unfold chanBase
    rw [List.sum_range_succ]
    omega

theorem auxChan_list (d auxNum : Nat) (a : AuxAcc) (chan : Nat) :
    (List.range (auxChan d auxNum a chan).next).map (auxChan d auxNum a chan).thisSample
      = (List.range a.next).map a.thisSample
        ++ [if auxNum = 3 then a.auxSamples d chan else a.auxBuffer a.next] := by
  unfold auxChan
  simp only [map_range_update]
  by_cases h : auxNum = 3
  · simp [h]
  · simp [h]

theorem auxChan_next (d auxNum : Nat) (a : AuxAcc) (chan : Nat) :
    (auxChan d auxNum a chan).next = a.next + 1 := rfl

theorem auxChan_auxSamples (d auxNum : Nat) (a : AuxAcc) (chan : Nat) :
    (auxChan d auxNum a chan).auxSamples = a.auxSamples := rfl

theorem auxChan_auxBuffer (d auxNum : Nat) (a : AuxAcc) (chan : Nat) :
    (auxChan d auxNum a chan).auxBuffer
      = if auxNum = 3 then Function.update a.auxBuffer a.next (a.auxSamples d chan)
        else a.auxBuffer := rfl

/-- The three-channel copy loop, unrolled. -/
theorem auxFold3_eq (d auxNum : Nat) (a : AuxAcc) :
    (List.range 3).foldl (auxChan d auxNum) a
      = auxChan d auxNum (auxChan d auxNum (auxChan d auxNum a 0) 1) 2 := rfl

theorem auxFold3_next (d auxNum : Nat) (a : AuxAcc) :
    ((List.range 3).foldl (auxChan d auxNum) a).next = a.next + 3 := rfl

theorem auxFold3_auxSamples (d auxNum : Nat) (a : AuxAcc) :
    ((List.range 3).foldl (auxChan d auxNum) a).auxSamples = a.auxSamples := rfl

theorem auxFold3_auxBuffer_hold (d auxNum : Nat) (a : AuxAcc) (h : auxNum ≠ 3) :
    ((List.range 3).foldl (auxChan d auxNum) a).auxBuffer = a.auxBuffer := by
  rw [auxFold3_eq]
  simp [auxChan_auxBuffer, h]

theorem auxFold3_auxBuffer_refresh (d : Nat) (a : AuxAcc) (p : Nat) :
    ((List.range 3).foldl (auxChan d 3) a).auxBuffer p
      = if a.next ≤ p ∧ p < a.next + 3 then a.auxSamples d (p - a.next)
        else a.auxBuffer p := by
  rw [auxFold3_eq]
  simp only [auxChan_auxBuffer, auxChan_next, auxChan_auxSamples, if_true, Function.update_apply]
  by_cases h2 : p = a.next + 1 + 1
  · have e : p - a.next = 2 := by omega
    have c : a.next ≤ p ∧ p < a.next + 3 := by omega
    rw [if_pos h2, if_pos c, e]
  · by_cases h1 : p = a.next + 1
    · have e : p - a.next = 1 := by omega
      have c : a.next ≤ p ∧ p < a.next + 3 := by omega
      rw [if_neg h2, if_pos h1, if_pos c, e]
    · by_cases h0 : p = a.next
      · have e : p - a.next = 0 := by omega
        have c : a.next ≤ p ∧ p < a.next + 3 := by omega
        rw [if_neg h2, if_neg h1, if_pos h0, if_pos c, e]
      · have c : ¬ (a.next ≤ p ∧ p < a.next + 3) := by omega
        rw [if_neg h2, if_neg h1, if_neg h0, if_neg c]

theorem auxFold3_list (d auxNum : Nat) (a : AuxAcc) :
    (List.range ((List.range 3).foldl (auxChan d auxNum) a).next).map
        ((List.range 3).foldl (auxChan d auxNum) a).thisSample
      = (List.range a.next).map a.thisSample
        ++ (List.range 3).map (fun j =>
            if auxNum = 3 then a.auxSamples d j else a.auxBuffer (a.next + j)) := by
  rw [auxFold3_eq, auxChan_list, auxChan_list, auxChan_list]
  have r3 : List.range 3 = [0, 1, 2] := rfl
  simp only [auxChan_next, auxChan_auxSamples, auxChan_auxBuffer, r3, List.map_cons,
    List.map_nil, List.append_assoc, List.singleton_append, List.cons_append, List.nil_append,
    Nat.add_zero]
  by_cases h : auxNum = 3
  · simp [h]
  · simp [h]
theorem auxBase_succ (K : Consts) (cfg : DecodeConfig) (m : Nat) :
    auxBase K cfg (m + 1) = auxBase K cfg m + (if hasAux K cfg m then 3 else 0) := by
  unfold auxBase
  rw [List.range_succ, List.filter_append, List.length_append]
  by_cases h : hasAux K cfg m = true
  · simp [List.filter_cons, h]; ring
  · simp [List.filter_cons, h]

theorem auxBase_mono (K : Consts) (cfg : DecodeConfig) (s m : Nat) (hs : s < m)
    (h : hasAux K cfg s = true) : auxBase K cfg s + 3 ≤ auxBase K cfg m := by
  induction m with
  | zero => omega
  | succ m ih =>
    rw [auxBase_succ]
    by_cases e : s = m
    · subst e; simp [h]
    · have := ih (by omega)
      omega

theorem auxStream_of_not (K : Consts) (cfg : DecodeConfig) (buf : Buffer)
    (samp auxIndex : Nat) (a : AuxAcc) (s : Nat) (h : hasAux K cfg s = false) :
    auxStream K cfg buf samp auxIndex a s = a := by
  unfold hasAux at h
  unfold auxStream
  simp only [decide_eq_false_iff_not] at h
  rw [if_neg h]

theorem auxStream_refresh (K : Consts) (cfg : DecodeConfig) (buf : Buffer)
    (samp auxIndex : Nat) (a : AuxAcc) (s : Nat) (h : hasAux K cfg s = true)
    (hr : (samp + 3) % 4 = 3) :
    auxStream K cfg buf samp auxIndex a s = (List.range 3).foldl (auxChan s 3) a := by
  unfold hasAux at h
  unfold auxStream
  simp only [decide_eq_true_eq] at h
  rw [if_pos h]
  simp only [hr, Nat.lt_irrefl, if_false]

theorem auxStream_hold (K : Consts) (cfg : DecodeConfig) (buf : Buffer)
    (samp auxIndex : Nat) (a : AuxAcc) (s : Nat) (h : hasAux K cfg s = true)
    (hr : (samp + 3) % 4 ≠ 3) :
    auxStream K cfg buf samp auxIndex a s
      = (List.range 3).foldl (auxChan s ((samp + 3) % 4))
          (auxStore a s ((samp + 3) % 4) (decodeAux (readU16 buf (auxIndex + 2 * s)))) := by
  unfold hasAux at h
  unfold auxStream
  simp only [decide_eq_true_eq] at h
  rw [if_pos h]
  have hlt : (samp + 3) % 4 < 3 := by omega
  simp only [hlt, if_true]

theorem auxStreams_succ (K : Consts) (cfg : DecodeConfig) (buf : Buffer)
    (samp auxIndex m : Nat) (a : AuxAcc) :
    auxStreams K cfg buf samp auxIndex (m + 1) a
      = auxStream K cfg buf samp auxIndex (auxStreams K cfg buf samp auxIndex m a) m := by
  unfold auxStreams
  rw [List.range_succ, List.foldl_append]
  rfl

theorem auxStream_next (K : Consts) (cfg : DecodeConfig) (buf : Buffer)
    (samp auxIndex : Nat) (a : AuxAcc) (s : Nat) :
    (auxStream K cfg buf samp auxIndex a s).next
      = a.next + (if hasAux K cfg s then 3 else 0) := by
  by_cases h : hasAux K cfg s = true
  · by_cases hr : (samp + 3) % 4 = 3
    · rw [auxStream_refresh K cfg buf samp auxIndex a s h hr, auxFold3_next, if_pos h]
    · rw [auxStream_hold K cfg buf samp auxIndex a s h hr, auxFold3_next, if_pos h]
      rfl
  · have h' : hasAux K cfg s = false := by simpa using h
    rw [auxStream_of_not K cfg buf samp auxIndex a s h', if_neg h]
    rfl

theorem auxStreams_next (K : Consts) (cfg : DecodeConfig) (buf : Buffer)
    (samp auxIndex : Nat) (a : AuxAcc) (upTo : Nat) :
    (auxStreams K cfg buf samp auxIndex upTo a).next = a.next + auxBase K cfg upTo := by
  induction upTo with
  | zero => simp [auxStreams, auxBase]
  | succ m ih => rw [auxStreams_succ, auxStream_next, ih, auxBase_succ]; omega

theorem auxStreams_auxSamples_refresh (K : Consts) (cfg : DecodeConfig) (buf : Buffer)
    (samp auxIndex : Nat) (a : AuxAcc) (hr : (samp + 3) % 4 = 3) (upTo : Nat) :
    (auxStreams K cfg buf samp auxIndex upTo a).auxSamples = a.auxSamples := by
  induction upTo with
  | zero => simp [auxStreams]
  | succ m ih =>
    rw [auxStreams_succ]
    by_cases h : hasAux K cfg m = true
    · rw [auxStream_refresh K cfg buf samp auxIndex _ m h hr, auxFold3_auxSamples, ih]
    · have h' : hasAux K cfg m = false := by simpa using h
      rw [auxStream_of_not K cfg buf samp auxIndex _ m h', ih]

theorem auxStreams_auxBuffer_hold (K : Consts) (cfg : DecodeConfig) (buf : Buffer)
    (samp auxIndex : Nat) (a : AuxAcc) (hr : (samp + 3) % 4 ≠ 3) (upTo : Nat) :
    (auxStreams K cfg buf samp auxIndex upTo a).auxBuffer = a.auxBuffer := by
  induction upTo with
  | zero => simp [auxStreams]
  | succ m ih =>
    rw [auxStreams_succ]
    by_cases h : hasAux K cfg m = true
    · rw [auxStream_hold K cfg buf samp auxIndex _ m h hr, auxFold3_auxBuffer_hold _ _ _ hr]
      exact ih
    · have h' : hasAux K cfg m = false := by simpa using h
      rw [auxStream_of_not K cfg buf samp auxIndex _ m h', ih]
theorem auxStream_list (K : Consts) (cfg : DecodeConfig) (buf : Buffer)
    (samp auxIndex : Nat) (a : AuxAcc) (s : Nat) :
    (List.range (auxStream K cfg buf samp auxIndex a s).next).map
        (auxStream K cfg buf samp auxIndex a s).thisSample
      = (List.range a.next).map a.thisSample
        ++ (if hasAux K cfg s then
              (List.range 3).map fun j =>
                heldAux samp a.auxSamples a.auxBuffer (a.next + j) s j
            else []) := by
  by_cases h : hasAux K cfg s = true
  · rw [if_pos h]
    by_cases hr : (samp + 3) % 4 = 3
    · rw [auxStream_refresh K cfg buf samp auxIndex a s h hr, auxFold3_list]
      simp only [heldAux, hr, if_true]
    · rw [auxStream_hold K cfg buf samp auxIndex a s h hr, auxFold3_list]
      simp only [heldAux, hr, if_false]
      rfl
  · have h' : hasAux K cfg s = false := by simpa using h
    rw [auxStream_of_not K cfg buf samp auxIndex a s h', if_neg h, List.append_nil]

theorem auxStreams_list (K : Consts) (cfg : DecodeConfig) (buf : Buffer)
    (samp auxIndex : Nat) (a : AuxAcc) (upTo : Nat) :
    (List.range (auxStreams K cfg buf samp auxIndex upTo a).next).map
        (auxStreams K cfg buf samp auxIndex upTo a).thisSample
      = (List.range a.next).map a.thisSample
        ++ (List.range upTo).flatMap (fun s =>
            if hasAux K cfg s then
              (List.range 3).map fun j =>
                heldAux samp a.auxSamples a.auxBuffer (a.next + auxBase K cfg s + j) s j
            else []) := by
  induction upTo with
  | zero => simp [auxStreams]
  | succ m ih =>
    rw [auxStreams_succ, auxStream_list, ih,
      show List.range (m + 1) = List.range m ++ [m] from List.range_succ m,
      List.flatMap_append, List.append_assoc, auxStreams_next]
    simp only [List.flatMap_cons, List.flatMap_nil, List.append_nil]
    by_cases hr : (samp + 3) % 4 = 3
    · simp only [heldAux, hr, if_true,
        auxStreams_auxSamples_refresh K cfg buf samp auxIndex a hr m]
    · simp only [heldAux, hr, if_false,
        auxStreams_auxBuffer_hold K cfg buf samp auxIndex a hr m]

theorem auxStreams_auxBuffer_refresh (K : Consts) (cfg : DecodeConfig) (buf : Buffer)
    (samp auxIndex : Nat) (a : AuxAcc) (hr : (samp + 3) % 4 = 3) (upTo : Nat)
    (s j : Nat) (hs : s < upTo) (h : hasAux K cfg s = true) (hj : j < 3) :
    (auxStreams K cfg buf samp auxIndex upTo a).auxBuffer (a.next + auxBase K cfg s + j)
      = a.auxSamples s j := by
  induction upTo with
  | zero => omega
  | succ m ih =>
    rw [auxStreams_succ]
    by_cases hm : hasAux K cfg m = true
    · rw [auxStream_refresh K cfg buf samp auxIndex _ m hm hr, auxFold3_auxBuffer_refresh,
        auxStreams_next, auxStreams_auxSamples_refresh K cfg buf samp auxIndex a hr m]
      by_cases e : s = m
      · subst e
        have c : a.next + auxBase K cfg s ≤ a.next + auxBase K cfg s + j
            ∧ a.next + auxBase K cfg s + j < a.next + auxBase K cfg s + 3 := by omega
        have e2 : a.next + auxBase K cfg s + j - (a.next + auxBase K cfg s) = j := by omega
        rw [if_pos c, e2]
      · have hlt : s < m := by omega
        have hb := auxBase_mono K cfg s m hlt h
        have c : ¬ (a.next + auxBase K cfg m ≤ a.next + auxBase K cfg s + j
            ∧ a.next + auxBase K cfg s + j < a.next + auxBase K cfg m + 3) := by omega
        rw [if_neg c]
        exact ih hlt
    · have hm' : hasAux K cfg m = false := by simpa using hm
      rw [auxStream_of_not K cfg buf samp auxIndex _ m hm']
      have hlt : s < m := by
        rcases Nat.lt_succ_iff_lt_or_eq.mp hs with h1 | h1
        · exact h1
        · subst h1; rw [h] at hm'; cases hm'
      exact ih hlt

theorem auxStreams_auxSamples_hold (K : Consts) (cfg : DecodeConfig) (buf : Buffer)
    (samp auxIndex : Nat) (a : AuxAcc) (hr : (samp + 3) % 4 ≠ 3) (upTo : Nat)
    (s j : Nat) :
    (auxStreams K cfg buf samp auxIndex upTo a).auxSamples s j
      = if s < upTo ∧ hasAux K cfg s = true ∧ j = (samp + 3) % 4 then
          decodeAux (readU16 buf (auxIndex + 2 * s))
        else a.auxSamples s j := by
  induction upTo with
  | zero => simp [auxStreams]
  | succ m ih =>
    rw [auxStreams_succ]
    by_cases hm : hasAux K cfg m = true
    · rw [auxStream_hold K cfg buf samp auxIndex _ m hm hr, auxFold3_auxSamples]
      unfold auxStore
      simp only [Function.update_apply]
      by_cases e : s = m
      · subst e
        by_cases ej : j = (samp + 3) % 4
        · have c : s < s + 1 ∧ hasAux K cfg s = true ∧ j = (samp + 3) % 4 := ⟨by omega, hm, ej⟩
          rw [if_pos c]
          subst ej
          simp
        · have c : ¬ (s < s + 1 ∧ hasAux K cfg s = true ∧ j = (samp + 3) % 4) := by
            intro hc; exact ej hc.2.2
          have c2 : ¬ (s < s ∧ hasAux K cfg s = true ∧ j = (samp + 3) % 4) := by
            intro hc; exact ej hc.2.2
          rw [if_neg c]
          simp only [if_true, Function.update_apply, if_neg ej, Function.update_noteq ej]
          rw [ih, if_neg c2]
      · rw [if_neg e, ih]
        have c : (s < m ∧ hasAux K cfg s = true ∧ j = (samp + 3) % 4)
            ↔ (s < m + 1 ∧ hasAux K cfg s = true ∧ j = (samp + 3) % 4) := by
          constructor
          · intro hc; exact ⟨by omega, hc.2⟩
          · intro hc; exact ⟨by omega, hc.2⟩
        simp only [c]
    · have hm' : hasAux K cfg m = false := by simpa using hm
      rw [auxStream_of_not K cfg buf samp auxIndex _ m hm', ih]
      have c : (s < m ∧ hasAux K cfg s = true ∧ j = (samp + 3) % 4)
          ↔ (s < m + 1 ∧ hasAux K cfg s = true ∧ j = (samp + 3) % 4) := by
        constructor
        · intro hc; exact ⟨by omega, hc.2⟩
        · intro hc
          refine ⟨?_, hc.2⟩
          rcases Nat.lt_succ_iff_lt_or_eq.mp hc.1 with h1 | h1
          · exact h1
          · subst h1; rw [hc.2.1] at hm'; cases hm'
      simp only [c]

/-! ## The frame decoder against the documented layout -/

theorem decodeFrame_samples (K : Consts) (api : DataBlockApi) (cfg : DecodeConfig)
    (buf : Buffer) (samp f : Nat) (st : SampleState) :
    (decodeFrame K api cfg buf samp f st).emission.samples
      = specElectrode K cfg buf f
        ++ (if cfg.acquireAux then
              specAux K cfg samp st.auxSamples st.auxBuffer (chanBase cfg cfg.numStreams)
            else [])
        ++ (if cfg.acquireAdc then specAdc cfg buf f else []) := by
  have hamp := ampStreams_list K cfg buf f (0, st.thisSample) cfg.numStreams
  have hfst := ampStreams_fst K cfg buf (f + 8 + 4 + 6 * cfg.numStreams) (0, st.thisSample)
    cfg.numStreams
  simp only [List.range_zero, List.map_nil, List.nil_append, Nat.zero_add] at hamp hfst
  rw [hfst] at hamp
  have hoff : ∀ a, f + 8 + 4 + 6 * cfg.numStreams + 64 * cfg.numStreams
      + 2 * (cfg.numStreams % 4) + 2 * a
      = f + 12 + 70 * cfg.numStreams + 2 * (cfg.numStreams % 4) + 2 * a := fun a => by ring
  unfold decodeFrame specElectrode specAux specAdc
  cases hA : cfg.acquireAux <;> cases hD : cfg.acquireAdc
  · simp only [Bool.false_eq_true, if_false, List.append_nil, hamp, hfst]
  · simp only [Bool.false_eq_true, if_false, if_true, List.append_nil, adcChans_list, hamp,
      hfst, hoff]
  · simp only [Bool.false_eq_true, if_false, if_true, List.append_nil, auxStreams_list, hamp,
      hfst]
  · simp only [if_true, adcChans_list, auxStreams_list, hamp, hfst, hoff]

theorem decodeFrame_index (K : Consts) (api : DataBlockApi) (cfg : DecodeConfig)
    (buf : Buffer) (samp f : Nat) (st : SampleState) :
    (decodeFrame K api cfg buf samp f st).index = f + frameSize cfg.numStreams := by
  unfold decodeFrame frameSize
  simp only []
  omega

theorem decodeFrame_timestamp (K : Consts) (api : DataBlockApi) (cfg : DecodeConfig)
    (buf : Buffer) (samp f : Nat) (st : SampleState) :
    (decodeFrame K api cfg buf samp f st).emission.timestamp
      = api.convertUsbTimeStamp buf (f + 8) := rfl

theorem decodeFrame_ttl (K : Consts) (api : DataBlockApi) (cfg : DecodeConfig)
    (buf : Buffer) (samp f : Nat) (st : SampleState) :
    (decodeFrame K api cfg buf samp f st).emission.ttlEventWord
      = readU16 buf (f + 12 + 70 * cfg.numStreams + 2 * (cfg.numStreams % 4) + 16) := by
  unfold decodeFrame
  simp only []
  congr 1
  ring

theorem decodeFrame_auxBuffer_hold (K : Consts) (api : DataBlockApi) (cfg : DecodeConfig)
    (buf : Buffer) (samp f : Nat) (st : SampleState) (hr : (samp + 3) % 4 ≠ 3) :
    (decodeFrame K api cfg buf samp f st).state.auxBuffer = st.auxBuffer := by
  unfold decodeFrame
  cases hA : cfg.acquireAux
  · simp only [Bool.false_eq_true, if_false]
  · simp only [if_true, auxStreams_auxBuffer_hold K cfg buf samp _ _ hr]

theorem decodeFrame_auxSamples_refresh (K : Consts) (api : DataBlockApi)
    (cfg : DecodeConfig) (buf : Buffer) (samp f : Nat) (st : SampleState)
    (hr : (samp + 3) % 4 = 3) :
    (decodeFrame K api cfg buf samp f st).state.auxSamples = st.auxSamples := by
  unfold decodeFrame
  cases hA : cfg.acquireAux
  · simp only [Bool.false_eq_true, if_false]
  · simp only [if_true, auxStreams_auxSamples_refresh K cfg buf samp _ _ hr]

theorem decodeFrame_auxBuffer_refresh (K : Consts) (api : DataBlockApi)
    (cfg : DecodeConfig) (buf : Buffer) (samp f : Nat) (st : SampleState)
    (hA : cfg.acquireAux = true) (hr : (samp + 3) % 4 = 3)
    (s j : Nat) (hs : s < cfg.numStreams) (h : hasAux K cfg s = true) (hj : j < 3) :
    (decodeFrame K api cfg buf samp f st).state.auxBuffer
        (chanBase cfg cfg.numStreams + auxBase K cfg s + j)
      = st.auxSamples s j := by
  have hfst := ampStreams_fst K cfg buf (f + 8 + 4 + 6 * cfg.numStreams) (0, st.thisSample)
    cfg.numStreams
  simp only [Nat.zero_add] at hfst
  unfold decodeFrame
  simp only [hA, if_true]
  have key := auxStreams_auxBuffer_refresh K cfg buf samp (f + 8 + 4 + 2 * cfg.numStreams)
    { next := (ampStreams K cfg buf (f + 8 + 4 + 6 * cfg.numStreams) cfg.numStreams
        (0, st.thisSample)).1,
      thisSample := (ampStreams K cfg buf (f + 8 + 4 + 6 * cfg.numStreams) cfg.numStreams
        (0, st.thisSample)).2,
      auxSamples := st.auxSamples, auxBuffer := st.auxBuffer }
    hr cfg.numStreams s j hs h hj
  simp only [hfst] at key ⊢
  exact key

theorem decodeFrame_auxSamples_hold (K : Consts) (api : DataBlockApi) (cfg : DecodeConfig)
    (buf : Buffer) (samp f : Nat) (st : SampleState)
    (hA : cfg.acquireAux = true) (hr : (samp + 3) % 4 ≠ 3) (s j : Nat) :
    (decodeFrame K api cfg buf samp f st).state.auxSamples s j
      = if s < cfg.numStreams ∧ hasAux K cfg s = true ∧ j = (samp + 3) % 4 then
          decodeAux (readU16 buf (f + 12 + 2 * cfg.numStreams + 2 * s))
        else st.auxSamples s j := by
  unfold decodeFrame
  simp only [hA, if_true]
  rw [auxStreams_auxSamples_hold K cfg buf samp _ _ hr]

theorem map_range_shift_gen {α : Type} (g : Nat → α) (k : Nat) :
    (List.range (k + 1)).map g = g 0 :: (List.range k).map (fun c => g (c + 1)) := by
  rw [List.range_succ_eq_map, List.map_cons, List.map_map]
  rfl

/-! ## The `samp` loop -/

theorem blockState_shift (K : Consts) (api : DataBlockApi) (cfg : DecodeConfig)
    (buf : Buffer) (samp index : Nat) (st : SampleState) (k : Nat) :
    blockState K api cfg buf samp index st (k + 1)
      = blockState K api cfg buf (samp + 1) (index + frameSize cfg.numStreams)
          (decodeFrame K api cfg buf samp index st).state k := by
  induction k with
  | zero => simp [blockState]
  | succ k ih =>
    have e1 : samp + (k + 1) = samp + 1 + k := by omega
    have e2 : index + (k + 1) * frameSize cfg.numStreams
        = index + frameSize cfg.numStreams + k * frameSize cfg.numStreams := by ring
    rw [blockState, ih, e1, e2]
    rfl

theorem blockTuple_shift (K : Consts) (api : DataBlockApi) (cfg : DecodeConfig)
    (buf : Buffer) (samp index : Nat) (st : SampleState) (k : Nat) :
    blockTuple K api cfg buf samp index st (k + 1)
      = blockTuple K api cfg buf (samp + 1) (index + frameSize cfg.numStreams)
          (decodeFrame K api cfg buf samp index st).state k := by
  have e1 : samp + (k + 1) = samp + 1 + k := by omega
  have e2 : index + (k + 1) * frameSize cfg.numStreams
      = index + frameSize cfg.numStreams + k * frameSize cfg.numStreams := by ring
  unfold blockTuple
  rw [blockState_shift, e1, e2]

theorem sampLoop_spec (K : Consts) (api : DataBlockApi) (cfg : DecodeConfig) (buf : Buffer)
    (N : Nat) :
    ∀ (samp index : Nat) (st : SampleState) (m : Nat), m ≤ N →
      (∀ k, k < m → api.checkUsbHeader buf (index + k * frameSize cfg.numStreams) = true) →
      (m < N → api.checkUsbHeader buf (index + m * frameSize cfg.numStreams) = false) →
      (sampLoop K api cfg buf N samp index st).emitted
          = (List.range m).map (blockTuple K api cfg buf samp index st)
        ∧ (sampLoop K api cfg buf N samp index st).state
          = blockState K api cfg buf samp index st m
        ∧ (sampLoop K api cfg buf N samp index st).index
          = index + m * frameSize cfg.numStreams
        ∧ (sampLoop K api cfg buf N samp index st).headerError = decide (m < N) := by
  induction N with
  | zero =>
    intro samp index st m hm _ _
    have : m = 0 := by omega
    subst this
    simp [sampLoop, blockState]
  | succ N ih =>
    intro samp index st m hm hv hb
    cases m with
    | zero =>
      have h0 := hb (by omega)
      simp only [Nat.zero_mul, Nat.add_zero] at h0
      simp [sampLoop, h0, blockState]
    | succ m =>
      have h0 := hv 0 (by omega)
      simp only [Nat.zero_mul, Nat.add_zero] at h0
      have hv' : ∀ k, k < m → api.checkUsbHeader buf
          (index + frameSize cfg.numStreams + k * frameSize cfg.numStreams) = true := by
        intro k hk
        have := hv (k + 1) (by omega)
        rw [show index + (k + 1) * frameSize cfg.numStreams
          = index + frameSize cfg.numStreams + k * frameSize cfg.numStreams by ring] at this
        exact this
      have hb' : m < N → api.checkUsbHeader buf
          (index + frameSize cfg.numStreams + m * frameSize cfg.numStreams) = false := by
        intro hk
        have := hb (by omega)
        rw [show index + (m + 1) * frameSize cfg.numStreams
          = index + frameSize cfg.numStreams + m * frameSize cfg.numStreams by ring] at this
        exact this
      have key := ih (samp + 1) (index + frameSize cfg.numStreams)
        (decodeFrame K api cfg buf samp index st).state m (by omega) hv' hb'
      obtain ⟨k1, k2, k3, k4⟩ := key
      have hidx := decodeFrame_index K api cfg buf samp index st
      simp only [sampLoop, h0, Bool.not_true, Bool.false_eq_true, if_false, hidx]
      refine ⟨?_, ?_, ?_, ?_⟩
      · have hh : blockTuple K api cfg buf samp index st 0
            = (decodeFrame K api cfg buf samp index st).emission := by
          simp [blockTuple, blockState]
        rw [k1, map_range_shift_gen, hh]
        simp only [blockTuple_shift]
      · rw [k2, blockState_shift]
      · rw [k3]; ring
      · rw [k4]; simp

/-! ## `updateBuffer` as a whole -/

theorem applyDac_sink (d : DeviceThread) (k : Nat) :
    (d.applyDac k).sink = d.sink ∧ (d.applyDac k).samples = d.samples
      ∧ (d.applyDac k).headerErrors = d.headerErrors := by
  unfold DeviceThread.applyDac
  split
  · split <;> exact ⟨rfl, rfl, rfl⟩
  · exact ⟨rfl, rfl, rfl⟩

theorem foldl_applyDac_sink (l : List Nat) :
    ∀ d : DeviceThread, (l.foldl DeviceThread.applyDac d).sink = d.sink
      ∧ (l.foldl DeviceThread.applyDac d).samples = d.samples
      ∧ (l.foldl DeviceThread.applyDac d).headerErrors = d.headerErrors := by
  induction l with
  | nil => intro d; exact ⟨rfl, rfl, rfl⟩
  | cons k l ih =>
    intro d
    rw [List.foldl_cons]
    obtain ⟨h1, h2, h3⟩ := ih (d.applyDac k)
    obtain ⟨g1, g2, g3⟩ := applyDac_sink d k
    exact ⟨h1.trans g1, h2.trans g2, h3.trans g3⟩

theorem applySettings_sink (d : DeviceThread) :
    d.applySettings.sink = d.sink ∧ d.applySettings.samples = d.samples
      ∧ d.applySettings.headerErrors = d.headerErrors := by
  unfold DeviceThread.applySettings
  split
  · exact foldl_applyDac_sink (List.range 8) d
  · exact ⟨rfl, rfl, rfl⟩

theorem drainDigitalOutput_sink (d : DeviceThread) :
    d.drainDigitalOutput.sink = d.sink ∧ d.drainDigitalOutput.samples = d.samples
      ∧ d.drainDigitalOutput.headerErrors = d.headerErrors := by
  unfold DeviceThread.drainDigitalOutput
  split <;> exact ⟨rfl, rfl, rfl⟩

theorem updateBuffer_decoded (K : Consts) (api : DataBlockApi) (d : DeviceThread)
    (r : UsbRead) (h : r.return_code ≠ 0) :
    (d.updateBuffer K api r).2.sink
        = d.sink ++ (sampLoop K api d.decodeConfig r.bufferPtr api.getSamplesPerDataBlock 0 0
            d.samples).emitted
      ∧ (d.updateBuffer K api r).2.samples
        = (sampLoop K api d.decodeConfig r.bufferPtr api.getSamplesPerDataBlock 0 0
            d.samples).state
      ∧ (d.updateBuffer K api r).2.headerErrors
        = d.headerErrors + (if (sampLoop K api d.decodeConfig r.bufferPtr
            api.getSamplesPerDataBlock 0 0 d.samples).headerError then 1 else 0) := by
  unfold DeviceThread.updateBuffer
  rw [if_neg h]
  simp only []
  obtain ⟨a1, a2, a3⟩ := drainDigitalOutput_sink (DeviceThread.applySettings
    { d with
      samples := (sampLoop K api d.decodeConfig r.bufferPtr api.getSamplesPerDataBlock 0 0
        d.samples).state,
      sink := d.sink ++ (sampLoop K api d.decodeConfig r.bufferPtr
        api.getSamplesPerDataBlock 0 0 d.samples).emitted,
      headerErrors := d.headerErrors + (if (sampLoop K api d.decodeConfig r.bufferPtr
        api.getSamplesPerDataBlock 0 0 d.samples).headerError then 1 else 0) })
  obtain ⟨b1, b2, b3⟩ := applySettings_sink
    { d with
      samples := (sampLoop K api d.decodeConfig r.bufferPtr api.getSamplesPerDataBlock 0 0
        d.samples).state,
      sink := d.sink ++ (sampLoop K api d.decodeConfig r.bufferPtr
        api.getSamplesPerDataBlock 0 0 d.samples).emitted,
      headerErrors := d.headerErrors + (if (sampLoop K api d.decodeConfig r.bufferPtr
        api.getSamplesPerDataBlock 0 0 d.samples).headerError then 1 else 0) }
  exact ⟨a1.trans b1, a2.trans b2, a3.trans b3⟩

theorem updateBuffer_fst (K : Consts) (api : DataBlockApi) (d : DeviceThread)
    (r : UsbRead) : (d.updateBuffer K api r).1 = true := by
  unfold DeviceThread.updateBuffer
  split <;> rfl

theorem exampleBlock_header (goodFrames : Nat) (payload : Nat → Nat) (k : Nat) :
    checkUsbHeaderMagic exampleMagic (exampleBlock goodFrames payload) (k * 104)
      = decide (k < goodFrames) := by
  have hm : ∀ j, j < 8 → (k * 104 + j) % 104 = j := by
    intro j hj
    rw [Nat.add_mod, Nat.mul_mod_left, Nat.zero_add, Nat.mod_mod, Nat.mod_eq_of_lt (by omega)]
  have hd : ∀ j, j < 8 → (k * 104 + j) / 104 = k := by
    intro j hj
    omega
  have hb : ∀ j, j < 8 → exampleBlock goodFrames payload (k * 104 + j)
      = if k < goodFrames then exampleMagicByte j else 0 := by
    intro j hj
    unfold exampleBlock
    rw [hm j hj, hd j hj, if_pos hj]
  have r8 : List.range 8 = [0, 1, 2, 3, 4, 5, 6, 7] := by decide
  unfold checkUsbHeaderMagic
  rw [r8]
  simp only [List.foldr_cons, List.foldr_nil]
  rw [hb 0 (by omega), hb 1 (by omega), hb 2 (by omega), hb 3 (by omega), hb 4 (by omega),
    hb 5 (by omega), hb 6 (by omega), hb 7 (by omega)]
  by_cases h : k < goodFrames
  · simp only [h, if_true, decide_True]
    decide
  · simp only [h, if_false, decide_False]
    decide

theorem leading_valid_exists (p : Nat → Bool) (N : Nat) :
    ∃ m, m ≤ N ∧ (∀ k, k < m → p k = true) ∧ (m < N → p m = false) := by
  induction N with
  | zero => exact ⟨0, Nat.le_refl 0, fun k hk => absurd hk (Nat.not_lt_zero k), fun h => absurd h (Nat.lt_irrefl 0)⟩
  | succ N ih =>
    obtain ⟨m, hm, hv, hb⟩ := ih
    by_cases hlt : m < N
    · exact ⟨m, by omega, hv, fun _ => hb hlt⟩
    · have hmN : m = N := by omega
      subst hmN
      cases hp : p m
      · exact ⟨m, by omega, hv, fun _ => hp⟩
      · refine ⟨m + 1, by omega, ?_, fun h => absurd h (Nat.lt_irrefl _)⟩
        intro k hk
        by_cases hkm : k < m
        · exact hv k hkm
        · have : k = m := by omega
          rw [this]; exact hp

theorem specElectrode_length (K : Consts) (cfg : DecodeConfig) (buf : Buffer) (f : Nat) :
    (specElectrode K cfg buf f).length = chanBase cfg cfg.numStreams := by
  unfold specElectrode chanBase
  rw [List.length_flatMap]
  congr 1
  apply List.map_congr_left
  intro s _
  simp

theorem specAux_length (K : Consts) (cfg : DecodeConfig) (samp : Nat)
    (auxSamples : Nat → Nat → ℚ) (auxBuffer : Nat → ℚ) (base : Nat) :
    (specAux K cfg samp auxSamples auxBuffer base).length = auxBase K cfg cfg.numStreams := by
  unfold specAux
  generalize cfg.numStreams = n
  induction n with
  | zero => simp [auxBase]
  | succ m ih =>
    rw [List.range_succ, List.flatMap_append, List.length_append, ih, auxBase_succ]
    by_cases h : hasAux K cfg m = true
    · simp [h]
    · simp [h]

theorem specAdc_length (cfg : DecodeConfig) (buf : Buffer) (f : Nat) :
    (specAdc cfg buf f).length = 8 := by
  unfold specAdc
  simp

theorem decodeFrame_samples_length (K : Consts) (api : DataBlockApi) (cfg : DecodeConfig)
    (buf : Buffer) (samp f : Nat) (st : SampleState) :
    (decodeFrame K api cfg buf samp f st).emission.samples.length
      = chanBase cfg cfg.numStreams
        + (if cfg.acquireAux then auxBase K cfg cfg.numStreams else 0)
        + (if cfg.acquireAdc then 8 else 0) := by
  rw [decodeFrame_samples, List.length_append, List.length_append, specElectrode_length]
  cases cfg.acquireAux <;> cases cfg.acquireAdc <;>
    simp [specAux_length, specAdc_length]

theorem updateBuffer_appends (K : Consts) (api : DataBlockApi) (d : DeviceThread)
    (r : UsbRead) (h : r.return_code ≠ 0) :
    ∃ m, m ≤ api.getSamplesPerDataBlock
      ∧ (d.updateBuffer K api r).2.sink
        = d.sink ++ (List.range m).map
            (blockTuple K api d.decodeConfig r.bufferPtr 0 0 d.samples) := by
  obtain ⟨m, hm, hv, hb⟩ := leading_valid_exists
    (fun k => api.checkUsbHeader r.bufferPtr (0 + k * frameSize d.decodeConfig.numStreams))
    api.getSamplesPerDataBlock
  have key := sampLoop_spec K api d.decodeConfig r.bufferPtr api.getSamplesPerDataBlock
    0 0 d.samples m hm hv hb
  refine ⟨m, hm, ?_⟩
  rw [(updateBuffer_decoded K api d r h).1, key.1]

theorem flatMap_range_getElem (m : Nat → Nat) (g : Nat → Nat → ℚ) (n : Nat) :
    ∀ s c, s < n → c < m s →
      ((List.range n).flatMap (fun t => (List.range (m t)).map (g t)))[
          ((List.range s).map m).sum + c]? = some (g s c) := by
  induction n with
  | zero => intro s c hs; omega
  | succ n ih =>
    intro s c hs hc
    have hlen : ((List.range n).flatMap (fun t => (List.range (m t)).map (g t))).length
        = ((List.range n).map m).sum := by
      rw [List.length_flatMap]
      congr 1
      apply List.map_congr_left
      intro t _
      simp
    rw [List.range_succ, List.flatMap_append]
    by_cases e : s = n
    · subst e
      rw [List.getElem?_append_right (by omega), hlen]
      simp [hc]
    · have hsn : s < n := by omega
      have hle : ((List.range s).map m).sum + c < ((List.range n).map m).sum := by
        have hmono : ∀ n', s < n' → ((List.range s).map m).sum + m s
            ≤ ((List.range n').map m).sum := by
          intro n' hn'
          induction n' with
          | zero => omega
          | succ n' ih' =>
            rw [List.sum_range_succ]
            by_cases e' : s = n'
            · subst e'; omega
            · have := ih' (by omega); omega
        have := hmono n hsn
        omega
      rw [List.getElem?_append_left (by omega)]
      exact ih s c hsn hc

theorem readU16_lt (buf : Buffer) (i : Nat) : readU16 buf i < 65536 := by
  unfold readU16
  have h1 : buf i % 256 < 256 := Nat.mod_lt _ (by decide)
  have h2 : buf (i + 1) % 256 < 256 := Nat.mod_lt _ (by decide)
  omega

theorem decodeFrame_electrode_at (K : Consts) (api : DataBlockApi) (cfg : DecodeConfig)
    (buf : Buffer) (samp f : Nat) (st : SampleState) (s c : Nat)
    (hs : s < cfg.numStreams) (hc : c < nChans cfg s) :
    (decodeFrame K api cfg buf samp f st).emission.samples[chanBase cfg s + c]?
      = some (decodeAmp (readU16 buf (electrodeWordOffset K cfg f s c))) := by
  have hlt : chanBase cfg s + c < (specElectrode K cfg buf f).length := by
    have h := flatMap_range_getElem (nChans cfg)
      (fun s c => decodeAmp (readU16 buf (electrodeWordOffset K cfg f s c)))
      cfg.numStreams s c hs hc
    have h2 : (specElectrode K cfg buf f)[chanBase cfg s + c]?
        = some (decodeAmp (readU16 buf (electrodeWordOffset K cfg f s c))) := h
    by_contra hcon
    rw [List.getElem?_eq_none (by omega)] at h2
    cases h2
  rw [decodeFrame_samples, List.append_assoc, List.getElem?_append_left hlt]
  exact flatMap_range_getElem (nChans cfg)
    (fun s c => decodeAmp (readU16 buf (electrodeWordOffset K cfg f s c)))
    cfg.numStreams s c hs hc

theorem decodeFrame_adc_at (K : Consts) (api : DataBlockApi) (cfg : DecodeConfig)
    (buf : Buffer) (samp f : Nat) (st : SampleState) (hD : cfg.acquireAdc = true)
    (a : Nat) (ha : a < 8) :
    (decodeFrame K api cfg buf samp f st).emission.samples[
        chanBase cfg cfg.numStreams
          + (if cfg.acquireAux then auxBase K cfg cfg.numStreams else 0) + a]?
      = some (decodeAdc (readU16 buf
          (f + 12 + 70 * cfg.numStreams + 2 * (cfg.numStreams % 4) + 2 * a))) := by
  rw [decodeFrame_samples, hD, if_pos rfl]
  have hl : (specElectrode K cfg buf f
      ++ (if cfg.acquireAux then
            specAux K cfg samp st.auxSamples st.auxBuffer (chanBase cfg cfg.numStreams)
          else [])).length
      = chanBase cfg cfg.numStreams
        + (if cfg.acquireAux then auxBase K cfg cfg.numStreams else 0) := by
    rw [List.length_append, specElectrode_length]
    cases cfg.acquireAux <;> simp [specAux_length]
  rw [List.getElem?_append_right (by omega), hl]
  unfold specAdc
  simp [ha]

/-! ## Claims on the block decoder -/

theorem blockTuple_samples (K : Consts) (api : DataBlockApi) (cfg : DecodeConfig)
    (buf : Buffer) (st : SampleState) (k : Nat) :
    (blockTuple K api cfg buf 0 0 st k).samples
      = specElectrode K cfg buf (k * frameSize cfg.numStreams)
        ++ (if cfg.acquireAux then
              specAux K cfg k (blockState K api cfg buf 0 0 st k).auxSamples
                (blockState K api cfg buf 0 0 st k).auxBuffer (chanBase cfg cfg.numStreams)
            else [])
        ++ (if cfg.acquireAdc then specAdc cfg buf (k * frameSize cfg.numStreams) else []) := by
  unfold blockTuple
  rw [Nat.zero_add, Nat.zero_add, decodeFrame_samples]

/-- C1: a zero-length read appends nothing to the sink; a non-empty read of a block whose
first `m` frames have a valid header (`m` being the block length, or the index of the
first frame with an invalid header) appends exactly the tuples of frames `0 .. m - 1`, in
frame order, each carrying the timestamp read from its own frame, and nothing for frame
`m` or any later frame. -/
theorem updateBuffer_emits_frames_before_bad_header (K : Consts) (api : DataBlockApi)
    (d : DeviceThread) (r : UsbRead) :
    (r.return_code = 0 → (d.updateBuffer K api r).2.sink = d.sink)
    ∧ (r.return_code ≠ 0 → ∀ m, m ≤ api.getSamplesPerDataBlock →
        (∀ k, k < m →
          api.checkUsbHeader r.bufferPtr (k * frameSize d.enabledStreams.length) = true) →
        (m < api.getSamplesPerDataBlock →
          api.checkUsbHeader r.bufferPtr (m * frameSize d.enabledStreams.length) = false) →
        (d.updateBuffer K api r).2.sink
            = d.sink ++ (List.range m).map
                (blockTuple K api d.decodeConfig r.bufferPtr 0 0 d.samples)
          ∧ ((d.updateBuffer K api r).2.sink).length = d.sink.length + m
          ∧ ∀ k, (blockTuple K api d.decodeConfig r.bufferPtr 0 0 d.samples k).timestamp
              = api.convertUsbTimeStamp r.bufferPtr
                  (k * frameSize d.enabledStreams.length + 8)) := by
  constructor
  · intro h
    unfold DeviceThread.updateBuffer
    rw [if_pos h]
  · intro h m hm hv hb
    have hv' : ∀ k, k < m → api.checkUsbHeader r.bufferPtr
        (0 + k * frameSize d.decodeConfig.numStreams) = true := by
      intro k hk; rw [Nat.zero_add]; exact hv k hk
    have hb' : m < api.getSamplesPerDataBlock → api.checkUsbHeader r.bufferPtr
        (0 + m * frameSize d.decodeConfig.numStreams) = false := by
      intro hk; rw [Nat.zero_add]; exact hb hk
    have key := sampLoop_spec K api d.decodeConfig r.bufferPtr api.getSamplesPerDataBlock
      0 0 d.samples m hm hv' hb'
    have hs : (d.updateBuffer K api r).2.sink
        = d.sink ++ (List.range m).map
            (blockTuple K api d.decodeConfig r.bufferPtr 0 0 d.samples) := by
      rw [(updateBuffer_decoded K api d r h).1, key.1]
    refine ⟨hs, ?_, ?_⟩
    · rw [hs]; simp
    · intro k
      unfold blockTuple
      rw [decodeFrame_timestamp, Nat.zero_add]
      rfl

theorem updateBuffer_emits_frames_before_bad_header_witness :
    ((1 : Int) ≠ 0 ∧ 2 ≤ exampleApi.getSamplesPerDataBlock)
    ∧ ((exampleDevice16.updateBuffer exampleConsts exampleApi
          { return_code := 1, bufferPtr := exampleBlock 2 (fun _ => 0) }).2.sink
        = exampleDevice16.sink ++ (List.range 2).map
            (blockTuple exampleConsts exampleApi exampleDevice16.decodeConfig
              (exampleBlock 2 (fun _ => 0)) 0 0 exampleDevice16.samples)) :=
  ⟨⟨by decide, by decide⟩,
    ((updateBuffer_emits_frames_before_bad_header exampleConsts exampleApi exampleDevice16
      { return_code := 1, bufferPtr := exampleBlock 2 (fun _ => 0) }).2 (by decide) 2
      (by decide)
      (by
        intro k hk
        have e : frameSize exampleDevice16.enabledStreams.length = 104 := by decide
        rw [e]
        show checkUsbHeaderMagic exampleMagic (exampleBlock 2 (fun _ => 0)) (k * 104) = true
        rw [exampleBlock_header]
        simpa using hk)
      (by
        intro _
        have e : frameSize exampleDevice16.enabledStreams.length = 104 := by decide
        rw [e]
        show checkUsbHeaderMagic exampleMagic (exampleBlock 2 (fun _ => 0)) (2 * 104) = false
        rw [exampleBlock_header]
        decide)).1⟩

/-- C2: every tuple `updateBuffer` appends is the tuple of some frame `k` of the block, and
its sample vector is, from index 0 on, the electrode values of the enabled streams in
stream and channel order (`numChannelsPerDataStream[s]` values for stream `s`), then, only
when aux acquisition is on, 3 held aux values for each stream whose chip is not
`RHD2164_B`, then, only when ADC acquisition is on, 8 ADC values. With one 16-channel
stream (its chip not the B half), aux on and ADC off every tuple holds 19 values. -/
theorem updateBuffer_tuple_layout (K : Consts) (api : DataBlockApi) (d : DeviceThread)
    (r : UsbRead) (h : r.return_code ≠ 0) :
    (∃ m, m ≤ api.getSamplesPerDataBlock
      ∧ (d.updateBuffer K api r).2.sink
        = d.sink ++ (List.range m).map
            (blockTuple K api d.decodeConfig r.bufferPtr 0 0 d.samples))
    ∧ (∀ k,
        (blockTuple K api d.decodeConfig r.bufferPtr 0 0 d.samples k).samples
          = specElectrode K d.decodeConfig r.bufferPtr (k * frameSize d.enabledStreams.length)
            ++ (if d.acquireAux then
                  specAux K d.decodeConfig k
                    (blockState K api d.decodeConfig r.bufferPtr 0 0 d.samples k).auxSamples
                    (blockState K api d.decodeConfig r.bufferPtr 0 0 d.samples k).auxBuffer
                    (chanBase d.decodeConfig d.enabledStreams.length)
                else [])
            ++ (if d.acquireAdc then
                  specAdc d.decodeConfig r.bufferPtr (k * frameSize d.enabledStreams.length)
                else []))
    ∧ (∀ f, (specElectrode K d.decodeConfig r.bufferPtr f).length
          = ((List.range d.enabledStreams.length).map
              fun s => (arrGet d.numChannelsPerDataStream s).toNat).sum)
    ∧ (∀ samp auxSamples auxBuffer base,
        (specAux K d.decodeConfig samp auxSamples auxBuffer base).length
          = 3 * ((List.range d.enabledStreams.length).filter
              fun s => decide (arrGet d.chipId s ≠ K.CHIP_ID_RHD2164_B)).length)
    ∧ (∀ f, (specAdc d.decodeConfig r.bufferPtr f).length = 8)
    ∧ (d.enabledStreams.length = 1 → arrGet d.numChannelsPerDataStream 0 = 16 →
        d.acquireAux = true → d.acquireAdc = false →
        arrGet d.chipId 0 ≠ K.CHIP_ID_RHD2164_B →
        ∀ k, (blockTuple K api d.decodeConfig r.bufferPtr 0 0 d.samples k).samples.length
          = 19) := by
  refine ⟨updateBuffer_appends K api d r h, ?_, ?_, ?_, ?_, ?_⟩
  · intro k
    exact blockTuple_samples K api d.decodeConfig r.bufferPtr d.samples k
  · intro f
    exact specElectrode_length K d.decodeConfig r.bufferPtr f
  · intro samp auxSamples auxBuffer base
    exact specAux_length K d.decodeConfig samp auxSamples auxBuffer base
  · intro f
    exact specAdc_length d.decodeConfig r.bufferPtr f
  · intro h1 h16 hA hD hB k
    unfold blockTuple
    rw [decodeFrame_samples_length]
    have hn : d.decodeConfig.numStreams = 1 := h1
    have hA' : d.decodeConfig.acquireAux = true := hA
    have hD' : d.decodeConfig.acquireAdc = false := hD
    have hh : hasAux K d.decodeConfig 0 = true := by
      unfold hasAux
      exact decide_eq_true hB
    have hc : chanBase d.decodeConfig 1 = 16 := by
      have e : arrGet d.decodeConfig.numChannelsPerDataStream 0 = 16 := h16
      have r1 : List.range 1 = [0] := rfl
      unfold chanBase
      rw [r1]
      simp only [List.map_cons, List.map_nil, List.sum_cons, List.sum_nil, nChans, e]
      rfl
    have ha : auxBase K d.decodeConfig 1 = 3 := by
      have r0 : auxBase K d.decodeConfig 0 = 0 := rfl
      rw [auxBase_succ, r0, hh]
      rfl
    rw [hn, hA', hD', hc, ha]
    rfl

theorem updateBuffer_tuple_layout_witness :
    ((1 : Int) ≠ 0 ∧ exampleDevice16.enabledStreams.length = 1
      ∧ arrGet exampleDevice16.chipId 0 ≠ exampleConsts.CHIP_ID_RHD2164_B)
    ∧ ∀ k, (blockTuple exampleConsts exampleApi exampleDevice16.decodeConfig
        (exampleBlock 3 (fun _ => 0)) 0 0 exampleDevice16.samples k).samples.length = 19 :=
  ⟨⟨by decide, by decide, by decide⟩,
    (updateBuffer_tuple_layout exampleConsts exampleApi exampleDevice16
      { return_code := 1, bufferPtr := exampleBlock 3 (fun _ => 0) } (by decide)).2.2.2.2.2
      (by decide) (by decide) rfl rfl (by decide)⟩

/-- C3: in the frame that starts at byte offset `f`, with `n` enabled streams, the
electrode sample of channel `c` of stream `s` (written at output position
`chanBase s + c`) is decoded from the 16-bit word at `f + 12 + 6n + 2s + 2n*c`, or at
`f + 12 + 6n + 2s + 2n*(RHD2132_16CH_OFFSET + c)` when the chip of `s` is an RHD2132 with
16 channels; consecutive channels of a stream are `2n` bytes apart. -/
theorem decodeFrame_electrode_offset (K : Consts) (api : DataBlockApi) (cfg : DecodeConfig)
    (buf : Buffer) (samp f : Nat) (st : SampleState) (s c : Nat)
    (hs : s < cfg.numStreams) (hc : (c : Int) < arrGet cfg.numChannelsPerDataStream s) :
    (decodeFrame K api cfg buf samp f st).emission.samples[chanBase cfg s + c]?
        = some (decodeAmp (readU16 buf
            (if arrGet cfg.chipId s = K.CHIP_ID_RHD2132
                ∧ arrGet cfg.numChannelsPerDataStream s = 16 then
              f + 12 + 6 * cfg.numStreams + 2 * s
                + 2 * cfg.numStreams * (K.RHD2132_16CH_OFFSET + c)
            else
              f + 12 + 6 * cfg.numStreams + 2 * s + 2 * cfg.numStreams * c)))
    ∧ electrodeWordOffset K cfg f s (c + 1)
        = electrodeWordOffset K cfg f s c + 2 * cfg.numStreams := by
  have hc' : c < nChans cfg s := by
    unfold nChans
    omega
  constructor
  · exact decodeFrame_electrode_at K api cfg buf samp f st s c hs hc'
  · unfold electrodeWordOffset
    split <;> ring

theorem decodeFrame_electrode_offset_witness :
    (0 < exampleDevice16.decodeConfig.numStreams
      ∧ ((5 : Nat) : Int) < arrGet exampleDevice16.decodeConfig.numChannelsPerDataStream 0)
    ∧ (decodeFrame exampleConsts exampleApi exampleDevice16.decodeConfig
          (exampleBlock 3 (fun _ => 0)) 0 0 exampleDevice16.samples).emission.samples[
            chanBase exampleDevice16.decodeConfig 0 + 5]?
        = some (decodeAmp (readU16 (exampleBlock 3 (fun _ => 0)) (0 + 12 + 6 * 1 + 2 * 0 + 2 * 1 * 5))) :=
  ⟨⟨by decide, by decide⟩,
    (decodeFrame_electrode_offset exampleConsts exampleApi exampleDevice16.decodeConfig
      (exampleBlock 3 (fun _ => 0)) 0 0 exampleDevice16.samples 0 5 (by decide)
      (by decide)).1⟩

/-- C4: decoding one frame advances the read offset by exactly `32 + 70n + 2 (n mod 4)`
bytes for `n` enabled streams (8 header + 4 timestamp + 6n aux echo + 64n amplifier words
+ 2 (n mod 4) filler + 16 ADC + 4 digital word), whatever the aux flag, the ADC flag and
the channel counts are, so while the headers are valid frame `k` of a block is checked and
decoded at offset `k` times that size. -/
theorem frame_stride (K : Consts) (api : DataBlockApi) (cfg : DecodeConfig) (buf : Buffer) :
    (∀ samp f st, (decodeFrame K api cfg buf samp f st).index
        = f + (32 + 70 * cfg.numStreams + 2 * (cfg.numStreams % 4)))
    ∧ (32 + 70 * cfg.numStreams + 2 * (cfg.numStreams % 4)
        = 8 + 4 + 6 * cfg.numStreams + 64 * cfg.numStreams + 2 * (cfg.numStreams % 4)
          + 16 + 4)
    ∧ (∀ samp f st (aux adc : Bool) (counts : List Int),
        (decodeFrame K api
            { cfg with acquireAux := aux, acquireAdc := adc,
                       numChannelsPerDataStream := counts } buf samp f st).index
          = (decodeFrame K api cfg buf samp f st).index)
    ∧ (∀ N st m, m ≤ N →
        (∀ k, k < m → api.checkUsbHeader buf
          (k * (32 + 70 * cfg.numStreams + 2 * (cfg.numStreams % 4))) = true) →
        (m < N → api.checkUsbHeader buf
          (m * (32 + 70 * cfg.numStreams + 2 * (cfg.numStreams % 4))) = false) →
        (sampLoop K api cfg buf N 0 0 st).index
            = m * (32 + 70 * cfg.numStreams + 2 * (cfg.numStreams % 4))
          ∧ ∀ k, k < m →
              (sampLoop K api cfg buf N 0 0 st).emitted[k]?
                = some (decodeFrame K api cfg buf k
                    (k * (32 + 70 * cfg.numStreams + 2 * (cfg.numStreams % 4)))
                    (blockState K api cfg buf 0 0 st k)).emission) := by
  refine ⟨?_, by ring, ?_, ?_⟩
  · intro samp f st
    exact decodeFrame_index K api cfg buf samp f st
  · intro samp f st aux adc counts
    rw [decodeFrame_index, decodeFrame_index]
  · intro N st m hm hv hb
    have hv' : ∀ k, k < m → api.checkUsbHeader buf
        (0 + k * frameSize cfg.numStreams) = true := by
      intro k hk; rw [Nat.zero_add]; exact hv k hk
    have hb' : m < N → api.checkUsbHeader buf
        (0 + m * frameSize cfg.numStreams) = false := by
      intro hk; rw [Nat.zero_add]; exact hb hk
    have key := sampLoop_spec K api cfg buf N 0 0 st m hm hv' hb'
    constructor
    · rw [key.2.2.1, Nat.zero_add]
      rfl
    · intro k hk
      rw [key.1]
      simp only [List.getElem?_map, List.getElem?_range hk, Option.map_some']
      unfold blockTuple
      rw [Nat.zero_add, Nat.zero_add]
      rfl

theorem frame_stride_witness :
    (3 ≤ 256)
    ∧ (sampLoop exampleConsts exampleApi exampleDevice16.decodeConfig
          (exampleBlock 3 (fun _ => 0)) 256 0 0 exampleDevice16.samples).index
        = 3 * (32 + 70 * exampleDevice16.decodeConfig.numStreams
            + 2 * (exampleDevice16.decodeConfig.numStreams % 4)) :=
  ⟨by decide,
    ((frame_stride exampleConsts exampleApi exampleDevice16.decodeConfig
      (exampleBlock 3 (fun _ => 0))).2.2.2 256 exampleDevice16.samples 3 (by decide)
      (by
        intro k hk
        show checkUsbHeaderMagic exampleMagic (exampleBlock 3 (fun _ => 0)) (k * 104) = true
        rw [exampleBlock_header]
        simpa using hk)
      (by
        intro _
        show checkUsbHeaderMagic exampleMagic (exampleBlock 3 (fun _ => 0)) (3 * 104) = false
        rw [exampleBlock_header]
        decide)).1⟩

/-- C5: every electrode value a frame emits is `(r - 32768) * 0.195` for the 16-bit word
`r` at its offset, the difference being an integer in `[-32768, 32767]`; the aux sample
stored on a hold frame is `(r - 32768) * 0.0000374`; every ADC value is
`0.00015258789 * r - 5 - 0.4096`; an amplifier word 32768 gives `0` and an ADC word `0`
gives `-5.4096` (values taken as exact rationals). -/
theorem decode_formulas (K : Consts) (api : DataBlockApi) (cfg : DecodeConfig)
    (buf : Buffer) (samp f : Nat) (st : SampleState) :
    (∀ s c, s < cfg.numStreams → c < nChans cfg s →
        (readU16 buf (electrodeWordOffset K cfg f s c) < 65536
          ∧ -32768 ≤ (readU16 buf (electrodeWordOffset K cfg f s c) : Int) - 32768
          ∧ (readU16 buf (electrodeWordOffset K cfg f s c) : Int) - 32768 ≤ 32767)
        ∧ (decodeFrame K api cfg buf samp f st).emission.samples[chanBase cfg s + c]?
            = some ((((readU16 buf (electrodeWordOffset K cfg f s c) : Int) - 32768 : Int) : ℚ)
                * 0.195)
        ∧ (readU16 buf (electrodeWordOffset K cfg f s c) = 32768 →
            (decodeFrame K api cfg buf samp f st).emission.samples[chanBase cfg s + c]?
              = some 0))
    ∧ (cfg.acquireAux = true → (samp + 3) % 4 ≠ 3 →
        ∀ s, s < cfg.numStreams → hasAux K cfg s = true →
          (decodeFrame K api cfg buf samp f st).state.auxSamples s ((samp + 3) % 4)
            = (((readU16 buf (f + 12 + 2 * cfg.numStreams + 2 * s) : Int) - 32768 : Int) : ℚ)
                * 0.0000374)
    ∧ (cfg.acquireAdc = true → ∀ a, a < 8 →
        (decodeFrame K api cfg buf samp f st).emission.samples[
            chanBase cfg cfg.numStreams
              + (if cfg.acquireAux then auxBase K cfg cfg.numStreams else 0) + a]?
          = some (0.00015258789
              * (readU16 buf (f + 12 + 70 * cfg.numStreams + 2 * (cfg.numStreams % 4) + 2 * a) : ℚ)
              - 5 - 0.4096)
        ∧ (readU16 buf (f + 12 + 70 * cfg.numStreams + 2 * (cfg.numStreams % 4) + 2 * a) = 0 →
            (decodeFrame K api cfg buf samp f st).emission.samples[
                chanBase cfg cfg.numStreams
                  + (if cfg.acquireAux then auxBase K cfg cfg.numStreams else 0) + a]?
              = some (-5.4096))) := by
  refine ⟨?_, ?_, ?_⟩
  · intro s c hs hc
    have hlt := readU16_lt buf (electrodeWordOffset K cfg f s c)
    have hat := decodeFrame_electrode_at K api cfg buf samp f st s c hs hc
    refine ⟨⟨hlt, by omega, by omega⟩, ?_, ?_⟩
    · rw [hat]; rfl
    · intro h0
      rw [hat, h0]
      unfold decodeAmp
      norm_num
  · intro hA hr s hs hh
    rw [decodeFrame_auxSamples_hold K api cfg buf samp f st hA hr]
    rw [if_pos ⟨hs, hh, rfl⟩]
    rfl
  · intro hD a ha
    have hat := decodeFrame_adc_at K api cfg buf samp f st hD a ha
    constructor
    · rw [hat]; rfl
    · intro h0
      rw [hat, h0]
      unfold decodeAdc
      norm_num

theorem decode_formulas_witness :
    (0 < exampleDevice16.decodeConfig.numStreams
      ∧ 5 < nChans exampleDevice16.decodeConfig 0)
    ∧ (decodeFrame exampleConsts exampleApi exampleDevice16.decodeConfig
          (exampleBlock 3 (fun _ => 0)) 0 0 exampleDevice16.samples).emission.samples[
            chanBase exampleDevice16.decodeConfig 0 + 5]?
        = some ((((readU16 (exampleBlock 3 (fun _ => 0))
            (electrodeWordOffset exampleConsts exampleDevice16.decodeConfig 0 0 5) : Int)
              - 32768 : Int) : ℚ) * 0.195) :=
  ⟨⟨by decide, by decide⟩,
    ((decode_formulas exampleConsts exampleApi exampleDevice16.decodeConfig
      (exampleBlock 3 (fun _ => 0)) 0 0 exampleDevice16.samples).1 0 5 (by decide)
      (by decide)).2.1⟩

/-! ## Auxiliary values across frames -/

theorem auxBase_eq_sum (K : Consts) (cfg : DecodeConfig) (s : Nat) :
    auxBase K cfg s
      = ((List.range s).map (fun t => if hasAux K cfg t then 3 else 0)).sum := by
  induction s with
  | zero => rfl
  | succ m ih => rw [auxBase_succ, List.sum_range_succ, ih]

theorem specAux_eq (K : Consts) (cfg : DecodeConfig) (samp : Nat)
    (auxSamples : Nat → Nat → ℚ) (auxBuffer : Nat → ℚ) (base : Nat) :
    specAux K cfg samp auxSamples auxBuffer base
      = (List.range cfg.numStreams).flatMap (fun s =>
          (List.range (if hasAux K cfg s then 3 else 0)).map
            (fun j => heldAux samp auxSamples auxBuffer (base + auxBase K cfg s + j) s j)) := by
  unfold specAux
  congr 1
  funext s
  by_cases h : hasAux K cfg s = true
  · simp only [h, if_true]
  · simp only [h, if_false, Bool.false_eq_true, List.range_zero, List.map_nil]

theorem specAux_at (K : Consts) (cfg : DecodeConfig) (samp : Nat)
    (auxSamples : Nat → Nat → ℚ) (auxBuffer : Nat → ℚ) (base : Nat) (s j : Nat)
    (hs : s < cfg.numStreams) (h : hasAux K cfg s = true) (hj : j < 3) :
    (specAux K cfg samp auxSamples auxBuffer base)[auxBase K cfg s + j]?
      = some (heldAux samp auxSamples auxBuffer (base + auxBase K cfg s + j) s j) := by
  rw [specAux_eq, auxBase_eq_sum]
  have hj' : j < (if hasAux K cfg s then 3 else 0) := by simp [h, hj]
  have key := flatMap_range_getElem (fun t => if hasAux K cfg t then 3 else 0)
    (fun s j => heldAux samp auxSamples auxBuffer (base + auxBase K cfg s + j) s j)
    cfg.numStreams s j hs hj'
  rw [← auxBase_eq_sum] at key ⊢
  exact key

theorem decodeFrame_aux_at (K : Consts) (api : DataBlockApi) (cfg : DecodeConfig)
    (buf : Buffer) (samp f : Nat) (st : SampleState) (hA : cfg.acquireAux = true)
    (s j : Nat) (hs : s < cfg.numStreams) (h : hasAux K cfg s = true) (hj : j < 3) :
    (decodeFrame K api cfg buf samp f st).emission.samples[
        chanBase cfg cfg.numStreams + auxBase K cfg s + j]?
      = some (heldAux samp st.auxSamples st.auxBuffer
          (chanBase cfg cfg.numStreams + auxBase K cfg s + j) s j) := by
  have hat := specAux_at K cfg samp st.auxSamples st.auxBuffer (chanBase cfg cfg.numStreams)
    s j hs h hj
  have hlt : auxBase K cfg s + j
      < (specAux K cfg samp st.auxSamples st.auxBuffer (chanBase cfg cfg.numStreams)).length := by
    by_contra hcon
    rw [List.getElem?_eq_none (by omega)] at hat
    cases hat
  rw [decodeFrame_samples, hA, if_pos rfl, List.append_assoc,
    List.getElem?_append_right (by rw [specElectrode_length]; omega), specElectrode_length,
    List.getElem?_append_left (by omega)]
  have e : chanBase cfg cfg.numStreams + auxBase K cfg s + j - chanBase cfg cfg.numStreams
      = auxBase K cfg s + j := by omega
  rw [e]
  exact hat

theorem blockState_succ (K : Consts) (api : DataBlockApi) (cfg : DecodeConfig)
    (buf : Buffer) (st : SampleState) (t : Nat) :
    blockState K api cfg buf 0 0 st (t + 1)
      = (decodeFrame K api cfg buf t (t * frameSize cfg.numStreams)
          (blockState K api cfg buf 0 0 st t)).state := by
  rw [blockState, Nat.zero_add, Nat.zero_add]

theorem blockTuple_eq (K : Consts) (api : DataBlockApi) (cfg : DecodeConfig)
    (buf : Buffer) (st : SampleState) (t : Nat) :
    blockTuple K api cfg buf 0 0 st t
      = (decodeFrame K api cfg buf t (t * frameSize cfg.numStreams)
          (blockState K api cfg buf 0 0 st t)).emission := by
  rw [blockTuple, Nat.zero_add, Nat.zero_add]

/-- On a frame with index `3 (mod 4)` the word of the third aux channel is stored. -/
theorem block_aux_fresh_stored (K : Consts) (api : DataBlockApi) (cfg : DecodeConfig)
    (buf : Buffer) (st : SampleState) (hA : cfg.acquireAux = true) (t s : Nat)
    (ht : t % 4 = 3) (hs : s < cfg.numStreams) (h : hasAux K cfg s = true) :
    (blockState K api cfg buf 0 0 st (t + 1)).auxSamples s 2
      = decodeAux (readU16 buf
          (t * frameSize cfg.numStreams + 12 + 2 * cfg.numStreams + 2 * s)) := by
  have hr : (t + 3) % 4 ≠ 3 := by omega
  have h2 : (2 : Nat) = (t + 3) % 4 := by omega
  rw [blockState_succ, decodeFrame_auxSamples_hold K api cfg buf t _ _ hA hr,
    if_pos ⟨hs, h, h2⟩]

/-- On a frame with index `0 (mod 4)` the stored samples are published and emitted. -/
theorem block_aux_refresh (K : Consts) (api : DataBlockApi) (cfg : DecodeConfig)
    (buf : Buffer) (st : SampleState) (hA : cfg.acquireAux = true) (t s j : Nat)
    (ht : t % 4 = 0) (hs : s < cfg.numStreams) (h : hasAux K cfg s = true) (hj : j < 3) :
    (blockTuple K api cfg buf 0 0 st t).samples[
          chanBase cfg cfg.numStreams + auxBase K cfg s + j]?
        = some ((blockState K api cfg buf 0 0 st t).auxSamples s j)
      ∧ (blockState K api cfg buf 0 0 st (t + 1)).auxBuffer
            (chanBase cfg cfg.numStreams + auxBase K cfg s + j)
          = (blockState K api cfg buf 0 0 st t).auxSamples s j := by
  have hr : (t + 3) % 4 = 3 := by omega
  constructor
  · rw [blockTuple_eq, decodeFrame_aux_at K api cfg buf t _ _ hA s j hs h hj]
    unfold heldAux
    rw [if_pos hr]
  · rw [blockState_succ,
      decodeFrame_auxBuffer_refresh K api cfg buf t _ _ hA hr s j hs h hj]

/-- On the other frames the buffered value is emitted and the buffer is kept. -/
theorem block_aux_hold (K : Consts) (api : DataBlockApi) (cfg : DecodeConfig)
    (buf : Buffer) (st : SampleState) (hA : cfg.acquireAux = true) (t s j : Nat)
    (ht : t % 4 ≠ 0) (hs : s < cfg.numStreams) (h : hasAux K cfg s = true) (hj : j < 3) :
    (blockTuple K api cfg buf 0 0 st t).samples[
          chanBase cfg cfg.numStreams + auxBase K cfg s + j]?
        = some ((blockState K api cfg buf 0 0 st t).auxBuffer
            (chanBase cfg cfg.numStreams + auxBase K cfg s + j))
      ∧ (blockState K api cfg buf 0 0 st (t + 1)).auxBuffer
          = (blockState K api cfg buf 0 0 st t).auxBuffer := by
  have hr : (t + 3) % 4 ≠ 3 := by omega
  constructor
  · rw [blockTuple_eq, decodeFrame_aux_at K api cfg buf t _ _ hA s j hs h hj]
    unfold heldAux
    rw [if_neg hr]
  · rw [blockState_succ, decodeFrame_auxBuffer_hold K api cfg buf t _ _ hr]

theorem updateBuffer_sink_at (K : Consts) (api : DataBlockApi) (d : DeviceThread)
    (r : UsbRead) (h : r.return_code ≠ 0) (T : Nat) (hT : T ≤ api.getSamplesPerDataBlock)
    (hv : ∀ t, t < T →
      api.checkUsbHeader r.bufferPtr (t * frameSize d.enabledStreams.length) = true)
    (t : Nat) (ht : t < T) :
    (d.updateBuffer K api r).2.sink[d.sink.length + t]?
      = some (blockTuple K api d.decodeConfig r.bufferPtr 0 0 d.samples t) := by
  obtain ⟨m, hm, hmv, hmb⟩ := leading_valid_exists
    (fun k => api.checkUsbHeader r.bufferPtr (0 + k * frameSize d.decodeConfig.numStreams))
    api.getSamplesPerDataBlock
  have hTm : T ≤ m := by
    by_contra hcon
    have hlt : m < T := by omega
    have h1 := hmb (by omega)
    have h2 := hv m hlt
    simp only [Nat.zero_add] at h1
    have h3 : api.checkUsbHeader r.bufferPtr (m * frameSize d.decodeConfig.numStreams)
        = true := h2
    rw [h1] at h3
    cases h3
  have key := sampLoop_spec K api d.decodeConfig r.bufferPtr api.getSamplesPerDataBlock
    0 0 d.samples m hm hmv hmb
  rw [(updateBuffer_decoded K api d r h).1, key.1,
    List.getElem?_append_right (by omega)]
  have e : d.sink.length + t - d.sink.length = t := by omega
  rw [e, List.getElem?_map, List.getElem?_range (by omega)]
  rfl

/-- Over an aligned group of frames `4k .. 4k+3` the value emitted for an aux channel is
the sample stored when the group begins. -/
theorem block_aux_group (K : Consts) (api : DataBlockApi) (cfg : DecodeConfig)
    (buf : Buffer) (st : SampleState) (hA : cfg.acquireAux = true) (k s j : Nat)
    (hs : s < cfg.numStreams) (h : hasAux K cfg s = true) (hj : j < 3) (i : Nat)
    (hi : i < 4) :
    (blockTuple K api cfg buf 0 0 st (4 * k + i)).samples[
        chanBase cfg cfg.numStreams + auxBase K cfg s + j]?
      = some ((blockState K api cfg buf 0 0 st (4 * k)).auxSamples s j) := by
  have r0 := block_aux_refresh K api cfg buf st hA (4 * k) s j (by omega) hs h hj
  have h1 := block_aux_hold K api cfg buf st hA (4 * k + 1) s j (by omega) hs h hj
  have h2 := block_aux_hold K api cfg buf st hA (4 * k + 1 + 1) s j (by omega) hs h hj
  have h3 := block_aux_hold K api cfg buf st hA (4 * k + 1 + 1 + 1) s j (by omega) hs h hj
  have e1 : 4 * k + 1 = 4 * k + 1 := rfl
  rcases (by omega : i = 0 ∨ i = 1 ∨ i = 2 ∨ i = 3) with e | e | e | e
  · subst e; exact r0.1
  · subst e; rw [h1.1, r0.2]
  · subst e
    rw [show 4 * k + 2 = 4 * k + 1 + 1 from rfl, h2.1, h1.2, r0.2]
  · subst e
    rw [show 4 * k + 3 = 4 * k + 1 + 1 + 1 from rfl, h3.1, h2.2, h1.2, r0.2]

/-- The word of the third aux channel read on frame `4k+3` is what frames
`4k+4 .. 4k+7` emit for that channel. -/
theorem block_aux_next_group (K : Consts) (api : DataBlockApi) (cfg : DecodeConfig)
    (buf : Buffer) (st : SampleState) (hA : cfg.acquireAux = true) (k s : Nat)
    (hs : s < cfg.numStreams) (h : hasAux K cfg s = true) (i : Nat) (hi : i < 4) :
    (blockTuple K api cfg buf 0 0 st (4 * (k + 1) + i)).samples[
        chanBase cfg cfg.numStreams + auxBase K cfg s + 2]?
      = some (decodeAux (readU16 buf
          ((4 * k + 3) * frameSize cfg.numStreams + 12 + 2 * cfg.numStreams + 2 * s))) := by
  rw [block_aux_group K api cfg buf st hA (k + 1) s 2 hs h (by omega) i hi,
    show 4 * (k + 1) = 4 * k + 3 + 1 by ring,
    block_aux_fresh_stored K api cfg buf st hA (4 * k + 3) s (by omega) hs h]

/-! ## Claims on the auxiliary channels and on framing errors -/

/-- C6 (as stated, refuted): one 16-channel stream, aux on, a block whose only non-zero
aux word (36864, decoding to 0.1531904) arrives on frame 3; the value emitted for the
third aux channel (output position 18) on each of the frames 0, 1, 2, 3 is 0, not the
decoded fresh value. -/
theorem aux_fresh_value_not_emitted_on_arrival_group :
    decodeAux (readU16 exampleAuxBlock (3 * 104 + 12 + 2 * 1 + 2 * 0)) = 0.1531904
    ∧ ((exampleDevice16.updateBuffer exampleConsts exampleApi
          { return_code := 1, bufferPtr := exampleAuxBlock }).2.sink[0]?.bind
        (fun e => e.samples[18]?)) = some 0
    ∧ ((exampleDevice16.updateBuffer exampleConsts exampleApi
          { return_code := 1, bufferPtr := exampleAuxBlock }).2.sink[1]?.bind
        (fun e => e.samples[18]?)) = some 0
    ∧ ((exampleDevice16.updateBuffer exampleConsts exampleApi
          { return_code := 1, bufferPtr := exampleAuxBlock }).2.sink[2]?.bind
        (fun e => e.samples[18]?)) = some 0
    ∧ ((exampleDevice16.updateBuffer exampleConsts exampleApi
          { return_code := 1, bufferPtr := exampleAuxBlock }).2.sink[3]?.bind
        (fun e => e.samples[18]?)) = some 0 := by
  have hv : ∀ t, t < 256 → exampleApi.checkUsbHeader exampleAuxBlock
      (t * frameSize exampleDevice16.enabledStreams.length) = true := by
    intro t ht
    have e : frameSize exampleDevice16.enabledStreams.length = 104 := by decide
    rw [e]
    show checkUsbHeaderMagic exampleMagic exampleAuxBlock (t * 104) = true
    unfold exampleAuxBlock
    rw [exampleBlock_header]
    simpa using ht
  have hsink : ∀ t, t < 4 →
      (exampleDevice16.updateBuffer exampleConsts exampleApi
          { return_code := 1, bufferPtr := exampleAuxBlock }).2.sink[t]?
        = some (blockTuple exampleConsts exampleApi exampleDevice16.decodeConfig
            exampleAuxBlock 0 0 exampleDevice16.samples t) := by
    intro t ht
    have key := updateBuffer_sink_at exampleConsts exampleApi exampleDevice16
      { return_code := 1, bufferPtr := exampleAuxBlock } (by decide) 256 (by decide) hv t
      (by omega)
    have e : exampleDevice16.sink.length + t = t := by
      show 0 + t = t
      omega
    rw [e] at key
    exact key
  have hgrp : ∀ i, i < 4 →
      (blockTuple exampleConsts exampleApi exampleDevice16.decodeConfig
          exampleAuxBlock 0 0 exampleDevice16.samples i).samples[18]? = some 0 := by
    intro i hi
    have key := block_aux_group exampleConsts exampleApi exampleDevice16.decodeConfig
      exampleAuxBlock exampleDevice16.samples rfl 0 0 2 (by decide) (by decide) (by decide)
      i hi
    have hp : chanBase exampleDevice16.decodeConfig exampleDevice16.decodeConfig.numStreams
        + auxBase exampleConsts exampleDevice16.decodeConfig 0 + 2 = 18 := by decide
    rw [hp, show 4 * 0 + i = i by omega] at key
    rw [key]
    rfl
  refine ⟨?_, ?_, ?_, ?_, ?_⟩
  · have hw : readU16 exampleAuxBlock (3 * 104 + 12 + 2 * 1 + 2 * 0) = 36864 := by decide
    rw [hw]
    unfold decodeAux
    norm_num
  · rw [hsink 0 (by omega), Option.some_bind, hgrp 0 (by omega)]
  · rw [hsink 1 (by omega), Option.some_bind, hgrp 1 (by omega)]
  · rw [hsink 2 (by omega), Option.some_bind, hgrp 2 (by omega)]
  · rw [hsink 3 (by omega), Option.some_bind, hgrp 3 (by omega)]

/-- C6 (amended): with aux acquisition on, for a stream whose chip is not `RHD2164_B`, the
word of the third aux channel read on frame `4k+3` of a block is the value
`(raw - 32768) * 0.0000374` emitted for that channel on the four following frames
`4k+4 .. 4k+7` of the block, while the frames `4k .. 4k+3` all emit the sample that was
stored when their group began. -/
theorem aux_word_emitted_on_following_group (K : Consts) (api : DataBlockApi)
    (d : DeviceThread) (r : UsbRead) (h : r.return_code ≠ 0) (hA : d.acquireAux = true)
    (k s : Nat) (hs : s < d.enabledStreams.length)
    (hB : arrGet d.chipId s ≠ K.CHIP_ID_RHD2164_B)
    (hN : 4 * k + 8 ≤ api.getSamplesPerDataBlock)
    (hv : ∀ t, t < 4 * k + 8 →
      api.checkUsbHeader r.bufferPtr (t * frameSize d.enabledStreams.length) = true) :
    (∀ i, i < 4 →
      ((d.updateBuffer K api r).2.sink[d.sink.length + (4 * (k + 1) + i)]?.bind
          (fun e => e.samples[chanBase d.decodeConfig d.enabledStreams.length
            + auxBase K d.decodeConfig s + 2]?))
        = some (decodeAux (readU16 r.bufferPtr
            ((4 * k + 3) * frameSize d.enabledStreams.length + 12
              + 2 * d.enabledStreams.length + 2 * s))))
    ∧ (∀ i, i < 4 →
      ((d.updateBuffer K api r).2.sink[d.sink.length + (4 * k + i)]?.bind
          (fun e => e.samples[chanBase d.decodeConfig d.enabledStreams.length
            + auxBase K d.decodeConfig s + 2]?))
        = some ((blockState K api d.decodeConfig r.bufferPtr 0 0 d.samples (4 * k)).auxSamples
            s 2)) := by
  have hh : hasAux K d.decodeConfig s = true := by
    unfold hasAux
    exact decide_eq_true hB
  have hA' : d.decodeConfig.acquireAux = true := hA
  have hs' : s < d.decodeConfig.numStreams := hs
  constructor
  · intro i hi
    rw [updateBuffer_sink_at K api d r h (4 * k + 8) hN hv (4 * (k + 1) + i) (by omega),
      Option.some_bind]
    exact block_aux_next_group K api d.decodeConfig r.bufferPtr d.samples hA' k s hs' hh i hi
  · intro i hi
    rw [updateBuffer_sink_at K api d r h (4 * k + 8) hN hv (4 * k + i) (by omega),
      Option.some_bind]
    exact block_aux_group K api d.decodeConfig r.bufferPtr d.samples hA' k s 2 hs' hh
      (by omega) i hi

theorem aux_word_emitted_on_following_group_witness :
    ((1 : Int) ≠ 0 ∧ 4 * 0 + 8 ≤ exampleApi.getSamplesPerDataBlock)
    ∧ ∀ i, i < 4 →
      ((exampleDevice16.updateBuffer exampleConsts exampleApi
          { return_code := 1, bufferPtr := exampleAuxBlock }).2.sink[
            exampleDevice16.sink.length + (4 * (0 + 1) + i)]?.bind
          (fun e => e.samples[chanBase exampleDevice16.decodeConfig
            exampleDevice16.enabledStreams.length
            + auxBase exampleConsts exampleDevice16.decodeConfig 0 + 2]?))
        = some (decodeAux (readU16 exampleAuxBlock
            ((4 * 0 + 3) * frameSize exampleDevice16.enabledStreams.length + 12
              + 2 * exampleDevice16.enabledStreams.length + 2 * 0))) :=
  ⟨⟨by decide, by decide⟩,
    (aux_word_emitted_on_following_group exampleConsts exampleApi exampleDevice16
      { return_code := 1, bufferPtr := exampleAuxBlock } (by decide) rfl 0 0 (by decide)
      (by decide) (by decide)
      (by
        intro t ht
        have e : frameSize exampleDevice16.enabledStreams.length = 104 := by decide
        have ht' : t < 256 := by omega
        rw [e]
        show checkUsbHeaderMagic exampleMagic exampleAuxBlock (t * 104) = true
        unfold exampleAuxBlock
        rw [exampleBlock_header]
        simpa using ht')).1⟩

/-- C7 (as stated, refuted): a block whose first header is invalid is logged as a header
error and decodes nothing, a block with 256 valid headers is decoded completely, and
`updateBuffer` returns the same value for both calls. -/
theorem updateBuffer_return_same_on_bad_header :
    exampleApi.checkUsbHeader (exampleBlock 0 (fun _ => 0)) 0 = false
    ∧ (exampleDevice16.updateBuffer exampleConsts exampleApi
        { return_code := 1, bufferPtr := exampleBlock 0 (fun _ => 0) }).2.headerErrors = 1
    ∧ (exampleDevice16.updateBuffer exampleConsts exampleApi
        { return_code := 1, bufferPtr := exampleBlock 0 (fun _ => 0) }).2.sink = []
    ∧ (exampleDevice16.updateBuffer exampleConsts exampleApi
        { return_code := 1, bufferPtr := exampleBlock 256 (fun _ => 0) }).2.headerErrors = 0
    ∧ (exampleDevice16.updateBuffer exampleConsts exampleApi
        { return_code := 1, bufferPtr := exampleBlock 256 (fun _ => 0) }).2.sink.length = 256
    ∧ (exampleDevice16.updateBuffer exampleConsts exampleApi
        { return_code := 1, bufferPtr := exampleBlock 0 (fun _ => 0) }).1
      = (exampleDevice16.updateBuffer exampleConsts exampleApi
        { return_code := 1, bufferPtr := exampleBlock 256 (fun _ => 0) }).1 := by
  have hbad0 : exampleApi.checkUsbHeader (exampleBlock 0 (fun _ => 0)) 0 = false := by
    show checkUsbHeaderMagic exampleMagic (exampleBlock 0 (fun _ => 0)) (0 * 104) = false
    rw [exampleBlock_header]
    decide
  have kbad := sampLoop_spec exampleConsts exampleApi exampleDevice16.decodeConfig
    (exampleBlock 0 (fun _ => 0)) 256 0 0 exampleDevice16.samples 0 (by decide)
    (fun k hk => absurd hk (Nat.not_lt_zero k))
    (fun _ => by
      show checkUsbHeaderMagic exampleMagic (exampleBlock 0 (fun _ => 0)) (0 + 0 * 104) = false
      rw [Nat.zero_add, exampleBlock_header]
      decide)
  have kgood := sampLoop_spec exampleConsts exampleApi exampleDevice16.decodeConfig
    (exampleBlock 256 (fun _ => 0)) 256 0 0 exampleDevice16.samples 256 (by decide)
    (fun k hk => by
      show checkUsbHeaderMagic exampleMagic (exampleBlock 256 (fun _ => 0)) (0 + k * 104) = true
      rw [Nat.zero_add, exampleBlock_header]
      simpa using hk)
    (fun hk => absurd hk (Nat.lt_irrefl 256))
  have dbad := updateBuffer_decoded exampleConsts exampleApi exampleDevice16
    { return_code := 1, bufferPtr := exampleBlock 0 (fun _ => 0) } (by decide)
  have dgood := updateBuffer_decoded exampleConsts exampleApi exampleDevice16
    { return_code := 1, bufferPtr := exampleBlock 256 (fun _ => 0) } (by decide)
  refine ⟨hbad0, ?_, ?_, ?_, ?_, ?_⟩
  · rw [dbad.2.2]
    show exampleDevice16.headerErrors + (if (sampLoop exampleConsts exampleApi
      exampleDevice16.decodeConfig (exampleBlock 0 (fun _ => 0)) 256 0 0
      exampleDevice16.samples).headerError then 1 else 0) = 1
    rw [kbad.2.2.2]
    rfl
  · rw [dbad.1]
    show exampleDevice16.sink ++ (sampLoop exampleConsts exampleApi
      exampleDevice16.decodeConfig (exampleBlock 0 (fun _ => 0)) 256 0 0
      exampleDevice16.samples).emitted = []
    rw [kbad.1]
    rfl
  · rw [dgood.2.2]
    show exampleDevice16.headerErrors + (if (sampLoop exampleConsts exampleApi
      exampleDevice16.decodeConfig (exampleBlock 256 (fun _ => 0)) 256 0 0
      exampleDevice16.samples).headerError then 1 else 0) = 0
    rw [kgood.2.2.2]
    rfl
  · rw [dgood.1]
    show (exampleDevice16.sink ++ (sampLoop exampleConsts exampleApi
      exampleDevice16.decodeConfig (exampleBlock 256 (fun _ => 0)) 256 0 0
      exampleDevice16.samples).emitted).length = 256
    rw [kgood.1]
    simp [exampleDevice16, exampleDevice]
  · rw [updateBuffer_fst, updateBuffer_fst]

/-- C7 (amended): `updateBuffer` returns `true` on every call. When the header check of
frame `m` of a block fails, the call logs one header error and appends only the tuples
of the frames before `m`; a block decoded completely logs none; the returned value is the
same in both cases. -/
theorem updateBuffer_header_error_logged_not_returned (K : Consts) (api : DataBlockApi)
    (d : DeviceThread) (r : UsbRead) :
    (d.updateBuffer K api r).1 = true
    ∧ (r.return_code ≠ 0 → ∀ m, m ≤ api.getSamplesPerDataBlock →
        (∀ k, k < m →
          api.checkUsbHeader r.bufferPtr (k * frameSize d.enabledStreams.length) = true) →
        (m < api.getSamplesPerDataBlock →
          api.checkUsbHeader r.bufferPtr (m * frameSize d.enabledStreams.length) = false) →
        (d.updateBuffer K api r).2.headerErrors
            = d.headerErrors + (if m < api.getSamplesPerDataBlock then 1 else 0)
          ∧ (d.updateBuffer K api r).2.sink
            = d.sink ++ (List.range m).map
                (blockTuple K api d.decodeConfig r.bufferPtr 0 0 d.samples)) := by
  refine ⟨updateBuffer_fst K api d r, ?_⟩
  intro h m hm hv hb
  have hv' : ∀ k, k < m → api.checkUsbHeader r.bufferPtr
      (0 + k * frameSize d.decodeConfig.numStreams) = true := by
    intro k hk; rw [Nat.zero_add]; exact hv k hk
  have hb' : m < api.getSamplesPerDataBlock → api.checkUsbHeader r.bufferPtr
      (0 + m * frameSize d.decodeConfig.numStreams) = false := by
    intro hk; rw [Nat.zero_add]; exact hb hk
  have key := sampLoop_spec K api d.decodeConfig r.bufferPtr api.getSamplesPerDataBlock
    0 0 d.samples m hm hv' hb'
  have dec := updateBuffer_decoded K api d r h
  constructor
  · rw [dec.2.2, key.2.2.2]
    by_cases hlt : m < api.getSamplesPerDataBlock
    · simp [hlt]
    · simp [hlt]
  · rw [dec.1, key.1]

theorem updateBuffer_header_error_logged_not_returned_witness :
    ((1 : Int) ≠ 0 ∧ 0 ≤ exampleApi.getSamplesPerDataBlock)
    ∧ (exampleDevice16.updateBuffer exampleConsts exampleApi
          { return_code := 1, bufferPtr := exampleBlock 0 (fun _ => 0) }).2.headerErrors
        = exampleDevice16.headerErrors
          + (if 0 < exampleApi.getSamplesPerDataBlock then 1 else 0) :=
  ⟨⟨by decide, by decide⟩,
    ((updateBuffer_header_error_logged_not_returned exampleConsts exampleApi exampleDevice16
      { return_code := 1, bufferPtr := exampleBlock 0 (fun _ => 0) }).2 (by decide) 0
      (by decide) (fun k hk => absurd hk (Nat.not_lt_zero k))
      (fun _ => by
        have e : frameSize exampleDevice16.enabledStreams.length = 104 := by decide
        rw [e]
        show checkUsbHeaderMagic exampleMagic (exampleBlock 0 (fun _ => 0)) (0 * 104) = false
        rw [exampleBlock_header]
        decide)).1⟩

/-! ## The port scan -/

theorem arrSet_nat (a : List Int) (n : Nat) (v : Int) :
    arrSet a (n : Int) v = if n < a.length then a.set n v else a ++ [v] := by
  unfold arrSet
  have h : ¬ ((n : Int) < 0) := by omega
  rw [if_neg h, Int.toNat_ofNat]

theorem arrSet_length (a : List Int) (n : Nat) (v : Int) (h : n < a.length) :
    (arrSet a (n : Int) v).length = a.length := by
  rw [arrSet_nat, if_pos h, List.length_set]

theorem arrGet_arrSet (a : List Int) (n : Nat) (v : Int) (h : n < a.length) (j : Nat) :
    arrGet (arrSet a (n : Int) v) j = if j = n then v else arrGet a j := by
  rw [arrSet_nat, if_pos h]
  unfold arrGet
  rw [List.getD_eq_getElem?_getD, List.getD_eq_getElem?_getD, List.getElem?_set]
  by_cases e : n = j
  · subst e
    simp [h]
  · have e' : ¬ j = n := fun x => e x.symm
    simp [e, e']

theorem sweepSlot_spec (K : Consts) (dataBlock : DataBlock) (delay : Nat) (acc : SweepAcc)
    (hs L : Nat) (hL : sweepLengths acc L) (hlt : hs < L) :
    sweepLengths (sweepSlot K dataBlock delay acc hs) L
      ∧ ∀ s, slotView (sweepSlot K dataBlock delay acc hs) s
          = if s = hs then
              slotStep (goodDeviceId K (getDeviceId dataBlock hs)) delay (slotView acc s)
            else slotView acc s := by
  obtain ⟨l1, l2, l3, l4⟩ := hL
  unfold sweepSlot
  cases hg : goodDeviceId K (getDeviceId dataBlock hs)
  · simp only [hg, Bool.false_eq_true, if_false]
    refine ⟨⟨l1, l2, l3, l4⟩, ?_⟩
    intro s
    unfold slotStep
    simp
  · simp only [hg, if_true]
    by_cases h1 : arrGet acc.indexFirstGoodDelay hs = -1
    · simp only [h1, if_true]
      refine ⟨⟨?_, ?_, l3, ?_⟩, ?_⟩
      · exact (arrSet_length acc.sumGoodDelays hs _ (by omega)).trans l1
      · exact (arrSet_length acc.indexFirstGoodDelay hs _ (by omega)).trans l2
      · exact (arrSet_length acc.tmpChipId hs _ (by omega)).trans l4
      · intro s
        unfold slotView slotStep
        simp only [arrGet_arrSet _ _ _ (show hs < acc.sumGoodDelays.length by omega),
          arrGet_arrSet _ _ _ (show hs < acc.indexFirstGoodDelay.length by omega)]
        by_cases e : s = hs
        · subst e; simp [h1]
        · simp [e]
    · simp only [h1, if_false]
      by_cases h2 : arrGet acc.indexSecondGoodDelay hs = -1
      · simp only [h2, if_true]
        refine ⟨⟨?_, l2, ?_, ?_⟩, ?_⟩
        · exact (arrSet_length acc.sumGoodDelays hs _ (by omega)).trans l1
        · exact (arrSet_length acc.indexSecondGoodDelay hs _ (by omega)).trans l3
        · exact (arrSet_length acc.tmpChipId hs _ (by omega)).trans l4
        · intro s
          unfold slotView slotStep
          simp only [arrGet_arrSet _ _ _ (show hs < acc.sumGoodDelays.length by omega),
            arrGet_arrSet _ _ _ (show hs < acc.indexSecondGoodDelay.length by omega)]
          by_cases e : s = hs
          · subst e; simp [h1, h2]
          · simp [e]
      · simp only [h2, if_false]
        refine ⟨⟨?_, l2, l3, l4⟩, ?_⟩
        · exact (arrSet_length acc.sumGoodDelays hs _ (by omega)).trans l1
        · intro s
          unfold slotView slotStep
          simp only [arrGet_arrSet _ _ _ (show hs < acc.sumGoodDelays.length by omega)]
          by_cases e : s = hs
          · subst e; simp [h1, h2]
          · simp [e]

theorem sweepDelay_spec (K : Consts) (blocks : Nat → DataBlock) (delay L : Nat)
    (acc : SweepAcc) (hL : sweepLengths acc L) (numHs : Nat) (hn : numHs ≤ L) :
    sweepLengths (sweepDelay K blocks numHs acc delay) L
      ∧ ∀ s, slotView (sweepDelay K blocks numHs acc delay) s
          = if s < numHs then slotStep (validMatch K blocks s delay) delay (slotView acc s)
            else slotView acc s := by
  induction numHs with
  | zero =>
    refine ⟨hL, ?_⟩
    intro s
    simp [sweepDelay]
  | succ m ih =>
    obtain ⟨hl, hv⟩ := ih (by omega)
    have e : sweepDelay K blocks (m + 1) acc delay
        = sweepSlot K (blocks delay) delay (sweepDelay K blocks m acc delay) m := by
      unfold sweepDelay
      rw [List.range_succ, List.foldl_append]
      rfl
    obtain ⟨hl', hv'⟩ := sweepSlot_spec K (blocks delay) delay
      (sweepDelay K blocks m acc delay) m L hl (by omega)
    rw [e]
    refine ⟨hl', ?_⟩
    intro s
    rw [hv' s, hv s]
    by_cases e1 : s = m
    · subst e1
      have : ¬ s < s := Nat.lt_irrefl s
      simp [this, validMatch]
    · by_cases e2 : s < m
      · have : s < m + 1 := by omega
        simp [e1, e2, this]
      · have : ¬ s < m + 1 := by omega
        simp [e1, e2, this]

theorem sweepFold_spec (K : Consts) (blocks : Nat → DataBlock) (L numHs : Nat)
    (hn : numHs ≤ L) (ds : List Nat) :
    ∀ acc, sweepLengths acc L →
      sweepLengths (ds.foldl (sweepDelay K blocks numHs) acc) L
        ∧ ∀ s, s < numHs →
            slotView (ds.foldl (sweepDelay K blocks numHs) acc) s
              = ds.foldl (fun v delay => slotStep (validMatch K blocks s delay) delay v)
                  (slotView acc s) := by
  induction ds with
  | nil => intro acc hL; exact ⟨hL, fun s _ => rfl⟩
  | cons dl ds ih =>
    intro acc hL
    obtain ⟨hl, hv⟩ := sweepDelay_spec K blocks dl L acc hL numHs hn
    obtain ⟨hl', hv'⟩ := ih (sweepDelay K blocks numHs acc dl) hl
    rw [List.foldl_cons]
    refine ⟨hl', ?_⟩
    intro s hs
    rw [hv' s hs, hv s, if_pos hs, List.foldl_cons]

theorem slotStep_hit (H : List Nat) (delay : Nat) :
    slotStep true delay (viewOfHits H) = viewOfHits (H ++ [delay]) := by
  unfold slotStep viewOfHits
  match H with
  | [] => simp
  | [a] =>
    have : ¬ ((a : Int) = -1) := by omega
    simp [this]
  | a :: b :: t =>
    have h1 : ¬ ((a : Int) = -1) := by omega
    have h2 : ¬ ((b : Int) = -1) := by omega
    simp [h1, h2]

theorem slotFold_hits (good : Nat → Bool) (ds : List Nat) :
    ∀ H : List Nat,
      ds.foldl (fun v delay => slotStep (good delay) delay v) (viewOfHits H)
        = viewOfHits (H ++ ds.filter good) := by
  induction ds with
  | nil => intro H; simp
  | cons dl ds ih =>
    intro H
    rw [List.foldl_cons]
    cases hg : good dl
    · have e : slotStep false dl (viewOfHits H) = viewOfHits H := rfl
      rw [e, ih, List.filter_cons_of_neg (by simp [hg])]
    · rw [slotStep_hit, ih, List.filter_cons_of_pos hg, List.append_assoc]
      rfl

theorem arrGet_replicate (L : Nat) (x : Int) (s : Nat) (h : s < L) :
    arrGet (List.replicate L x) s = x := by
  unfold arrGet
  rw [List.getD_eq_getElem?_getD, List.getElem?_replicate]
  simp [h]

theorem sweep_view (K : Consts) (blocks : Nat → DataBlock) (numHs s : Nat)
    (hn : numHs ≤ K.MAX_NUM_DATA_STREAMS / 2) (hs : s < numHs) :
    slotView (sweep K blocks numHs) s = viewOfHits (hitList K blocks s) := by
  have h0 : sweepLengths
      { sumGoodDelays := List.replicate (K.MAX_NUM_DATA_STREAMS / 2) 0,
        indexFirstGoodDelay := List.replicate (K.MAX_NUM_DATA_STREAMS / 2) (-1),
        indexSecondGoodDelay := List.replicate (K.MAX_NUM_DATA_STREAMS / 2) (-1),
        tmpChipId := List.replicate (K.MAX_NUM_DATA_STREAMS / 2) (-1) }
      (K.MAX_NUM_DATA_STREAMS / 2) := by
    unfold sweepLengths
    simp
  obtain ⟨_, hv⟩ := sweepFold_spec K blocks (K.MAX_NUM_DATA_STREAMS / 2) numHs hn
    (List.range 16) _ h0
  unfold sweep
  rw [hv s hs]
  have hs' : s < K.MAX_NUM_DATA_STREAMS / 2 := by omega
  have e : slotView
      { sumGoodDelays := List.replicate (K.MAX_NUM_DATA_STREAMS / 2) 0,
        indexFirstGoodDelay := List.replicate (K.MAX_NUM_DATA_STREAMS / 2) (-1),
        indexSecondGoodDelay := List.replicate (K.MAX_NUM_DATA_STREAMS / 2) (-1),
        tmpChipId := List.replicate (K.MAX_NUM_DATA_STREAMS / 2) (-1) } s
      = viewOfHits [] := by
    unfold slotView viewOfHits
    simp only [arrGet_replicate _ _ _ hs']
    rfl
  rw [e, slotFold_hits]
  rfl

theorem optimumDelay_fold (acc : SweepAcc) (numHs : Nat) (m : Nat) (hm : m ≤ numHs) :
    ((List.range m).foldl
        (fun opt hs =>
          if arrGet acc.sumGoodDelays hs = 1 ∨ arrGet acc.sumGoodDelays hs = 2 then
            arrSet opt hs (arrGet acc.indexFirstGoodDelay hs)
          else if 2 < arrGet acc.sumGoodDelays hs then
            arrSet opt hs (arrGet acc.indexSecondGoodDelay hs)
          else opt)
        (List.replicate numHs 0)).length = numHs
      ∧ ∀ s, arrGet ((List.range m).foldl
        (fun opt hs =>
          if arrGet acc.sumGoodDelays hs = 1 ∨ arrGet acc.sumGoodDelays hs = 2 then
            arrSet opt hs (arrGet acc.indexFirstGoodDelay hs)
          else if 2 < arrGet acc.sumGoodDelays hs then
            arrSet opt hs (arrGet acc.indexSecondGoodDelay hs)
          else opt)
        (List.replicate numHs 0)) s
          = if s < m then pickDelay (slotView acc s) else 0 := by
  induction m with
  | zero =>
    refine ⟨by simp, ?_⟩
    intro s
    simp only [List.range_zero, List.foldl_nil, Nat.not_lt_zero, if_false]
    unfold arrGet
    rw [List.getD_eq_getElem?_getD, List.getElem?_replicate]
    by_cases h : s < numHs <;> simp [h]
  | succ m ih =>
    obtain ⟨hl, hv⟩ := ih (by omega)
    rw [List.range_succ, List.foldl_append]
    simp only [List.foldl_cons, List.foldl_nil]
    have hmlt : m < ((List.range m).foldl
        (fun opt hs =>
          if arrGet acc.sumGoodDelays hs = 1 ∨ arrGet acc.sumGoodDelays hs = 2 then
            arrSet opt hs (arrGet acc.indexFirstGoodDelay hs)
          else if 2 < arrGet acc.sumGoodDelays hs then
            arrSet opt hs (arrGet acc.indexSecondGoodDelay hs)
          else opt)
        (List.replicate numHs 0)).length := by rw [hl]; omega
    by_cases c1 : arrGet acc.sumGoodDelays m = 1 ∨ arrGet acc.sumGoodDelays m = 2
    · rw [if_pos c1]
      refine ⟨by rw [arrSet_length _ _ _ hmlt, hl], ?_⟩
      intro s
      rw [arrGet_arrSet _ _ _ hmlt, hv s]
      by_cases e : s = m
      · subst e
        have : s < s + 1 := by omega
        simp only [if_true, this]
        unfold pickDelay slotView
        simp only [c1, if_true]
      · by_cases e2 : s < m
        · have : s < m + 1 := by omega
          simp [e, e2, this]
        · have : ¬ s < m + 1 := by omega
          simp [e, e2, this]
    · rw [if_neg c1]
      by_cases c2 : 2 < arrGet acc.sumGoodDelays m
      · rw [if_pos c2]
        refine ⟨by rw [arrSet_length _ _ _ hmlt, hl], ?_⟩
        intro s
        rw [arrGet_arrSet _ _ _ hmlt, hv s]
        by_cases e : s = m
        · subst e
          have : s < s + 1 := by omega
          simp only [if_true, this]
          unfold pickDelay slotView
          simp only [c1, c2, if_true, if_false]
        · by_cases e2 : s < m
          · have : s < m + 1 := by omega
            simp [e, e2, this]
          · have : ¬ s < m + 1 := by omega
            simp [e, e2, this]
      · rw [if_neg c2]
        refine ⟨hl, ?_⟩
        intro s
        rw [hv s]
        by_cases e : s = m
        · subst e
          have h1 : s < s + 1 := by omega
          have h2 : ¬ s < s := Nat.lt_irrefl s
          simp only [h1, h2, if_true, if_false]
          unfold pickDelay slotView
          simp only [c1, c2, if_false]
        · by_cases e2 : s < m
          · have : s < m + 1 := by omega
            simp [e2, this]
          · have : ¬ s < m + 1 := by omega
            simp [e2, this]

theorem optimumDelay_at (acc : SweepAcc) (numHs s : Nat) (hs : s < numHs) :
    arrGet (optimumDelay acc numHs) s = pickDelay (slotView acc s) := by
  have h := (optimumDelay_fold acc numHs numHs (Nat.le_refl _)).2 s
  rw [if_pos hs] at h
  exact h

theorem hitList_pairwise (K : Consts) (blocks : Nat → DataBlock) (s : Nat) :
    (hitList K blocks s).Pairwise (· < ·) :=
  List.Pairwise.filter _ (List.pairwise_lt_range 16)

theorem mem_validDelays (K : Consts) (blocks : Nat → DataBlock) (s x : Nat) :
    x ∈ validDelays K blocks s ↔ x ∈ hitList K blocks s := by
  unfold validDelays hitList
  simp [Finset.mem_filter, List.mem_filter]

theorem validDelays_card (K : Consts) (blocks : Nat → DataBlock) (s : Nat) :
    (validDelays K blocks s).card = (hitList K blocks s).length := by
  have hnd : (hitList K blocks s).Nodup :=
    (hitList_pairwise K blocks s).imp (fun h => Nat.ne_of_lt h)
  have e : validDelays K blocks s = (hitList K blocks s).toFinset := by
    ext x
    rw [mem_validDelays, List.mem_toFinset]
  rw [e, List.toFinset_card_of_nodup hnd]

theorem isLeast_head (a : Nat) (t : List Nat) (hp : (a :: t).Pairwise (· < ·))
    (V : Finset Nat) (hV : ∀ x, x ∈ V ↔ x ∈ a :: t) : IsLeast (↑V : Set Nat) a := by
  constructor
  · exact (hV a).mpr (List.mem_cons_self a t)
  · intro x hx
    have hx' := (hV x).mp hx
    rcases List.mem_cons.mp hx' with e | e
    · omega
    · exact Nat.le_of_lt ((List.pairwise_cons.mp hp).1 x e)

theorem mem_erase_head (a : Nat) (t : List Nat) (hp : (a :: t).Pairwise (· < ·))
    (V : Finset Nat) (hV : ∀ x, x ∈ V ↔ x ∈ a :: t) (x : Nat) :
    x ∈ V.erase a ↔ x ∈ t := by
  rw [Finset.mem_erase, hV x, List.mem_cons]
  constructor
  · rintro ⟨hne, h | h⟩
    · exact absurd h hne
    · exact h
  · intro h
    have := (List.pairwise_cons.mp hp).1 x h
    exact ⟨by omega, Or.inr h⟩

theorem pickDelay_hits (H : List Nat) :
    pickDelay (viewOfHits H)
      = match H with
        | [] => 0
        | [a] => (a : Int)
        | [a, _] => (a : Int)
        | _ :: b :: _ :: _ => (b : Int) := by
  unfold pickDelay viewOfHits
  match H with
  | [] => simp
  | [a] => simp
  | [a, b] => simp
  | a :: b :: c :: t =>
    have h1 : ¬ (((a :: b :: c :: t).length : Int) = 1 ∨ ((a :: b :: c :: t).length : Int) = 2) := by
      simp only [List.length_cons]
      omega
    have h2 : (2 : Int) < ((a :: b :: c :: t).length : Int) := by
      simp only [List.length_cons]
      omega
    simp only [h1, h2, if_true, if_false]

/-- The optimum delay of a slot in terms of the set of its valid delays. -/
theorem optimum_of_validDelays (K : Consts) (blocks : Nat → DataBlock) (s : Nat) :
    ((validDelays K blocks s).card = 1 ∨ (validDelays K blocks s).card = 2 →
        ∃ a, IsLeast (↑(validDelays K blocks s) : Set Nat) a
          ∧ pickDelay (viewOfHits (hitList K blocks s)) = (a : Int))
    ∧ (2 < (validDelays K blocks s).card →
        ∃ a b, IsLeast (↑(validDelays K blocks s) : Set Nat) a
          ∧ IsLeast (↑((validDelays K blocks s).erase a) : Set Nat) b
          ∧ pickDelay (viewOfHits (hitList K blocks s)) = (b : Int))
    ∧ (validDelays K blocks s = ∅ → pickDelay (viewOfHits (hitList K blocks s)) = 0) := by
  have hp := hitList_pairwise K blocks s
  have hV := mem_validDelays K blocks s
  have hc := validDelays_card K blocks s
  rw [pickDelay_hits]
  generalize hitList K blocks s = H at hp hV hc
  match H, hp, hV, hc with
  | [], _, hV, hc =>
    have hc0 : (validDelays K blocks s).card = 0 := hc
    refine ⟨?_, ?_, ?_⟩
    · intro h; omega
    · intro h; omega
    · intro _; rfl
  | [a], hp, hV, hc =>
    have hc0 : (validDelays K blocks s).card = 1 := hc
    refine ⟨?_, ?_, ?_⟩
    · intro _; exact ⟨a, isLeast_head a [] hp _ hV, rfl⟩
    · intro h; omega
    · intro h
      have := (hV a).mpr (List.mem_cons_self a [])
      rw [h] at this
      exact absurd this (Finset.not_mem_empty a)
  | [a, b], hp, hV, hc =>
    have hc0 : (validDelays K blocks s).card = 2 := hc
    refine ⟨?_, ?_, ?_⟩
    · intro _; exact ⟨a, isLeast_head a [b] hp _ hV, rfl⟩
    · intro h; omega
    · intro h
      have := (hV a).mpr (List.mem_cons_self a [b])
      rw [h] at this
      exact absurd this (Finset.not_mem_empty a)
  | a :: b :: c :: t, hp, hV, hc =>
    have hc0 : (validDelays K blocks s).card = t.length + 3 := hc
    refine ⟨?_, ?_, ?_⟩
    · intro h; omega
    · intro _
      refine ⟨a, b, isLeast_head a (b :: c :: t) hp _ hV, ?_, rfl⟩
      exact isLeast_head b (c :: t) (List.pairwise_cons.mp hp).2 _
        (mem_erase_head a (b :: c :: t) hp _ hV)
    · intro h
      have := (hV a).mpr (List.mem_cons_self a (b :: c :: t))
      rw [h] at this
      exact absurd this (Finset.not_mem_empty a)

theorem getDeviceId_markers (dataBlock : DataBlock) (s : Nat) :
    (hasMarkers dataBlock s →
        getDeviceId dataBlock s
          = (dataBlock.auxiliaryData s 2 19, dataBlock.auxiliaryData s 2 23))
    ∧ (¬ hasMarkers dataBlock s → getDeviceId dataBlock s = (-1, -1)) := by
  unfold getDeviceId hasMarkers
  constructor
  · rintro ⟨a1, a2, a3, a4, a5, a6, a7, a8⟩
    simp [a1, a2, a3, a4, a5, a6, a7, a8]
  · intro h
    have hb : (castChar (dataBlock.auxiliaryData s 2 32) == charCode 'I' &&
        castChar (dataBlock.auxiliaryData s 2 33) == charCode 'N' &&
        castChar (dataBlock.auxiliaryData s 2 34) == charCode 'T' &&
        castChar (dataBlock.auxiliaryData s 2 35) == charCode 'A' &&
        castChar (dataBlock.auxiliaryData s 2 36) == charCode 'N' &&
        castChar (dataBlock.auxiliaryData s 2 24) == charCode 'R' &&
        castChar (dataBlock.auxiliaryData s 2 25) == charCode 'H' &&
        castChar (dataBlock.auxiliaryData s 2 26) == charCode 'D') = false := by
      by_contra hcon
      apply h
      simp only [Bool.not_eq_false, Bool.and_eq_true, beq_iff_eq] at hcon
      obtain ⟨⟨⟨⟨⟨⟨⟨a1, a2⟩, a3⟩, a4⟩, a5⟩, a6⟩, a7⟩, a8⟩ := hcon
      exact ⟨a1, a2, a3, a4, a5, a6, a7, a8⟩
    simp only [hb, Bool.not_false, if_true]

/-- C8: with 16 headstage slots (and sweep arrays of at least 16 entries), for every
outcome of the sweep the optimum delay of slot `s` is the smallest valid delay of `s` when
there are 1 or 2 of them, the second smallest when there are more than 2, and the initial
`0` when there is none; the eight final cable delay writes of `scanPorts` carry, for port
`p`, the maximum of the optimum delays of slots `2p` and `2p+1`. -/
theorem scanPorts_optimum_delay (K : Consts) (d : DeviceThread) (blocks : Nat → DataBlock)
    (hd : d.deviceFound = true) (hlen : d.headstages.length = 16)
    (hmax : 16 ≤ K.MAX_NUM_DATA_STREAMS / 2) :
    (∀ s, s < 16 →
      ((validDelays K blocks s).card = 1 ∨ (validDelays K blocks s).card = 2 →
          ∃ a, IsLeast (↑(validDelays K blocks s) : Set Nat) a
            ∧ arrGet (optimumDelay (sweep K blocks 16) 16) s = (a : Int))
      ∧ (2 < (validDelays K blocks s).card →
          ∃ a b, IsLeast (↑(validDelays K blocks s) : Set Nat) a
            ∧ IsLeast (↑((validDelays K blocks s).erase a) : Set Nat) b
            ∧ arrGet (optimumDelay (sweep K blocks 16) 16) s = (b : Int))
      ∧ (validDelays K blocks s = ∅ →
          arrGet (optimumDelay (sweep K blocks 16) 16) s = 0))
    ∧ ∃ pre, (d.scanPorts K blocks).boardLog
        = pre ++ (List.range 8).map (fun port =>
            BoardCmd.setCableDelay port
              (max (arrGet (optimumDelay (sweep K blocks 16) 16) (2 * port))
                (arrGet (optimumDelay (sweep K blocks 16) 16) (2 * port + 1)))) := by
  constructor
  · intro s hs
    rw [optimumDelay_at _ _ _ hs, sweep_view K blocks 16 s hmax hs]
    exact optimum_of_validDelays K blocks s
  · unfold DeviceThread.scanPorts
    simp only [hd, Bool.not_true, Bool.false_eq_true, if_false, hlen]
    exact ⟨_, rfl⟩

theorem scanPorts_optimum_delay_witness :
    (exampleDevice.deviceFound = true ∧ exampleDevice.headstages.length = 16
      ∧ 16 ≤ exampleConsts.MAX_NUM_DATA_STREAMS / 2)
    ∧ ∃ pre, (exampleDevice.scanPorts exampleConsts exampleScanBlocks).boardLog
        = pre ++ (List.range 8).map (fun port =>
            BoardCmd.setCableDelay port
              (max (arrGet (optimumDelay (sweep exampleConsts exampleScanBlocks 16) 16)
                  (2 * port))
                (arrGet (optimumDelay (sweep exampleConsts exampleScanBlocks 16) 16)
                  (2 * port + 1)))) :=
  ⟨⟨rfl, by decide, by decide⟩,
    (scanPorts_optimum_delay exampleConsts exampleDevice exampleScanBlocks rfl (by decide)
      (by decide)).2⟩

/-- Worked example of the selection rule: slot 0 answers at the delays 3, 4, 5, 6 (more
than two hits), so its optimum delay is the second hit, 4; slot 1 never answers and keeps
the initial 0. -/
theorem scanPorts_example_delays :
    arrGet (optimumDelay (sweep exampleConsts exampleScanBlocks 16) 16) 0 = 4
    ∧ arrGet (optimumDelay (sweep exampleConsts exampleScanBlocks 16) 16) 1 = 0 := by
  have h0 : hitList exampleConsts exampleScanBlocks 0 = [3, 4, 5, 6] := by decide
  have h1 : hitList exampleConsts exampleScanBlocks 1 = [] := by decide
  rw [optimumDelay_at _ _ _ (by decide), optimumDelay_at _ _ _ (by decide),
    sweep_view exampleConsts exampleScanBlocks 16 0 (by decide) (by decide),
    sweep_view exampleConsts exampleScanBlocks 16 1 (by decide) (by decide), h0, h1]
  decide

/-- C9: during the sweep a slot counts as a valid match exactly when `getDeviceId` finds
the markers `INTAN` (positions 32 to 36) and `RHD` (positions 24 to 26) and the chip id at
position 19 is RHD2132 or RHD2216, or is RHD2164 with the register 59 value at position 23
equal to `REGISTER_59_MISO_A`; with a wrong marker `getDeviceId` returns `-1` and leaves
`-1` in the register value. The chip id constants are taken to differ from `-1`. -/
theorem sweep_valid_match_iff (K : Consts) (h1 : K.CHIP_ID_RHD2132 ≠ -1)
    (h2 : K.CHIP_ID_RHD2216 ≠ -1) (h3 : K.CHIP_ID_RHD2164 ≠ -1)
    (dataBlock : DataBlock) (delay : Nat) (acc : SweepAcc) (s : Nat) :
    (goodDeviceId K (getDeviceId dataBlock s) = true ↔
        hasMarkers dataBlock s
        ∧ (dataBlock.auxiliaryData s 2 19 = K.CHIP_ID_RHD2132
          ∨ dataBlock.auxiliaryData s 2 19 = K.CHIP_ID_RHD2216
          ∨ (dataBlock.auxiliaryData s 2 19 = K.CHIP_ID_RHD2164
            ∧ dataBlock.auxiliaryData s 2 23 = K.REGISTER_59_MISO_A)))
    ∧ (¬ hasMarkers dataBlock s → getDeviceId dataBlock s = (-1, -1))
    ∧ (goodDeviceId K (getDeviceId dataBlock s) = true →
        (sweepSlot K dataBlock delay acc s).sumGoodDelays
          = arrSet acc.sumGoodDelays s (arrGet acc.sumGoodDelays s + 1))
    ∧ (goodDeviceId K (getDeviceId dataBlock s) = false →
        sweepSlot K dataBlock delay acc s = acc) := by
  obtain ⟨hm, hn⟩ := getDeviceId_markers dataBlock s
  refine ⟨?_, hn, ?_, ?_⟩
  · by_cases hk : hasMarkers dataBlock s
    · rw [hm hk]
      unfold goodDeviceId
      simp only [Bool.or_eq_true, Bool.and_eq_true, beq_iff_eq]
      constructor
      · intro h
        refine ⟨hk, ?_⟩
        rcases h with (h | h) | h
        · exact Or.inl h
        · exact Or.inr (Or.inl h)
        · exact Or.inr (Or.inr h)
      · rintro ⟨_, h | h | h⟩
        · exact Or.inl (Or.inl h)
        · exact Or.inl (Or.inr h)
        · exact Or.inr h
    · rw [hn hk]
      unfold goodDeviceId
      simp only [Bool.or_eq_true, Bool.and_eq_true, beq_iff_eq]
      constructor
      · intro h
        rcases h with (h | h) | h
        · exact absurd h.symm h1
        · exact absurd h.symm h2
        · exact absurd h.1.symm h3
      · intro h
        exact absurd h.1 hk
  · intro hg
    unfold sweepSlot
    simp only [hg, if_true]
    split
    · rfl
    · split <;> rfl
  · intro hg
    unfold sweepSlot
    simp only [hg, Bool.false_eq_true, if_false]

theorem sweep_valid_match_iff_witness :
    (exampleConsts.CHIP_ID_RHD2132 ≠ -1 ∧ exampleConsts.CHIP_ID_RHD2216 ≠ -1
      ∧ exampleConsts.CHIP_ID_RHD2164 ≠ -1)
    ∧ (goodDeviceId exampleConsts (getDeviceId (exampleScanBlocks 4) 0) = true ↔
        hasMarkers (exampleScanBlocks 4) 0
        ∧ ((exampleScanBlocks 4).auxiliaryData 0 2 19 = exampleConsts.CHIP_ID_RHD2132
          ∨ (exampleScanBlocks 4).auxiliaryData 0 2 19 = exampleConsts.CHIP_ID_RHD2216
          ∨ ((exampleScanBlocks 4).auxiliaryData 0 2 19 = exampleConsts.CHIP_ID_RHD2164
            ∧ (exampleScanBlocks 4).auxiliaryData 0 2 23
              = exampleConsts.REGISTER_59_MISO_A))) :=
  ⟨⟨by decide, by decide, by decide⟩,
    (sweep_valid_match_iff exampleConsts (by decide) (by decide) (by decide)
      (exampleScanBlocks 4) 4
      { sumGoodDelays := [], indexFirstGoodDelay := [], indexSecondGoodDelay := [],
        tmpChipId := [] } 0).1⟩

/-! ## Channel offsets -/

theorem activeSum_cons (h : Headstage) (l : List Headstage) :
    activeSum (h :: l)
      = (if h.isConnected then h.getNumActiveChannels else 0) + activeSum l := by
  unfold activeSum
  by_cases c : h.isConnected = true
  · simp [List.filter_cons, c]
  · simp [List.filter_cons, c]

theorem assignFirstChannels_offsets (l : List Headstage) :
    ∀ c : Int, offsetsFrom c (DeviceThread.assignFirstChannels c l) := by
  induction l with
  | nil =>
    intro c i h hi
    simp [DeviceThread.assignFirstChannels] at hi
  | cons hd tl ih =>
    intro c i h hi hc
    by_cases hcon : hd.isConnected = true
    · rw [DeviceThread.assignFirstChannels, if_pos hcon] at hi ⊢
      cases i with
      | zero =>
        simp only [List.getElem?_cons_zero, Option.some.injEq] at hi
        subst hi
        simp [activeSum]
      | succ i =>
        simp only [List.getElem?_cons_succ] at hi
        have key := ih (c + hd.getNumActiveChannels) i h hi hc
        rw [key, List.take_succ_cons, activeSum_cons]
        have e1 : ({ hd with firstChannelIndex := c } : Headstage).isConnected = true := hcon
        have e2 : ({ hd with firstChannelIndex := c } : Headstage).getNumActiveChannels
            = hd.getNumActiveChannels := rfl
        rw [if_pos e1, e2]
        ring
    · rw [DeviceThread.assignFirstChannels, if_neg hcon] at hi ⊢
      cases i with
      | zero =>
        simp only [List.getElem?_cons_zero, Option.some.injEq] at hi
        subst hi
        exact absurd hc hcon
      | succ i =>
        simp only [List.getElem?_cons_succ] at hi
        have key := ih c i h hi hc
        rw [key, List.take_succ_cons, activeSum_cons, if_neg hcon]
        ring

theorem getNumElectrodeOutputs_fold (l : List Headstage) :
    ∀ c : Int,
      l.foldl
        (fun totalChannels headstage =>
          if headstage.isConnected then totalChannels + headstage.getNumActiveChannels
          else totalChannels) c
        = c + activeSum l := by
  induction l with
  | nil => intro c; simp [activeSum]
  | cons hd tl ih =>
    intro c
    rw [List.foldl_cons, ih, activeSum_cons]
    by_cases hcon : hd.isConnected = true
    · simp only [hcon, if_true]; ring
    · simp only [hcon, if_false, Bool.false_eq_true]; ring

theorem getNumElectrodeOutputs_eq (d : DeviceThread) :
    d.getNumElectrodeOutputs = activeSum d.headstages := by
  unfold DeviceThread.getNumElectrodeOutputs
  rw [getNumElectrodeOutputs_fold, Int.zero_add]

theorem setNumChannels_headstages (d : DeviceThread) (hsNum : Nat) (numChannels : Int) :
    d.setNumChannels hsNum numChannels = d
      ∨ ∃ l, (d.setNumChannels hsNum numChannels).headstages = DeviceThread.assignFirstChannels 0 l := by
  unfold DeviceThread.setNumChannels
  cases d.headstages[hsNum]? with
  | none => exact Or.inl rfl
  | some h => exact Or.inr ⟨_, rfl⟩

theorem enableHeadstage_true_headstages (d : DeviceThread) (hsNum : Nat)
    (nStr strChans : Int) (h : Headstage) (hh : d.headstages[hsNum]? = some h) :
    (d.enableHeadstage hsNum true nStr strChans).headstages
      = d.headstages.set hsNum
          { h with firstChannelIndex := d.getNumElectrodeOutputs, numStreams := nStr,
                   channelsPerStream := strChans,
                   streamIndex := (d.enabledStreams.length : Int) } := by
  unfold DeviceThread.enableHeadstage
  rw [hh]
  simp only [if_true]
  split <;> rfl

theorem enableHeadstage_false_headstages (d : DeviceThread) (hsNum : Nat)
    (nStr strChans : Int) (h : Headstage) (hh : d.headstages[hsNum]? = some h) :
    (d.enableHeadstage hsNum false nStr strChans).headstages
      = d.headstages.set hsNum { h with numStreams := 0 } := by
  unfold DeviceThread.enableHeadstage
  rw [hh]
  simp only [Bool.false_eq_true, if_false]
  split <;> split <;> (try split) <;> rfl

theorem enableHeadstage_none (d : DeviceThread) (hsNum : Nat) (enabled : Bool)
    (nStr strChans : Int) (hh : d.headstages[hsNum]? = none) :
    d.enableHeadstage hsNum enabled nStr strChans = d := by
  unfold DeviceThread.enableHeadstage
  rw [hh]

theorem take_set_of_le (l : List Headstage) (n m : Nat) (a : Headstage) (h : m ≤ n) :
    (l.set n a).take m = l.take m := by
  induction l generalizing n m with
  | nil => simp
  | cons hd tl ih =>
    cases m with
    | zero => simp
    | succ m =>
      cases n with
      | zero => omega
      | succ n =>
        rw [List.set_cons_succ, List.take_succ_cons, List.take_succ_cons, ih n m (by omega)]

theorem activeSum_append (l1 l2 : List Headstage) :
    activeSum (l1 ++ l2) = activeSum l1 + activeSum l2 := by
  unfold activeSum
  rw [List.filter_append, List.map_append, List.sum_append]

theorem activeSum_disconnected (l : List Headstage)
    (h : ∀ x, x ∈ l → x.isConnected = false) : activeSum l = 0 := by
  unfold activeSum
  have : l.filter Headstage.isConnected = [] := by
    rw [List.filter_eq_nil_iff]
    intro a ha
    rw [h a ha]
    simp
  rw [this]
  rfl

theorem activeSum_take_of_rest_disconnected (l : List Headstage) (n : Nat)
    (h : ∀ j x, n ≤ j → l[j]? = some x → x.isConnected = false) :
    activeSum l = activeSum (l.take n) := by
  have e := List.take_append_drop n l
  have hd : activeSum (l.drop n) = 0 := by
    apply activeSum_disconnected
    intro x hx
    obtain ⟨j, hj⟩ := List.mem_iff_getElem?.mp hx
    rw [List.getElem?_drop] at hj
    exact h (n + j) x (by omega) hj
  calc activeSum l = activeSum (l.take n ++ l.drop n) := by rw [e]
    _ = activeSum (l.take n) + activeSum (l.drop n) := activeSum_append _ _
    _ = activeSum (l.take n) := by rw [hd, Int.add_zero]

theorem exampleDevice_all_disconnected (j : Nat) (x : Headstage)
    (hx : exampleDevice.headstages[j]? = some x) : x.isConnected = false := by
  have e : ((List.range 16).map exampleHeadstage)[j]? = some x := hx
  rw [List.getElem?_map] at e
  have hj : j < 16 := by
    by_contra hc
    rw [List.getElem?_eq_none (by simp; omega)] at e
    simp at e
  rw [List.getElem?_range hj] at e
  have f : exampleHeadstage j = x := Option.some.inj e
  subst f
  rfl

theorem exampleDevice_offsets : offsetsContiguous exampleDevice := by
  intro i h hi hc
  rw [exampleDevice_all_disconnected i h hi] at hc
  cases hc

theorem exampleDevice32_rest_disconnected (j : Nat) (x : Headstage) (hj : 1 ≤ j)
    (hx : exampleDevice32.headstages[j]? = some x) : x.isConnected = false := by
  unfold exampleDevice32 at hx
  rw [enableHeadstage_true_headstages exampleDevice 0 1 32 (exampleHeadstage 0) rfl,
    List.getElem?_set_ne (by omega)] at hx
  exact exampleDevice_all_disconnected j x hx

/-- C10 (as stated, refuted): after enabling slots 0 and 1 (32 channels each) and then
disabling slot 0, slot 1 is connected with first-channel offset 32 although no connected
headstage is left below it, so the offsets do not start at 0; and after enabling slot 1
and then slot 0 (32 channels each), slot 0 is connected with first-channel offset 32
although nothing is below it, while slot 1 has offset 0. -/
theorem offsets_not_contiguous_after_disable :
    exampleAfterDisable.headstages[1]?.map Headstage.isConnected = some true
    ∧ exampleAfterDisable.headstages[1]?.map Headstage.firstChannelIndex = some 32
    ∧ activeSum (exampleAfterDisable.headstages.take 1) = 0
    ∧ ¬ offsetsContiguous exampleAfterDisable
    ∧ exampleEnabledDescending.headstages[0]?.map Headstage.isConnected = some true
    ∧ exampleEnabledDescending.headstages[0]?.map Headstage.firstChannelIndex = some 32
    ∧ exampleEnabledDescending.headstages[1]?.map Headstage.isConnected = some true
    ∧ exampleEnabledDescending.headstages[1]?.map Headstage.firstChannelIndex = some 0
    ∧ ¬ offsetsContiguous exampleEnabledDescending := by
  have h1 : exampleAfterDisable.headstages[1]?.map Headstage.isConnected = some true := by
    decide
  have h2 : exampleAfterDisable.headstages[1]?.map Headstage.firstChannelIndex = some 32 := by
    decide
  have h3 : activeSum (exampleAfterDisable.headstages.take 1) = 0 := by decide
  have k1 : exampleEnabledDescending.headstages[0]?.map Headstage.isConnected = some true := by
    decide
  have k2 : exampleEnabledDescending.headstages[0]?.map Headstage.firstChannelIndex
      = some 32 := by
    decide
  have k3 : activeSum (exampleEnabledDescending.headstages.take 0) = 0 := by decide
  refine ⟨h1, h2, h3, ?_, k1, k2, by decide, by decide, ?_⟩
  · intro hcon
    cases hg : exampleAfterDisable.headstages[1]? with
    | none => rw [hg] at h1; cases h1
    | some h =>
      rw [hg] at h1 h2
      simp only [Option.map_some', Option.some.injEq] at h1 h2
      have key := hcon 1 h hg h1
      rw [h2, h3] at key
      cases key
  · intro hcon
    cases hg : exampleEnabledDescending.headstages[0]? with
    | none => rw [hg] at k1; cases k1
    | some h =>
      rw [hg] at k1 k2
      simp only [Option.map_some', Option.some.injEq] at k1 k2
      have key := hcon 0 h hg k1
      rw [k2, k3] at key
      cases key

/-- C10 (amended): for an existing slot `hsNum`, (1) after `setNumChannels` the
first-channel offset of every connected headstage is the sum of the active channel counts
of the connected headstages in lower slots; (2) `enableHeadstage (hsNum, true, ...)` gives
slot `hsNum` the total active channel count of the headstages connected at the time of the
call, changes no other slot, and so keeps the offsets contiguous when no slot from `hsNum`
upwards was connected; (3) `enableHeadstage (hsNum, false)` changes no offset. -/
theorem offsets_after_registry_calls (d : DeviceThread) (hsNum : Nat)
    (hlt : hsNum < d.headstages.length) :
    (∀ numChannels, offsetsContiguous (d.setNumChannels hsNum numChannels))
    ∧ (∀ nStr strChans,
        (d.enableHeadstage hsNum true nStr strChans).headstages[hsNum]?.map
            Headstage.firstChannelIndex = some (activeSum d.headstages)
        ∧ (∀ j, j ≠ hsNum →
            (d.enableHeadstage hsNum true nStr strChans).headstages[j]? = d.headstages[j]?)
        ∧ (offsetsContiguous d →
            (∀ j x, hsNum ≤ j → d.headstages[j]? = some x → x.isConnected = false) →
            offsetsContiguous (d.enableHeadstage hsNum true nStr strChans)))
    ∧ (∀ (nStr strChans : Int) (j : Nat),
        (d.enableHeadstage hsNum false nStr strChans).headstages[j]?.map
            Headstage.firstChannelIndex
          = d.headstages[j]?.map Headstage.firstChannelIndex) := by
  obtain ⟨h, hh⟩ : ∃ h, d.headstages[hsNum]? = some h :=
    ⟨d.headstages[hsNum], List.getElem?_eq_getElem hlt⟩
  refine ⟨?_, ?_, ?_⟩
  · intro numChannels
    unfold offsetsContiguous DeviceThread.setNumChannels
    rw [hh]
    exact assignFirstChannels_offsets _ 0
  · intro nStr strChans
    have e := enableHeadstage_true_headstages d hsNum nStr strChans h hh
    refine ⟨?_, ?_, ?_⟩
    · rw [e, List.getElem?_set_self hlt, getNumElectrodeOutputs_eq]
      rfl
    · intro j hj
      rw [e, List.getElem?_set_ne (fun x => hj x.symm)]
    · intro hinv hrest
      unfold offsetsContiguous offsetsFrom
      rw [e]
      intro i x hi hc
      by_cases c1 : i = hsNum
      · subst c1
        rw [List.getElem?_set_self hlt] at hi
        simp only [Option.some.injEq] at hi
        subst hi
        rw [take_set_of_le _ _ _ _ (Nat.le_refl i), Int.zero_add, getNumElectrodeOutputs_eq]
        exact activeSum_take_of_rest_disconnected d.headstages i hrest
      · rw [List.getElem?_set_ne (fun x => c1 x.symm)] at hi
        by_cases c2 : i < hsNum
        · rw [take_set_of_le _ _ _ _ (Nat.le_of_lt c2)]
          exact hinv i x hi hc
        · have := hrest i x (by omega) hi
          rw [this] at hc
          cases hc
  · intro nStr strChans j
    rw [enableHeadstage_false_headstages d hsNum nStr strChans h hh]
    by_cases c : hsNum = j
    · subst c
      rw [List.getElem?_set_self hlt, hh]
      rfl
    · rw [List.getElem?_set_ne c]

theorem offsets_after_registry_calls_witness :
    offsetsContiguous (exampleDeviceTwo.setNumChannels 0 16)
    ∧ (exampleDeviceTwo.setNumChannels 0 16).headstages[0]?.map
        Headstage.getNumActiveChannels = some 16
    ∧ (exampleDeviceTwo.setNumChannels 0 16).headstages[1]?.map Headstage.isConnected
        = some true
    ∧ (exampleDeviceTwo.setNumChannels 0 16).headstages[1]?.map Headstage.firstChannelIndex
        = some 16
    ∧ (exampleDevice32.enableHeadstage 1 true 1 32).headstages[1]?.map
        Headstage.firstChannelIndex = some (activeSum exampleDevice32.headstages)
    ∧ activeSum exampleDevice32.headstages = 32
    ∧ offsetsContiguous (exampleDevice32.enableHeadstage 1 true 1 32)
    ∧ (exampleDeviceTwo.enableHeadstage 0 false 1 32).headstages[1]?.map
        Headstage.firstChannelIndex
      = exampleDeviceTwo.headstages[1]?.map Headstage.firstChannelIndex
    ∧ exampleDeviceTwo.headstages[1]?.map Headstage.firstChannelIndex = some 32 :=
  ⟨(offsets_after_registry_calls exampleDeviceTwo 0 (by decide)).1 16,
    by decide, by decide, by decide,
    ((offsets_after_registry_calls exampleDevice32 1 (by decide)).2.1 1 32).1,
    by decide,
    ((offsets_after_registry_calls exampleDevice32 1 (by decide)).2.1 1 32).2.2
      (((offsets_after_registry_calls exampleDevice 0 (by decide)).2.1 1 32).2.2
        exampleDevice_offsets (fun j x _ hx => exampleDevice_all_disconnected j x hx))
      exampleDevice32_rest_disconnected,
    (offsets_after_registry_calls exampleDeviceTwo 0 (by decide)).2.2 1 32 1,
    by decide⟩

/-! ## Stream lists of the registry -/

set_option maxRecDepth 100000

theorem arrIndexOf_lt (a : List Int) (v : Int) (h : 0 ≤ arrIndexOf a v) :
    (arrIndexOf a v).toNat < a.length := by
  unfold arrIndexOf at h ⊢
  by_cases hv : v ∈ a
  · simp only [hv, if_true, Int.toNat_ofNat]
    exact List.indexOf_lt_length.mpr hv
  · simp only [hv, if_false] at h
    omega

theorem arrRemove_length (a : List Int) (i : Int) (h0 : 0 ≤ i) (h : i.toNat < a.length) :
    (arrRemove a i).length + 1 = a.length := by
  unfold arrRemove
  have : ¬ i < 0 := by omega
  simp only [this, if_false, List.length_eraseIdx, h, if_true]
  omega

theorem arrRemove_length_le (a : List Int) (i : Int) :
    (arrRemove a i).length ≤ a.length := by
  unfold arrRemove
  split
  · exact le_refl _
  · rw [List.length_eraseIdx]
    split <;> omega

theorem enableHeadstage_true_streams (d : DeviceThread) (hsNum : Nat) (nStr strChans : Int)
    (h : Headstage) (hh : d.headstages[hsNum]? = some h) :
    (d.enableHeadstage hsNum true nStr strChans).enabledStreams
        = d.enabledStreams ++
            (if 1 < nStr then [h.getDataStream 0, h.getDataStream 1]
             else [h.getDataStream 0])
      ∧ (d.enableHeadstage hsNum true nStr strChans).numChannelsPerDataStream
        = d.numChannelsPerDataStream ++
            (if 1 < nStr then [strChans, strChans] else [strChans]) := by
  unfold DeviceThread.enableHeadstage
  simp only [hh, if_true]
  by_cases hn : 1 < nStr
  · simp only [hn, if_true, List.append_assoc, List.singleton_append]
    constructor <;> first | rfl | trivial
  · simp only [hn, if_false]
    constructor <;> first | rfl | trivial

theorem enableHeadstage_false_lengths (d : DeviceThread) (hsNum : Nat) (nStr strChans : Int)
    (hle : d.enabledStreams.length ≤ d.numChannelsPerDataStream.length) :
    (d.enableHeadstage hsNum false nStr strChans).enabledStreams.length
        ≤ d.enabledStreams.length
      ∧ (d.enableHeadstage hsNum false nStr strChans).numChannelsPerDataStream.length
          + d.enabledStreams.length
        = d.numChannelsPerDataStream.length
          + (d.enableHeadstage hsNum false nStr strChans).enabledStreams.length := by
  unfold DeviceThread.enableHeadstage
  cases hh : d.headstages[hsNum]? with
  | none => simp
  | some h =>
    simp only [Bool.false_eq_true, if_false]
    -- first removal
    have step : ∀ (e n : List Int) (v : Int), e.length ≤ n.length →
        0 ≤ arrIndexOf e v →
        (arrRemove e (arrIndexOf e v)).length + 1 = e.length
          ∧ (arrRemove n (arrIndexOf e v)).length + 1 = n.length := by
      intro e n v hl h0
      have hlt := arrIndexOf_lt e v h0
      exact ⟨arrRemove_length e _ h0 hlt, arrRemove_length n _ h0 (by omega)⟩
    by_cases h0 : 0 ≤ arrIndexOf d.enabledStreams (h.getDataStream 0)
    · obtain ⟨a1, a2⟩ := step d.enabledStreams d.numChannelsPerDataStream _ hle h0
      simp only [h0, if_true]
      by_cases h2 : 1 < h.numStreams
      · simp only [h2, if_true]
        by_cases h1 : 0 ≤ arrIndexOf (arrRemove d.enabledStreams
            (arrIndexOf d.enabledStreams (h.getDataStream 0))) (h.getDataStream 1)
        · obtain ⟨b1, b2⟩ := step _ (arrRemove d.numChannelsPerDataStream
            (arrIndexOf d.enabledStreams (h.getDataStream 0))) _ (by omega) h1
          simp only [h1, if_true]
          constructor <;> omega
        · simp only [h1, if_false]
          constructor <;> omega
      · simp only [h2, if_false]
        constructor <;> omega
    · simp only [h0, if_false]
      by_cases h2 : 1 < h.numStreams
      · simp only [h2, if_true]
        by_cases h1 : 0 ≤ arrIndexOf d.enabledStreams (h.getDataStream 1)
        · obtain ⟨b1, b2⟩ := step d.enabledStreams d.numChannelsPerDataStream _ hle h1
          simp only [h1, if_true]
          constructor <;> omega
        · simp only [h1, if_false]
          constructor <;> simp
      · simp only [h2, if_false]
        constructor <;> simp

theorem enableHeadstage_false_length_le (d : DeviceThread) (hsNum : Nat)
    (nStr strChans : Int) :
    (d.enableHeadstage hsNum false nStr strChans).enabledStreams.length
      ≤ d.enabledStreams.length := by
  unfold DeviceThread.enableHeadstage
  cases hh : d.headstages[hsNum]? with
  | none => simp
  | some h =>
    simp only [Bool.false_eq_true, if_false]
    have r1 := arrRemove_length_le d.enabledStreams
      (arrIndexOf d.enabledStreams (h.getDataStream 0))
    have r2 := arrRemove_length_le (arrRemove d.enabledStreams
      (arrIndexOf d.enabledStreams (h.getDataStream 0)))
      (arrIndexOf (arrRemove d.enabledStreams
        (arrIndexOf d.enabledStreams (h.getDataStream 0))) (h.getDataStream 1))
    have r3 := arrRemove_length_le d.enabledStreams
      (arrIndexOf d.enabledStreams (h.getDataStream 1))
    split <;> split <;> (try split) <;> (try dsimp only) <;> omega

theorem enableHeadstage_true_lengths (d : DeviceThread) (hsNum : Nat) (nStr strChans : Int) :
    (d.enableHeadstage hsNum true nStr strChans).enabledStreams.length
        = d.enabledStreams.length
          + (if d.headstages[hsNum]?.isSome then (if 1 < nStr then 2 else 1) else 0)
      ∧ (d.enableHeadstage hsNum true nStr strChans).numChannelsPerDataStream.length
        = d.numChannelsPerDataStream.length
          + (if d.headstages[hsNum]?.isSome then (if 1 < nStr then 2 else 1) else 0) := by
  cases hh : d.headstages[hsNum]? with
  | none =>
    rw [enableHeadstage_none d hsNum true nStr strChans hh]
    simp
  | some h =>
    obtain ⟨e1, e2⟩ := enableHeadstage_true_streams d hsNum nStr strChans h hh
    rw [e1, e2]
    by_cases hn : 1 < nStr <;> simp [hn]

theorem assignSlot_streams (K : Consts) (tmpChipId : List Int) (a : DeviceThread.AssignAcc)
    (hs : Nat) (n0 : Nat)
    (hinv : a.device.numChannelsPerDataStream.length = n0 + a.device.enabledStreams.length)
    (hmax : a.device.enabledStreams.length ≤ K.MAX_NUM_DATA_STREAMS) :
    (DeviceThread.assignSlot K tmpChipId a hs).device.numChannelsPerDataStream.length
        = n0 + (DeviceThread.assignSlot K tmpChipId a hs).device.enabledStreams.length
      ∧ (DeviceThread.assignSlot K tmpChipId a hs).device.enabledStreams.length
        ≤ K.MAX_NUM_DATA_STREAMS := by
  unfold DeviceThread.assignSlot
  simp only []
  split
  · rename_i hg
    split
    · split
      · rename_i h2
        obtain ⟨e1, e2⟩ := enableHeadstage_true_lengths
          { a.device with chipId := arrSet a.device.chipId a.chipIdx (arrGet tmpChipId hs) }
          hs 2 32
        dsimp only at e1 e2 ⊢
        rw [e1, e2]
        have h2' : a.device.enabledStreams.length + 2 ≤ K.MAX_NUM_DATA_STREAMS := by omega
        split <;> simp <;> omega
      · obtain ⟨e1, e2⟩ := enableHeadstage_true_lengths
          { a.device with chipId := arrSet a.device.chipId a.chipIdx (arrGet tmpChipId hs) }
          hs 1 32
        dsimp only at e1 e2 ⊢
        rw [e1, e2]
        split <;> simp <;> omega
    · obtain ⟨e1, e2⟩ := enableHeadstage_true_lengths
        { a.device with chipId := arrSet a.device.chipId a.chipIdx (arrGet tmpChipId hs) }
        hs 1 (if arrGet tmpChipId hs = 1 then 32 else 16)
      dsimp only at e1 e2 ⊢
      rw [e1, e2]
      split <;> simp <;> omega
  · obtain ⟨e1, e2⟩ := enableHeadstage_false_lengths a.device hs 1 32 (by omega)
    dsimp only
    constructor <;> omega

theorem assignSlot_two_streams (K : Consts) (tmpChipId : List Int)
    (a : DeviceThread.AssignAcc) (hs : Nat)
    (h : (DeviceThread.assignSlot K tmpChipId a hs).device.enabledStreams.length
      = a.device.enabledStreams.length + 2) :
    a.device.enabledStreams.length + 2 ≤ K.MAX_NUM_DATA_STREAMS
      ∧ arrGet tmpChipId hs = K.CHIP_ID_RHD2164 := by
  unfold DeviceThread.assignSlot at h
  simp only [] at h
  split at h
  · split at h
    · rename_i hc
      split at h
      · rename_i h2
        exact ⟨by omega, hc⟩
      · exfalso
        have e1 := (enableHeadstage_true_lengths
          { a.device with chipId := arrSet a.device.chipId a.chipIdx (arrGet tmpChipId hs) }
          hs 1 32).1
        dsimp only at e1 h
        rw [e1] at h
        split at h <;> simp at h
    · exfalso
      have e1 := (enableHeadstage_true_lengths
        { a.device with chipId := arrSet a.device.chipId a.chipIdx (arrGet tmpChipId hs) }
        hs 1 (if arrGet tmpChipId hs = 1 then 32 else 16)).1
      dsimp only at e1 h
      rw [e1] at h
      split at h <;> simp at h
  · exfalso
    have e1 := enableHeadstage_false_length_le a.device hs 1 32
    dsimp only at h
    omega

theorem assignFold_streams (K : Consts) (tmpChipId : List Int) (n0 : Nat) (l : List Nat) :
    ∀ a : DeviceThread.AssignAcc,
      a.device.numChannelsPerDataStream.length = n0 + a.device.enabledStreams.length →
      a.device.enabledStreams.length ≤ K.MAX_NUM_DATA_STREAMS →
      (l.foldl (DeviceThread.assignSlot K tmpChipId) a).device.numChannelsPerDataStream.length
          = n0 + (l.foldl (DeviceThread.assignSlot K tmpChipId) a).device.enabledStreams.length
        ∧ (l.foldl (DeviceThread.assignSlot K tmpChipId) a).device.enabledStreams.length
          ≤ K.MAX_NUM_DATA_STREAMS := by
  induction l with
  | nil => intro a h1 h2; exact ⟨h1, h2⟩
  | cons x xs ih =>
    intro a h1 h2
    obtain ⟨g1, g2⟩ := assignSlot_streams K tmpChipId a x n0 h1 h2
    exact ih _ g1 g2

theorem scanPorts_streams (K : Consts) (d : DeviceThread) (blocks : Nat → DataBlock)
    (hdev : d.deviceFound = true) :
    (d.scanPorts K blocks).numChannelsPerDataStream.length
        = d.numChannelsPerDataStream.length + (d.scanPorts K blocks).enabledStreams.length
      ∧ (d.scanPorts K blocks).enabledStreams.length ≤ K.MAX_NUM_DATA_STREAMS := by
  unfold DeviceThread.scanPorts
  simp only [hdev, Bool.not_true, Bool.false_eq_true, if_false]
  unfold DeviceThread.updateBoardStreams
  dsimp only
  exact assignFold_streams K _ d.numChannelsPerDataStream.length _ _ (by simp) (by simp)

/-! ## C11: pairing of the two stream lists -/


/-- C11 (defect of the code): `scanPorts` clears `enabledStreams` but not
`numChannelsPerDataStream`, so after a rescan the count list keeps the entries of the
earlier scan in front. A scan that finds an RHD2132 on slot 0 leaves the lists `[0]` and
`[32]`; the same scan repeated leaves `[0]` and `[32, 32]`. When the first scan found an
RHD2216 and the rescan finds an RHD2132 the lists are `[0]` and `[16, 32]`: the entry
paired with stream 0 is 16 although slot 0 was given 32 channels. -/
theorem scanPorts_rescan_keeps_stale_counts :
    (exampleDevice.scanPorts exampleConsts exampleScanBlocks).enabledStreams = [0]
    ∧ (exampleDevice.scanPorts exampleConsts exampleScanBlocks).numChannelsPerDataStream
        = [32]
    ∧ ((exampleDevice.scanPorts exampleConsts exampleScanBlocks).scanPorts exampleConsts
        exampleScanBlocks).enabledStreams = [0]
    ∧ ((exampleDevice.scanPorts exampleConsts exampleScanBlocks).scanPorts exampleConsts
        exampleScanBlocks).numChannelsPerDataStream = [32, 32]
    ∧ ((exampleDevice.scanPorts exampleConsts exampleScanBlocks2216).scanPorts exampleConsts
        exampleScanBlocks).enabledStreams = [0]
    ∧ ((exampleDevice.scanPorts exampleConsts exampleScanBlocks2216).scanPorts exampleConsts
        exampleScanBlocks).numChannelsPerDataStream = [16, 32]
    ∧ (((exampleDevice.scanPorts exampleConsts exampleScanBlocks2216).scanPorts exampleConsts
        exampleScanBlocks).headstages.map Headstage.getNumChannels).take 2 = [32, 0] := by
  refine ⟨?_, ?_, ?_, ?_, ?_, ?_, ?_⟩ <;> decide

/-! ## C12: bound on the number of enabled streams -/

/-- C12: when a board is present, after `scanPorts` the list `enabledStreams` has at most
`MAX_NUM_DATA_STREAMS` entries, whatever the sweep read back; and a pass of the
assignment loop adds two entries only for a chip id `CHIP_ID_RHD2164` and only when two
more entries still fit below `MAX_NUM_DATA_STREAMS`. -/
theorem scanPorts_stream_bound (K : Consts) (d : DeviceThread) (blocks : Nat → DataBlock)
    (hdev : d.deviceFound = true) :
    (d.scanPorts K blocks).enabledStreams.length ≤ K.MAX_NUM_DATA_STREAMS
    ∧ ∀ (tmpChipId : List Int) (a : DeviceThread.AssignAcc) (hs : Nat),
        (DeviceThread.assignSlot K tmpChipId a hs).device.enabledStreams.length
            = a.device.enabledStreams.length + 2 →
          a.device.enabledStreams.length + 2 ≤ K.MAX_NUM_DATA_STREAMS
          ∧ arrGet tmpChipId hs = K.CHIP_ID_RHD2164 :=
  ⟨(scanPorts_streams K d blocks hdev).2,
    fun tmpChipId a hs h => assignSlot_two_streams K tmpChipId a hs h⟩

theorem scanPorts_stream_bound_witness :
    exampleDevice.deviceFound = true
    ∧ (exampleDevice.scanPorts exampleConsts exampleScanBlocks).enabledStreams.length ≤ 32
    ∧ (DeviceThread.assignSlot exampleConsts [4] { device := exampleDevice, chipIdx := 0 }
        0).device.enabledStreams.length = 2
    ∧ 0 + 2 ≤ exampleConsts.MAX_NUM_DATA_STREAMS :=
  ⟨rfl, (scanPorts_stream_bound exampleConsts exampleDevice exampleScanBlocks rfl).1,
    by decide,
    ((scanPorts_stream_bound exampleConsts exampleDevice exampleScanBlocks rfl).2 [4]
      { device := exampleDevice, chipIdx := 0 } 0 (by decide)).1⟩

/-! ## C13: size of the sink -/

theorem auxOutputs_fold (l : List Headstage) :
    ∀ n : Int,
      l.foldl (fun numAuxOutputs (headstage : Headstage) =>
          if headstage.isConnected then numAuxOutputs + 3 else numAuxOutputs) n
        = n + 3 * ((l.filter Headstage.isConnected).length : Int) := by
  induction l with
  | nil => intro n; simp
  | cons h t ih =>
    intro n
    rw [List.foldl_cons, ih]
    by_cases hc : h.isConnected = true
    · simp only [hc, if_true, List.filter_cons_of_pos, List.length_cons]
      push_cast
      ring
    · simp only [hc, if_false, List.filter_cons_of_neg, Bool.false_eq_true, not_false_eq_true]

theorem getNumChannels_eq (d : DeviceThread) :
    d.getNumChannels
      = d.getNumElectrodeOutputs
        + (if d.acquireAux then
            3 * ((d.headstages.filter Headstage.isConnected).length : Int) else 0)
        + (if d.acquireAdc then 8 else 0) := by
  unfold DeviceThread.getNumChannels DeviceThread.getNumAuxOutputs
    DeviceThread.getNumAdcOutputs
  rw [auxOutputs_fold]
  simp

theorem enableHeadstage_sink (d : DeviceThread) (hsNum : Nat) (enabled : Bool)
    (nStr strChans : Int) (h : Headstage) (hh : d.headstages[hsNum]? = some h) :
    (d.enableHeadstage hsNum enabled nStr strChans).sinkChannels
      = (d.enableHeadstage hsNum enabled nStr strChans).getNumChannels := by
  unfold DeviceThread.enableHeadstage
  simp only [hh]
  rfl

theorem enableAuxs_sink (d : DeviceThread) (t : Bool) :
    (d.enableAuxs t).sinkChannels = (d.enableAuxs t).getNumChannels := rfl

theorem enableAdcs_sink (d : DeviceThread) (t : Bool) :
    (d.enableAdcs t).sinkChannels = (d.enableAdcs t).getNumChannels := rfl

theorem setNumChannels_sink (d : DeviceThread) (hsNum : Nat) (numChannels : Int) :
    (d.setNumChannels hsNum numChannels).sinkChannels = d.sinkChannels := by
  unfold DeviceThread.setNumChannels
  cases hh : d.headstages[hsNum]? with
  | none => rfl
  | some h =>
    dsimp only
    split <;> rfl

/-- C13 (defect of the code): `setNumChannels` changes the channel count and leaves the
sink as it was. With one 32-channel headstage on slot 0 and auxiliary channels on, the
sink has 35 channels, equal to `getNumChannels`; after `setNumChannels (0, 16)` the
channel count is 19 and the sink still has 35 channels. After `enableAuxs (true)` in
that state the sink has 19 channels, and `setNumChannels (0, 32)` then raises the channel
count to 35 over a sink of 19 channels. -/
theorem setNumChannels_leaves_sink_size :
    exampleDevice32.getNumChannels = 35
    ∧ exampleDevice32.sinkChannels = 35
    ∧ (exampleDevice32.setNumChannels 0 16).getNumChannels = 19
    ∧ (exampleDevice32.setNumChannels 0 16).sinkChannels = 35
    ∧ (((exampleDevice32.setNumChannels 0 16).enableAuxs true).setNumChannels 0
        32).getNumChannels = 35
    ∧ (((exampleDevice32.setNumChannels 0 16).enableAuxs true).setNumChannels 0
        32).sinkChannels = 19 := by
  refine ⟨?_, ?_, ?_, ?_, ?_, ?_⟩ <;> decide

/-! ## C14: the two channel lookups -/

theorem applyDac_eq (d : DeviceThread) (k : Nat) :
    d.applyDac k =
      { d with
        dacChannelsToUpdate := Function.update d.dacChannelsToUpdate k false,
        boardLog := d.boardLog ++ dacCommands d k } := by
  unfold DeviceThread.applyDac dacCommands
  by_cases hk : d.dacChannelsToUpdate k = true
  · simp only [hk, if_true]
    split <;> rfl
  · have hk' : d.dacChannelsToUpdate k = false := by simpa using hk
    simp only [hk, if_false, Bool.false_eq_true, List.append_nil]
    have e : Function.update d.dacChannelsToUpdate k false = d.dacChannelsToUpdate := by
      rw [← hk']
      exact Function.update_eq_self k d.dacChannelsToUpdate
    rw [e]

theorem applyDac_range (d : DeviceThread) (m : Nat) :
    (List.range m).foldl DeviceThread.applyDac d =
      { d with
        dacChannelsToUpdate := fun k => if k < m then false else d.dacChannelsToUpdate k,
        boardLog := d.boardLog ++ (List.range m).flatMap (dacCommands d) } := by
  induction m with
  | zero => simp
  | succ m ih =>
    rw [show List.range (m + 1) = List.range m ++ [m] from List.range_succ m,
      List.foldl_append, ih, List.foldl_cons, List.foldl_nil, applyDac_eq]
    have e1 : dacCommands
        { d with
          dacChannelsToUpdate := fun k => if k < m then false else d.dacChannelsToUpdate k,
          boardLog := d.boardLog ++ (List.range m).flatMap (dacCommands d) } m
        = dacCommands d m := by
      unfold dacCommands
      simp
    rw [e1]
    have e2 : Function.update
        (fun k => if k < m then false else d.dacChannelsToUpdate k) m false
        = fun k => if k < m + 1 then false else d.dacChannelsToUpdate k := by
      funext k
      by_cases hk : k = m
      · subst hk
        simp
      · rw [Function.update_noteq hk]
        by_cases h1 : k < m
        · have h2 : k < m + 1 := by omega
          simp [h1, h2]
        · have h2 : ¬ k < m + 1 := by omega
          simp [h1, h2]
    simp only [List.flatMap_append, List.flatMap_cons, List.flatMap_nil, List.append_nil,
      List.append_assoc]
    rw [e2]

theorem drainDigitalOutput_log (d : DeviceThread) :
    d.drainDigitalOutput.dacChannelsToUpdate = d.dacChannelsToUpdate
    ∧ d.drainDigitalOutput.updateSettingsDuringAcquisition = d.updateSettingsDuringAcquisition
    ∧ d.drainDigitalOutput.boardLog = d.boardLog ++ ttlOutCommands d := by
  unfold DeviceThread.drainDigitalOutput ttlOutCommands
  cases h : d.digitalOutputCommands.isEmpty <;> simp

theorem applySettings_pending (d : DeviceThread)
    (h : d.updateSettingsDuringAcquisition = true) :
    d.applySettings =
      { d with
        dacChannelsToUpdate := fun k => if k < 8 then false else d.dacChannelsToUpdate k,
        boardLog :=
          d.boardLog ++ (List.range 8).flatMap (dacCommands d) ++ globalCommands d,
        updateSettingsDuringAcquisition := false } := by
  unfold DeviceThread.applySettings
  simp only [h, if_true]
  rw [applyDac_range]
  rfl

theorem applySettings_idle (d : DeviceThread)
    (h : d.updateSettingsDuringAcquisition = false) : d.applySettings = d := by
  unfold DeviceThread.applySettings
  simp [h]

theorem updateBuffer_settings (K : Consts) (api : DataBlockApi) (d : DeviceThread)
    (r : UsbRead) (hr : r.return_code ≠ 0) :
    (d.updateBuffer K api r).2 =
      DeviceThread.drainDigitalOutput (DeviceThread.applySettings
        { d with
          samples := (sampLoop K api d.decodeConfig r.bufferPtr api.getSamplesPerDataBlock
            0 0 d.samples).state,
          sink := d.sink ++ (sampLoop K api d.decodeConfig r.bufferPtr
            api.getSamplesPerDataBlock 0 0 d.samples).emitted,
          headerErrors := d.headerErrors +
            (if (sampLoop K api d.decodeConfig r.bufferPtr api.getSamplesPerDataBlock 0 0
              d.samples).headerError then 1 else 0) }) := by
  unfold DeviceThread.updateBuffer
  rw [if_neg hr]

theorem settings_then_drain (d : DeviceThread) :
    (d.updateSettingsDuringAcquisition = true →
      (∀ k, k < 8 → d.applySettings.drainDigitalOutput.dacChannelsToUpdate k = false)
      ∧ d.applySettings.drainDigitalOutput.updateSettingsDuringAcquisition = false
      ∧ d.applySettings.drainDigitalOutput.boardLog
          = d.boardLog ++ (List.range 8).flatMap (dacCommands d) ++ globalCommands d
            ++ ttlOutCommands d)
    ∧ (d.updateSettingsDuringAcquisition = false →
      d.applySettings.drainDigitalOutput.dacChannelsToUpdate = d.dacChannelsToUpdate
      ∧ d.applySettings.drainDigitalOutput.updateSettingsDuringAcquisition = false
      ∧ d.applySettings.drainDigitalOutput.boardLog = d.boardLog ++ ttlOutCommands d) := by
  constructor
  · intro hp
    rw [applySettings_pending d hp]
    obtain ⟨e1, e2, e3⟩ := drainDigitalOutput_log
      { d with
        dacChannelsToUpdate := fun k => if k < 8 then false else d.dacChannelsToUpdate k,
        boardLog :=
          d.boardLog ++ (List.range 8).flatMap (dacCommands d) ++ globalCommands d,
        updateSettingsDuringAcquisition := false }
    refine ⟨?_, e2, e3⟩
    intro k hk
    have := congrFun e1 k
    simp only [hk, if_true] at this
    exact this
  · intro hp
    rw [applySettings_idle d hp]
    obtain ⟨e1, e2, e3⟩ := drainDigitalOutput_log d
    exact ⟨e1, e2.trans hp, e3⟩

/-- C15: an `updateBuffer` call with a non-empty read made while the pending flag is set
leaves the 8 DAC dirty flags and the pending flag false, and appends to the board's
command log, in slot order, the DAC commands of exactly the dirty slots (enable, stream,
channel and threshold when the stored channel is `>= 0`, disable otherwise), then the
TTL mode, fast settle enable, fast settle channel, DAC high-pass cutoff and DAC
high-pass enable writes once each, then the digital output write of the queue. When the
flag is not set, the flags stay as they are and only the digital output write is
appended. -/
theorem updateBuffer_applies_pending_settings (K : Consts) (api : DataBlockApi)
    (d : DeviceThread) (r : UsbRead) (hr : r.return_code ≠ 0) :
    (d.updateSettingsDuringAcquisition = true →
      (∀ k, k < 8 → (d.updateBuffer K api r).2.dacChannelsToUpdate k = false)
      ∧ (d.updateBuffer K api r).2.updateSettingsDuringAcquisition = false
      ∧ (d.updateBuffer K api r).2.boardLog
          = d.boardLog ++ (List.range 8).flatMap (dacCommands d) ++ globalCommands d
            ++ ttlOutCommands d)
    ∧ (d.updateSettingsDuringAcquisition = false →
      (d.updateBuffer K api r).2.dacChannelsToUpdate = d.dacChannelsToUpdate
      ∧ (d.updateBuffer K api r).2.updateSettingsDuringAcquisition = false
      ∧ (d.updateBuffer K api r).2.boardLog = d.boardLog ++ ttlOutCommands d) := by
  rw [updateBuffer_settings K api d r hr]
  exact settings_then_drain
    { d with
      samples := (sampLoop K api d.decodeConfig r.bufferPtr api.getSamplesPerDataBlock
        0 0 d.samples).state,
      sink := d.sink ++ (sampLoop K api d.decodeConfig r.bufferPtr
        api.getSamplesPerDataBlock 0 0 d.samples).emitted,
      headerErrors := d.headerErrors +
        (if (sampLoop K api d.decodeConfig r.bufferPtr api.getSamplesPerDataBlock 0 0
          d.samples).headerError then 1 else 0) }

theorem updateBuffer_applies_pending_settings_witness :
    ({ return_code := 1, bufferPtr := exampleAuxBlock } : UsbRead).return_code ≠ 0
    ∧ examplePending.updateSettingsDuringAcquisition = true
    ∧ examplePending.dacChannelsToUpdate 1 = true
    ∧ (∀ k, k < 8 →
        (examplePending.updateBuffer exampleConsts exampleApi
          { return_code := 1, bufferPtr := exampleAuxBlock }).2.dacChannelsToUpdate k = false)
    ∧ (examplePending.updateBuffer exampleConsts exampleApi
        { return_code := 1, bufferPtr := exampleAuxBlock }).2.updateSettingsDuringAcquisition
        = false
    ∧ (examplePending.updateBuffer exampleConsts exampleApi
        { return_code := 1, bufferPtr := exampleAuxBlock }).2.boardLog
        = [BoardCmd.enableDac 1 true,
           BoardCmd.selectDacDataStream 1 0,
           BoardCmd.selectDacDataChannel 1 0,
           BoardCmd.setDacThreshold 1 32768 true,
           BoardCmd.setTtlMode 1,
           BoardCmd.enableExternalFastSettle false,
           BoardCmd.setExternalFastSettleChannel 0,
           BoardCmd.setDacHighpassFilter 0,
           BoardCmd.enableDacHighpassFilter false] := by
  have key := (updateBuffer_applies_pending_settings exampleConsts exampleApi examplePending
    { return_code := 1, bufferPtr := exampleAuxBlock } (by decide)).1 rfl
  refine ⟨by decide, rfl, ?_, key.1, key.2.1, ?_⟩
  · simp [examplePending, DeviceThread.setDACthreshold, DeviceThread.setTTLoutputMode]
  · rw [key.2.2]
    have e : (List.range 8) = [0, 1, 2, 3, 4, 5, 6, 7] := by decide
    simp [e, dacCommands, globalCommands, ttlOutCommands, examplePending,
      DeviceThread.setDACthreshold, DeviceThread.setTTLoutputMode, exampleDevice16,
      exampleDevice, Function.update_apply]
    rfl

/-! ## C16, C17: the runtime setters -/

/-- C16, counterexample: on the example controller (acquisition not active, pending flag
not set, 32 electrode channels) `enableBoardLeds (false)` and `setClockDivider (4)`
record their value and leave the pending flag unset, and `setDACchannel (0, 32)`, a
channel past the last electrode channel, changes nothing at all. -/
theorem setters_without_pending_flag :
    exampleDevice32.isTransmitting = false
    ∧ exampleDevice32.updateSettingsDuringAcquisition = false
    ∧ (exampleDevice32.enableBoardLeds false).ledsEnabled = false
    ∧ (exampleDevice32.enableBoardLeds false).updateSettingsDuringAcquisition = false
    ∧ (exampleDevice32.setClockDivider 4).2.clockDivideFactor = 2
    ∧ (exampleDevice32.setClockDivider 4).2.updateSettingsDuringAcquisition = false
    ∧ exampleDevice32.getNumElectrodeOutputs = 32
    ∧ (exampleDevice32.setDACchannel 0 32).updateSettingsDuringAcquisition = false
    ∧ (exampleDevice32.setDACchannel 0 32).dacChannelsToUpdate 0 = false := by
  refine ⟨rfl, rfl, rfl, rfl, by decide, by decide, by decide, by decide, by decide⟩

theorem setDACchannel_rejected (d : DeviceThread) (k : Nat) (channel : Int)
    (h : d.getNumElectrodeOutputs ≤ channel) : d.setDACchannel k channel = d := by
  unfold DeviceThread.setDACchannel
  rw [if_neg (by omega)]

theorem setDACchannel_flags (d : DeviceThread) (k : Nat) (channel : Int)
    (h : channel < d.getNumElectrodeOutputs) :
    (d.setDACchannel k channel).dacChannelsToUpdate
        = Function.update d.dacChannelsToUpdate k true
    ∧ (d.setDACchannel k channel).updateSettingsDuringAcquisition = true := by
  unfold DeviceThread.setDACchannel
  rw [if_pos h]
  cases findDacStream_cases :
      DeviceThread.findDacStream d.numChannelsPerDataStream channel d.enabledStreams.length
        0 0 with
  | none => exact ⟨rfl, rfl⟩
  | some p => exact ⟨rfl, rfl⟩

/-- C16, amended: `setDACthreshold`, `setTTLoutputMode`, `setFastTTLSettle` and
`setDAChpf` record their arguments and leave the pending flag set in every state;
`setDACthreshold (k, .)` sets the dirty flag of slot `k` and of no other slot.
`setDACchannel (k, c)` sets the dirty flag of slot `k` only and the pending flag when `c`
is below the number of electrode channels, and changes nothing otherwise.
`enableBoardLeds` records its argument, and `setClockDivider` with a board present
records the divide factor of the ratio it returns (0 for ratio 1, half the ratio
otherwise); both set the pending flag only while acquisition is active and leave it as
it was otherwise. -/
theorem setters_record_and_flag (d : DeviceThread) (k : Nat) (threshold cutoff : ℚ)
    (state enabled : Bool) (channel divide_ratio : Int) :
    ((d.setDACthreshold k threshold).dacThresholds k = threshold
      ∧ (d.setDACthreshold k threshold).dacChannelsToUpdate k = true
      ∧ (∀ j, j ≠ k →
          (d.setDACthreshold k threshold).dacChannelsToUpdate j = d.dacChannelsToUpdate j)
      ∧ (d.setDACthreshold k threshold).updateSettingsDuringAcquisition = true)
    ∧ ((d.setTTLoutputMode state).ttlMode = state
      ∧ (d.setTTLoutputMode state).updateSettingsDuringAcquisition = true)
    ∧ ((d.setFastTTLSettle state channel).fastTTLSettleEnabled = state
      ∧ (d.setFastTTLSettle state channel).fastSettleTTLChannel = channel
      ∧ (d.setFastTTLSettle state channel).updateSettingsDuringAcquisition = true)
    ∧ ((d.setDAChpf cutoff enabled).desiredDAChpf = cutoff
      ∧ (d.setDAChpf cutoff enabled).desiredDAChpfState = enabled
      ∧ (d.setDAChpf cutoff enabled).updateSettingsDuringAcquisition = true)
    ∧ (channel < d.getNumElectrodeOutputs →
        (d.setDACchannel k channel).dacChannelsToUpdate k = true
        ∧ (∀ j, j ≠ k →
            (d.setDACchannel k channel).dacChannelsToUpdate j = d.dacChannelsToUpdate j)
        ∧ (d.setDACchannel k channel).updateSettingsDuringAcquisition = true)
    ∧ (d.getNumElectrodeOutputs ≤ channel → d.setDACchannel k channel = d)
    ∧ ((d.enableBoardLeds enabled).ledsEnabled = enabled
      ∧ (d.enableBoardLeds enabled).updateSettingsDuringAcquisition
          = (d.isTransmitting || d.updateSettingsDuringAcquisition))
    ∧ (d.deviceFound = true →
        (d.setClockDivider divide_ratio).2.clockDivideFactor
            = (if (d.setClockDivider divide_ratio).1 = 1 then 0
               else Int.tdiv (d.setClockDivider divide_ratio).1 2 % 65536)
        ∧ (d.setClockDivider divide_ratio).2.updateSettingsDuringAcquisition
            = (d.isTransmitting || d.updateSettingsDuringAcquisition)) := by
  refine ⟨⟨?_, ?_, ?_, rfl⟩, ⟨rfl, rfl⟩, ⟨rfl, rfl, rfl⟩, ⟨rfl, rfl, rfl⟩, ?_, ?_, ⟨?_, ?_⟩, ?_⟩
  · simp [DeviceThread.setDACthreshold]
  · simp [DeviceThread.setDACthreshold]
  · intro j hj
    simp [DeviceThread.setDACthreshold, Function.update_noteq hj]
  · intro h
    obtain ⟨e1, e2⟩ := setDACchannel_flags d k channel h
    refine ⟨?_, ?_, e2⟩
    · rw [e1]; simp
    · intro j hj
      rw [e1, Function.update_noteq hj]
  · exact setDACchannel_rejected d k channel
  · unfold DeviceThread.enableBoardLeds DeviceThread.isAcquisitionActive
    dsimp only
    split <;> rfl
  · unfold DeviceThread.enableBoardLeds DeviceThread.isAcquisitionActive
    dsimp only
    cases ht : d.isTransmitting <;> simp
  · intro hdev
    unfold DeviceThread.setClockDivider DeviceThread.isAcquisitionActive
    simp only [hdev, Bool.not_true, Bool.false_eq_true, if_false]
    by_cases ht : d.isTransmitting = true
    · simp [ht]
    · simp [ht]

theorem setters_record_and_flag_witness :
    (exampleDevice32.setDACthreshold 3 100).dacThresholds 3 = 100
    ∧ (exampleDevice32.setDACthreshold 3 100).dacChannelsToUpdate 3 = true
    ∧ (exampleDevice32.setDACthreshold 3 100).updateSettingsDuringAcquisition = true
    ∧ (exampleDevice32.setDACchannel 3 5).dacChannelsToUpdate 3 = true
    ∧ (exampleDevice32.setDACchannel 3 5).updateSettingsDuringAcquisition = true
    ∧ exampleDevice32.setDACchannel 3 32 = exampleDevice32
    ∧ (exampleDevice32.setClockDivider 4).2.updateSettingsDuringAcquisition
        = (exampleDevice32.isTransmitting || exampleDevice32.updateSettingsDuringAcquisition) :=
  ⟨(setters_record_and_flag exampleDevice32 3 100 0 true true 5 4).1.1,
    (setters_record_and_flag exampleDevice32 3 100 0 true true 5 4).1.2.1,
    (setters_record_and_flag exampleDevice32 3 100 0 true true 5 4).1.2.2.2,
    ((setters_record_and_flag exampleDevice32 3 100 0 true true 5 4).2.2.2.2.1
      (by decide)).1,
    ((setters_record_and_flag exampleDevice32 3 100 0 true true 5 4).2.2.2.2.1
      (by decide)).2.2,
    (setters_record_and_flag exampleDevice32 3 100 0 true true 32 4).2.2.2.2.2.1 (by decide),
    ((setters_record_and_flag exampleDevice32 3 100 0 true true 5 4).2.2.2.2.2.2.2 rfl).2⟩

/-- C17, counterexample: on the example controller nothing is pending (pending flag and
all dirty flags unset); `setTTLoutputMode` called with the mode the controller holds sets
the pending flag, and `setDACthreshold` called on slot 0 with the threshold the slot
holds sets the pending flag and the dirty flag of slot 0. -/
theorem setter_with_held_value_sets_flag :
    exampleDevice.updateSettingsDuringAcquisition = false
    ∧ (∀ k, exampleDevice.dacChannelsToUpdate k = false)
    ∧ (exampleDevice.setTTLoutputMode exampleDevice.ttlMode).ttlMode = exampleDevice.ttlMode
    ∧ (exampleDevice.setTTLoutputMode exampleDevice.ttlMode).updateSettingsDuringAcquisition
        = true
    ∧ (exampleDevice.setDACthreshold 0 (exampleDevice.dacThresholds 0)).dacChannelsToUpdate 0
        = true
    ∧ (exampleDevice.setDACthreshold 0
        (exampleDevice.dacThresholds 0)).updateSettingsDuringAcquisition = true := by
  refine ⟨rfl, fun _ => rfl, rfl, rfl, ?_, rfl⟩
  simp [DeviceThread.setDACthreshold]

/-- C17, amended: a setter called with the value it holds keeps the stored values and
still marks a reconfiguration as pending. `setTTLoutputMode`, `setDAChpf` and
`setFastTTLSettle` change nothing but the pending flag, which they set;
`setDACthreshold (k, .)` changes nothing but the pending flag and the dirty flag of slot
`k`, which it sets, and so does `setDACchannel (k, c)` for a channel `c` below the
electrode channel count that maps to the stream and in-stream channel the slot holds.
`setClockDivider` leaves the flags as they are while acquisition is not active. -/
theorem setters_with_held_value (d : DeviceThread) (k : Nat) (c divide_ratio : Int) :
    d.setTTLoutputMode d.ttlMode = { d with updateSettingsDuringAcquisition := true }
    ∧ d.setDAChpf d.desiredDAChpf d.desiredDAChpfState
        = { d with updateSettingsDuringAcquisition := true }
    ∧ d.setFastTTLSettle d.fastTTLSettleEnabled d.fastSettleTTLChannel
        = { d with updateSettingsDuringAcquisition := true }
    ∧ d.setDACthreshold k (d.dacThresholds k)
        = { d with
            dacChannelsToUpdate := Function.update d.dacChannelsToUpdate k true,
            updateSettingsDuringAcquisition := true }
    ∧ (c < d.getNumElectrodeOutputs →
        DeviceThread.findDacStream d.numChannelsPerDataStream c d.enabledStreams.length 0 0
          = some ((d.dacStream k).toNat, d.dacChannels k) →
        0 ≤ d.dacStream k →
        d.setDACchannel k c
          = { d with
              dacChannelsToUpdate := Function.update d.dacChannelsToUpdate k true,
              updateSettingsDuringAcquisition := true })
    ∧ (d.isTransmitting = false →
        (d.setClockDivider divide_ratio).2.updateSettingsDuringAcquisition
            = d.updateSettingsDuringAcquisition
        ∧ (d.setClockDivider divide_ratio).2.dacChannelsToUpdate = d.dacChannelsToUpdate) := by
  refine ⟨rfl, rfl, rfl, ?_, ?_, ?_⟩
  · unfold DeviceThread.setDACthreshold
    rw [Function.update_eq_self]
  · intro hc hf h0
    unfold DeviceThread.setDACchannel
    rw [if_pos hc, hf]
    simp only [Int.toNat_of_nonneg h0, Function.update_eq_self]
  · intro ht
    unfold DeviceThread.setClockDivider DeviceThread.isAcquisitionActive
    cases hdev : d.deviceFound <;> simp [ht]

theorem setters_with_held_value_witness :
    exampleDevice32.setTTLoutputMode exampleDevice32.ttlMode
        = { exampleDevice32 with updateSettingsDuringAcquisition := true }
    ∧ exampleDevice32.setDACchannel 0 0
        = { exampleDevice32 with
            dacChannelsToUpdate := Function.update exampleDevice32.dacChannelsToUpdate 0 true,
            updateSettingsDuringAcquisition := true }
    ∧ (exampleDevice32.setClockDivider 4).2.updateSettingsDuringAcquisition
        = exampleDevice32.updateSettingsDuringAcquisition :=
  ⟨(setters_with_held_value exampleDevice32 0 0 4).1,
    (setters_with_held_value exampleDevice32 0 0 4).2.2.2.2.1 (by decide) (by decide)
      (by decide),
    ((setters_with_held_value exampleDevice32 0 0 4).2.2.2.2.2 rfl).1⟩

/-! ## C18: the stream and channel stored by `setDACchannel` -/

theorem streamBase_succ (numCh : List Int) (s : Nat) :
    streamBase numCh (s + 1) = streamBase numCh s + arrGet numCh s := by
  unfold streamBase
  rw [show List.range (s + 1) = List.range s ++ [s] from List.range_succ s, List.map_append,
    List.sum_append]
  simp

theorem findDacStream_spec (numCh : List Int) (c : Int) (n : Nat) :
    ∀ i : Nat, streamBase numCh i ≤ c → c < streamBase numCh (i + n) →
      ∃ s : Nat, i ≤ s ∧ s < i + n
        ∧ DeviceThread.findDacStream numCh c n i (streamBase numCh i)
            = some (s, c - streamBase numCh s)
        ∧ streamBase numCh s ≤ c ∧ c < streamBase numCh s + arrGet numCh s := by
  induction n with
  | zero =>
    intro i h1 h2
    rw [Nat.add_zero] at h2
    omega
  | succ n ih =>
    intro i h1 h2
    rw [DeviceThread.findDacStream]
    by_cases hc : c < streamBase numCh i + arrGet numCh i
    · rw [if_pos hc]
      exact ⟨i, le_refl _, by omega, rfl, h1, hc⟩
    · rw [if_neg hc, ← streamBase_succ]
      have h1' : streamBase numCh (i + 1) ≤ c := by
        rw [streamBase_succ]
        omega
      have h2' : c < streamBase numCh (i + 1 + n) := by
        have e : i + 1 + n = i + (n + 1) := by omega
        rw [e]
        exact h2
      obtain ⟨s, a1, a2, a3, a4, a5⟩ := ih (i + 1) h1' h2'
      exact ⟨s, by omega, by omega, a3, a4, a5⟩

/-- C18: for a DAC slot `k` and a channel `c` with `0 <= c < ` the number of electrode
channels, when the per-stream channel counts of the enabled streams sum to that number,
`setDACchannel (k, c)` stores a stream position `s` below the number of enabled streams
and an in-stream channel `j` with `0 <= j < numChannelsPerDataStream[s]` and (sum of the
counts of the positions below `s`) `+ j = c`; for `c` at or above the number of electrode
channels the call changes nothing. -/
theorem setDACchannel_stores_stream_and_channel (d : DeviceThread) (k : Nat) (c : Int) :
    (0 ≤ c → c < d.getNumElectrodeOutputs →
      streamBase d.numChannelsPerDataStream d.enabledStreams.length
        = d.getNumElectrodeOutputs →
      ∃ s : Nat, s < d.enabledStreams.length
        ∧ (d.setDACchannel k c).dacStream k = (s : Int)
        ∧ 0 ≤ (d.setDACchannel k c).dacChannels k
        ∧ (d.setDACchannel k c).dacChannels k < arrGet d.numChannelsPerDataStream s
        ∧ streamBase d.numChannelsPerDataStream s + (d.setDACchannel k c).dacChannels k = c)
    ∧ (d.getNumElectrodeOutputs ≤ c → d.setDACchannel k c = d) := by
  constructor
  · intro h0 h1 hsum
    have hb : streamBase d.numChannelsPerDataStream 0 = 0 := by simp [streamBase]
    obtain ⟨s, _, a2, a3, a4, a5⟩ := findDacStream_spec d.numChannelsPerDataStream c
      d.enabledStreams.length 0 (by omega) (by rw [Nat.zero_add, hsum]; exact h1)
    rw [hb] at a3
    refine ⟨s, by omega, ?_⟩
    unfold DeviceThread.setDACchannel
    rw [if_pos h1, a3]
    simp only [Function.update_same]
    refine ⟨trivial, by omega, by omega, by omega⟩
  · exact setDACchannel_rejected d k c

theorem setDACchannel_stores_stream_and_channel_witness :
    streamBase exampleDevice32.numChannelsPerDataStream exampleDevice32.enabledStreams.length
        = exampleDevice32.getNumElectrodeOutputs
    ∧ (∃ s : Nat, s < exampleDevice32.enabledStreams.length
        ∧ (exampleDevice32.setDACchannel 2 7).dacStream 2 = (s : Int)
        ∧ 0 ≤ (exampleDevice32.setDACchannel 2 7).dacChannels 2
        ∧ (exampleDevice32.setDACchannel 2 7).dacChannels 2
            < arrGet exampleDevice32.numChannelsPerDataStream s
        ∧ streamBase exampleDevice32.numChannelsPerDataStream s
            + (exampleDevice32.setDACchannel 2 7).dacChannels 2 = 7)
    ∧ exampleDevice32.setDACchannel 2 32 = exampleDevice32 :=
  ⟨by decide,
    (setDACchannel_stores_stream_and_channel exampleDevice32 2 7).1 (by decide) (by decide)
      (by decide),
    (setDACchannel_stores_stream_and_channel exampleDevice32 2 32).2 (by decide)⟩

/-! ## C19: `stopAcquisition` -/

theorem popAll_nil (l : List DigitalOutputCommand) : DeviceThread.popAll l = [] := by
  induction l with
  | nil => rfl
  | cons x t ih => rw [DeviceThread.popAll, ih]

/-- C19, counterexample: with the threshold of DAC slot 0 set and not yet applied,
`stopAcquisition` clears the pending flag and leaves the dirty flag of slot 0 set. -/
theorem stopAcquisition_keeps_dirty_flag :
    (exampleDevice32.setDACthreshold 0 50).updateSettingsDuringAcquisition = true
    ∧ (exampleDevice32.setDACthreshold 0 50).dacChannelsToUpdate 0 = true
    ∧ (exampleDevice32.setDACthreshold 0 50).stopAcquisition.2.updateSettingsDuringAcquisition
        = false
    ∧ (exampleDevice32.setDACthreshold 0 50).stopAcquisition.2.dacChannelsToUpdate 0
        = true := by
  refine ⟨rfl, ?_, rfl, ?_⟩ <;>
    simp [DeviceThread.setDACthreshold, DeviceThread.stopAcquisition]

/-- C19, amended: after `stopAcquisition`, whatever was requested before it, the pending
flag is false, the digital output queue is empty, no pulse timer remains and
`isTransmitting` is false; the DAC dirty flags are left as they were. -/
theorem stopAcquisition_clears_pending (d : DeviceThread) :
    d.stopAcquisition.1 = true
    ∧ d.stopAcquisition.2.updateSettingsDuringAcquisition = false
    ∧ d.stopAcquisition.2.digitalOutputCommands = []
    ∧ d.stopAcquisition.2.digitalOutputTimers = []
    ∧ d.stopAcquisition.2.isTransmitting = false
    ∧ d.stopAcquisition.2.dacChannelsToUpdate = d.dacChannelsToUpdate :=
  ⟨rfl, rfl, popAll_nil d.digitalOutputCommands, rfl, rfl, rfl⟩

theorem stopAcquisition_clears_pending_witness :
    ((exampleDevice32.setDACthreshold 0 50).handleBroadcastMessage exampleJuce
        "RHDCONTROL TRIGGER 3 100").stopAcquisition.2.digitalOutputCommands = []
    ∧ ((exampleDevice32.setDACthreshold 0 50).handleBroadcastMessage exampleJuce
        "RHDCONTROL TRIGGER 3 100").stopAcquisition.2.updateSettingsDuringAcquisition = false :=
  ⟨(stopAcquisition_clears_pending ((exampleDevice32.setDACthreshold 0 50).handleBroadcastMessage
      exampleJuce "RHDCONTROL TRIGGER 3 100")).2.2.1,
    (stopAcquisition_clears_pending ((exampleDevice32.setDACthreshold 0 50).handleBroadcastMessage
      exampleJuce "RHDCONTROL TRIGGER 3 100")).2.1⟩

/-! ## C20: trigger messages -/

/-- C20: `handleBroadcastMessage` on a valid trigger message (four tokens, tag
`RHDCONTROL`, command `TRIGGER`, zero-based line in `[0, 7]`, duration in `[10, 5000]`)
appends one command (line, high) to the back of the digital output queue and one timer
for (line, duration) to the timer list and changes nothing else; on every other message
the controller is unchanged. The function is total, so nothing is raised. -/
theorem handleBroadcastMessage_trigger (J : JuceStringApi) (d : DeviceThread)
    (msg : String) :
    (validTrigger J msg →
      d.handleBroadcastMessage J msg =
        { d with
          digitalOutputCommands :=
            d.digitalOutputCommands ++ [{ ttlLine := triggerLine J msg, state := true }],
          digitalOutputTimers :=
            d.digitalOutputTimers ++
              [{ tllOutputLine := triggerLine J msg,
                 eventDurationMs := triggerDuration J msg }] })
    ∧ (¬ validTrigger J msg → d.handleBroadcastMessage J msg = d) := by
  unfold validTrigger triggerLine triggerDuration
  constructor
  · rintro ⟨h4, h0, h1, a, b, c, e⟩
    unfold DeviceThread.handleBroadcastMessage
    have g1 : 1 < (J.fromTokens msg).length := by omega
    have g2 : ¬ (J.getIntValue (partGet (J.fromTokens msg) 2) - 1 < 0
        ∨ 7 < J.getIntValue (partGet (J.fromTokens msg) 2) - 1) := by omega
    have g3 : ¬ (J.getIntValue (partGet (J.fromTokens msg) 3) < 10
        ∨ 5000 < J.getIntValue (partGet (J.fromTokens msg) 3)) := by omega
    simp only [h0, h1, h4, g1, g2, g3, if_true, if_false]
    rfl
  · intro hn
    unfold DeviceThread.handleBroadcastMessage
    simp only []
    split
    · rename_i h0
      split
      · split
        · rename_i h1
          split
          · rename_i h4
            split
            · rfl
            · rename_i g2
              split
              · rfl
              · rename_i g3
                exact absurd ⟨h4, h0, h1, by omega, by omega, by omega, by omega⟩ hn
          · rfl
        · rfl
      · rfl
    · rfl

theorem handleBroadcastMessage_trigger_witness :
    validTrigger exampleJuce "RHDCONTROL TRIGGER 3 100"
    ∧ exampleDevice.handleBroadcastMessage exampleJuce "RHDCONTROL TRIGGER 3 100"
        = { exampleDevice with
            digitalOutputCommands := [{ ttlLine := 2, state := true }],
            digitalOutputTimers := [{ tllOutputLine := 2, eventDurationMs := 100 }] }
    ∧ ¬ validTrigger exampleJuce "RHDCONTROL TRIGGER 9 50"
    ∧ exampleDevice.handleBroadcastMessage exampleJuce "RHDCONTROL TRIGGER 9 50"
        = exampleDevice
    ∧ exampleDevice.handleBroadcastMessage exampleJuce "RHDCONTROL TRIGGER 3 5"
        = exampleDevice
    ∧ exampleDevice.handleBroadcastMessage exampleJuce "OTHER TRIGGER 3 100"
        = exampleDevice
    ∧ exampleDevice.handleBroadcastMessage exampleJuce "RHDCONTROL TRIGGER 3"
        = exampleDevice :=
  ⟨by unfold validTrigger; decide,
    (handleBroadcastMessage_trigger exampleJuce exampleDevice "RHDCONTROL TRIGGER 3 100").1
      (by unfold validTrigger; decide),
    by unfold validTrigger; decide,
    (handleBroadcastMessage_trigger exampleJuce exampleDevice "RHDCONTROL TRIGGER 9 50").2
      (by unfold validTrigger; decide),
    (handleBroadcastMessage_trigger exampleJuce exampleDevice "RHDCONTROL TRIGGER 3 5").2
      (by unfold validTrigger; decide),
    (handleBroadcastMessage_trigger exampleJuce exampleDevice "OTHER TRIGGER 3 100").2
      (by unfold validTrigger; decide),
    (handleBroadcastMessage_trigger exampleJuce exampleDevice "RHDCONTROL TRIGGER 3").2
      (by unfold validTrigger; decide)⟩

/-! ## C21: expiry of a pulse timer -/

/-- C21: when the pulse timer at position `i` of the timer list expires, one command
(line of that timer, low) is appended to the back of the queue, the commands queued
before stay as they are in front of it, and exactly that timer is removed: the timers
before position `i` and the timers after it, whatever their lines, stay pending in
order. -/
theorem timerCallback_appends_low_and_removes_timer (d : DeviceThread) (i : Nat)
    (timer : DigitalOutputTimer) (h : d.digitalOutputTimers[i]? = some timer) :
    (d.timerCallback i).digitalOutputCommands
        = d.digitalOutputCommands ++ [{ ttlLine := timer.tllOutputLine, state := false }]
    ∧ (d.timerCallback i).digitalOutputTimers
        = d.digitalOutputTimers.take i ++ d.digitalOutputTimers.drop (i + 1)
    ∧ (d.timerCallback i).digitalOutputTimers.length + 1 = d.digitalOutputTimers.length
    ∧ (∀ j, j < i →
        (d.timerCallback i).digitalOutputTimers[j]? = d.digitalOutputTimers[j]?)
    ∧ (∀ j, i ≤ j →
        (d.timerCallback i).digitalOutputTimers[j]? = d.digitalOutputTimers[j + 1]?)
    ∧ (d.timerCallback i).TTL_OUTPUT_STATE = d.TTL_OUTPUT_STATE := by
  obtain ⟨hlt, _⟩ := List.getElem?_eq_some.mp h
  unfold DeviceThread.timerCallback DeviceThread.addDigitalOutputCommand
  simp only [h]
  refine ⟨trivial, ?_, ?_, ?_, ?_, trivial⟩
  · exact List.eraseIdx_eq_take_drop_succ _ _
  · rw [List.length_eraseIdx, if_pos hlt]
    omega
  · intro j hj
    exact List.getElem?_eraseIdx_of_lt _ _ _ hj
  · intro j hj
    exact List.getElem?_eraseIdx_of_ge _ _ _ hj

theorem timerCallback_appends_low_and_removes_timer_witness :
    exampleTimers.digitalOutputTimers[0]? = some { tllOutputLine := 2, eventDurationMs := 100 }
    ∧ (exampleTimers.timerCallback 0).digitalOutputCommands
        = [{ ttlLine := 2, state := true }, { ttlLine := 5, state := true },
           { ttlLine := 2, state := true }, { ttlLine := 2, state := false }]
    ∧ (exampleTimers.timerCallback 0).digitalOutputTimers
        = [{ tllOutputLine := 5, eventDurationMs := 300 },
           { tllOutputLine := 2, eventDurationMs := 250 }] :=
  ⟨rfl,
    (timerCallback_appends_low_and_removes_timer exampleTimers 0
      { tllOutputLine := 2, eventDurationMs := 100 } rfl).1,
    (timerCallback_appends_low_and_removes_timer exampleTimers 0
      { tllOutputLine := 2, eventDurationMs := 100 } rfl).2.1⟩

/-! ## C22: draining the digital output queue -/

theorem lastCommand_append (q : List DigitalOutputCommand) (c : DigitalOutputCommand)
    (l : Int) :
    lastCommand (q ++ [c]) l = if c.ttlLine = l then some c else lastCommand q l := by
  unfold lastCommand
  rw [List.reverse_append, List.reverse_singleton, List.singleton_append, List.find?_cons]
  by_cases h : c.ttlLine = l
  · simp [h]
  · simp [h]

theorem foldl_drain_state (q : List DigitalOutputCommand) (old : Int → Int) (l : Int) :
    q.foldl (fun s command => Function.update s command.ttlLine
        (if command.state then 1 else 0)) old l
      = drainedState q old l := by
  induction q using List.reverseRecOn with
  | nil => rfl
  | append_singleton q c ih =>
    rw [List.foldl_append, List.foldl_cons, List.foldl_nil]
    unfold drainedState at ih ⊢
    rw [lastCommand_append]
    by_cases h : c.ttlLine = l
    · subst h
      simp
    · have h' : l ≠ c.ttlLine := fun e => h e.symm
      rw [Function.update_noteq h', ih, if_neg h]

theorem dacCommands_not_ttlOut (d : DeviceThread) (k : Nat) (c : BoardCmd)
    (h : c ∈ dacCommands d k) : isTtlOut c = false := by
  unfold dacCommands at h
  split at h
  · split at h
    · simp only [List.mem_cons, List.mem_singleton, List.not_mem_nil, or_false] at h
      rcases h with h | h | h | h <;> subst h <;> rfl
    · simp only [List.mem_singleton] at h
      subst h
      rfl
  · simp at h

theorem globalCommands_not_ttlOut (d : DeviceThread) (c : BoardCmd)
    (h : c ∈ globalCommands d) : isTtlOut c = false := by
  unfold globalCommands at h
  simp only [List.mem_cons, List.mem_singleton, List.not_mem_nil, or_false] at h
  rcases h with h | h | h | h | h <;> subst h <;> rfl

theorem drainDigitalOutput_state (d : DeviceThread) :
    d.drainDigitalOutput.digitalOutputCommands = []
    ∧ (∀ l, d.drainDigitalOutput.TTL_OUTPUT_STATE l
        = drainedState d.digitalOutputCommands d.TTL_OUTPUT_STATE l)
    ∧ d.drainDigitalOutput.boardLog
        = d.boardLog ++
          (if d.digitalOutputCommands.isEmpty then []
           else [BoardCmd.setTtlOut
             ((List.range 16).map fun i => d.drainDigitalOutput.TTL_OUTPUT_STATE i)]) := by
  unfold DeviceThread.drainDigitalOutput
  cases hq : d.digitalOutputCommands with
  | nil =>
    simp [drainedState, lastCommand, hq]
  | cons c q =>
    simp only [List.isEmpty_cons, Bool.not_false, if_true, Bool.false_eq_true, if_false]
    refine ⟨trivial, ?_, trivial⟩
    intro l
    exact foldl_drain_state (c :: q) d.TTL_OUTPUT_STATE l

theorem applySettings_queue (d : DeviceThread) :
    d.applySettings.digitalOutputCommands = d.digitalOutputCommands
    ∧ d.applySettings.TTL_OUTPUT_STATE = d.TTL_OUTPUT_STATE
    ∧ ∃ pre, (∀ c, c ∈ pre → isTtlOut c = false)
        ∧ d.applySettings.boardLog = d.boardLog ++ pre := by
  by_cases hp : d.updateSettingsDuringAcquisition = true
  · rw [applySettings_pending d hp]
    refine ⟨rfl, rfl, (List.range 8).flatMap (dacCommands d) ++ globalCommands d, ?_, ?_⟩
    · intro c hc
      rcases List.mem_append.mp hc with h | h
      · obtain ⟨k, _, hk⟩ := List.mem_flatMap.mp h
        exact dacCommands_not_ttlOut d k c hk
      · exact globalCommands_not_ttlOut d c h
    · simp only [List.append_assoc]
  · rw [applySettings_idle d (by simpa using hp)]
    exact ⟨rfl, rfl, [], fun c hc => by simp at hc, by simp⟩

/-- C22: an `updateBuffer` call with a non-empty read leaves the digital output queue
empty; for every line `l` the TTL output state afterwards is the state of the last
queued command naming `l` (the queue being taken front to back), or the state before
the call when no queued command names `l`; and the board's command log grows by
commands that are not TTL output writes, followed by exactly one TTL output write
carrying the new state array when the queue was not empty and by none when it was
empty. -/
theorem updateBuffer_drains_digital_output (K : Consts) (api : DataBlockApi)
    (d : DeviceThread) (r : UsbRead) (hr : r.return_code ≠ 0) :
    (d.updateBuffer K api r).2.digitalOutputCommands = []
    ∧ (∀ l, (d.updateBuffer K api r).2.TTL_OUTPUT_STATE l
        = drainedState d.digitalOutputCommands d.TTL_OUTPUT_STATE l)
    ∧ ∃ pre, (∀ c, c ∈ pre → isTtlOut c = false)
        ∧ (d.updateBuffer K api r).2.boardLog
          = d.boardLog ++ pre ++
            (if d.digitalOutputCommands.isEmpty then []
             else [BoardCmd.setTtlOut
               ((List.range 16).map fun i =>
                 (d.updateBuffer K api r).2.TTL_OUTPUT_STATE i)]) := by
  rw [updateBuffer_settings K api d r hr]
  obtain ⟨a1, a2, pre, a3, a4⟩ := applySettings_queue
    { d with
      samples := (sampLoop K api d.decodeConfig r.bufferPtr api.getSamplesPerDataBlock
        0 0 d.samples).state,
      sink := d.sink ++ (sampLoop K api d.decodeConfig r.bufferPtr
        api.getSamplesPerDataBlock 0 0 d.samples).emitted,
      headerErrors := d.headerErrors +
        (if (sampLoop K api d.decodeConfig r.bufferPtr api.getSamplesPerDataBlock 0 0
          d.samples).headerError then 1 else 0) }
  obtain ⟨b1, b2, b3⟩ := drainDigitalOutput_state (DeviceThread.applySettings
    { d with
      samples := (sampLoop K api d.decodeConfig r.bufferPtr api.getSamplesPerDataBlock
        0 0 d.samples).state,
      sink := d.sink ++ (sampLoop K api d.decodeConfig r.bufferPtr
        api.getSamplesPerDataBlock 0 0 d.samples).emitted,
      headerErrors := d.headerErrors +
        (if (sampLoop K api d.decodeConfig r.bufferPtr api.getSamplesPerDataBlock 0 0
          d.samples).headerError then 1 else 0) })
  rw [a1, a2] at b2
  rw [a1, a4] at b3
  exact ⟨b1, b2, pre, a3, b3⟩

theorem updateBuffer_drains_digital_output_witness :
    ({ return_code := 1, bufferPtr := exampleAuxBlock } : UsbRead).return_code ≠ 0
    ∧ (({ exampleDevice16 with digitalOutputCommands := [{ ttlLine := 3, state := true }] }
          : DeviceThread).updateBuffer exampleConsts exampleApi
        { return_code := 1, bufferPtr := exampleAuxBlock }).2.digitalOutputCommands = []
    ∧ (({ exampleDevice16 with digitalOutputCommands := [{ ttlLine := 3, state := true }] }
          : DeviceThread).updateBuffer exampleConsts exampleApi
        { return_code := 1, bufferPtr := exampleAuxBlock }).2.TTL_OUTPUT_STATE 3 = 1
    ∧ (∀ l : Int, l ≠ 3 →
        (({ exampleDevice16 with digitalOutputCommands := [{ ttlLine := 3, state := true }] }
          : DeviceThread).updateBuffer exampleConsts exampleApi
        { return_code := 1, bufferPtr := exampleAuxBlock }).2.TTL_OUTPUT_STATE l
          = exampleDevice16.TTL_OUTPUT_STATE l) := by
  have key := updateBuffer_drains_digital_output exampleConsts exampleApi
    { exampleDevice16 with digitalOutputCommands := [{ ttlLine := 3, state := true }] }
    { return_code := 1, bufferPtr := exampleAuxBlock } (by decide)
  refine ⟨by decide, key.1, ?_, ?_⟩
  · rw [key.2.1 3]
    rfl
  · intro l hl
    rw [key.2.1 l]
    have hl' : ¬ (3 : Int) = l := fun e => hl e.symm
    simp [drainedState, lastCommand, hl']

/-! ## C23, C24: numeric settings -/

/-- C23, counterexample: on the example controller (board present, divide factor 0, noise
slicer level 0, saved sample rate index 16 at 30 kHz) the requests `setClockDivider
(70000)`, `setNoiseSlicerLevel (200)` and `setSampleRate (17)`, all outside the accepted
ranges, change the stored divide factor to 35000, the stored level to 200, the saved
index to 17 and the board sample rate to 10 kHz. -/
theorem numeric_setters_store_out_of_range :
    exampleDevice.deviceFound = true
    ∧ exampleDevice.clockDivideFactor = 0
    ∧ (exampleDevice.setClockDivider 70000).2.clockDivideFactor = 35000
    ∧ exampleDevice.noiseSlicerLevel = 0
    ∧ (exampleDevice.setNoiseSlicerLevel 200).2.noiseSlicerLevel = 200
    ∧ exampleDevice.savedSampleRateIndex = 16
    ∧ exampleDevice.boardSampleRate = 30000
    ∧ (exampleDevice.setSampleRate 17 false).savedSampleRateIndex = 17
    ∧ (exampleDevice.setSampleRate 17 false).boardSampleRate = 10000 := by
  refine ⟨rfl, rfl, by decide, rfl, rfl, rfl, rfl, rfl, ?_⟩
  show DeviceThread.sampleRateOf 17 = 10000
  unfold DeviceThread.sampleRateOf
  norm_num

/-- C23, amended: the range checks are made by the editor's label handlers, not by the
setters. `ClockDivideInterface::labelTextChanged` with a value outside `1 .. 65534` and
`AudioInterface::labelTextChanged` with a value outside `0 .. 127` leave the interface
and the controller as they were. The setters store what they are given:
`setNoiseSlicerLevel` stores and returns any level, `setClockDivider` with a board
present stores the divide factor of the ratio it returns for any ratio, and
`setSampleRate` with an index outside `0 .. 16` sets the board sample rate to 10 kHz and,
when not temporary, stores the index. -/
theorem range_checks_in_label_handlers (d : DeviceThread) (cui : ClockDivideInterface)
    (aui : AudioInterface) (v : Int) :
    ((v < 1 ∨ 65534 < v) → cui.labelTextChanged d v = (cui, d))
    ∧ ((v < 0 ∨ 127 < v) → aui.labelTextChanged d v = (aui, d))
    ∧ ((d.setNoiseSlicerLevel v).1 = v ∧ (d.setNoiseSlicerLevel v).2.noiseSlicerLevel = v)
    ∧ (d.deviceFound = true →
        (d.setClockDivider v).2.clockDivideFactor
          = (if (d.setClockDivider v).1 = 1 then 0
             else Int.tdiv (d.setClockDivider v).1 2 % 65536))
    ∧ ((v < 0 ∨ 16 < v) →
        (d.setSampleRate v false).savedSampleRateIndex = v
        ∧ (d.setSampleRate v false).boardSampleRate = 10000
        ∧ (d.setSampleRate v true).savedSampleRateIndex = d.savedSampleRateIndex
        ∧ (d.setSampleRate v true).boardSampleRate = 10000) := by
  refine ⟨?_, ?_, ⟨rfl, rfl⟩, ?_, ?_⟩
  · intro h
    unfold ClockDivideInterface.labelTextChanged
    rw [if_pos h]
    split <;> rfl
  · intro h
    unfold AudioInterface.labelTextChanged
    rw [if_pos h]
    split <;> rfl
  · intro hdev
    unfold DeviceThread.setClockDivider DeviceThread.isAcquisitionActive
    simp only [hdev, Bool.not_true, Bool.false_eq_true, if_false]
    by_cases ht : d.isTransmitting = true
    · simp [ht]
    · simp [ht]
  · intro h
    have hr : DeviceThread.sampleRateOf v = 10000 := by
      unfold DeviceThread.sampleRateOf
      have n0 : ¬ v = 0 := by omega
      have n1 : ¬ v = 1 := by omega
      have n2 : ¬ v = 2 := by omega
      have n3 : ¬ v = 3 := by omega
      have n4 : ¬ v = 4 := by omega
      have n5 : ¬ v = 5 := by omega
      have n6 : ¬ v = 6 := by omega
      have n7 : ¬ v = 7 := by omega
      have n8 : ¬ v = 8 := by omega
      have n9 : ¬ v = 9 := by omega
      have n10 : ¬ v = 10 := by omega
      have n11 : ¬ v = 11 := by omega
      have n12 : ¬ v = 12 := by omega
      have n13 : ¬ v = 13 := by omega
      have n14 : ¬ v = 14 := by omega
      have n15 : ¬ v = 15 := by omega
      have n16 : ¬ v = 16 := by omega
      simp only [n0, n1, n2, n3, n4, n5, n6, n7, n8, n9, n10, n11, n12, n13, n14, n15, n16,
        if_false]
    exact ⟨rfl, hr, rfl, hr⟩

theorem range_checks_in_label_handlers_witness :
    ({ actualDivideRatio := 1 } : ClockDivideInterface).labelTextChanged exampleDevice 70000
        = ({ actualDivideRatio := 1 }, exampleDevice)
    ∧ ({ actualNoiseSlicerLevel := 0 } : AudioInterface).labelTextChanged exampleDevice 200
        = ({ actualNoiseSlicerLevel := 0 }, exampleDevice)
    ∧ (exampleDevice.setSampleRate 17 false).savedSampleRateIndex = 17 :=
  ⟨(range_checks_in_label_handlers exampleDevice { actualDivideRatio := 1 }
      { actualNoiseSlicerLevel := 0 } 70000).1 (by decide),
    (range_checks_in_label_handlers exampleDevice { actualDivideRatio := 1 }
      { actualNoiseSlicerLevel := 0 } 200).2.1 (by decide),
    ((range_checks_in_label_handlers exampleDevice { actualDivideRatio := 1 }
      { actualNoiseSlicerLevel := 0 } 17).2.2.2.2 (by decide)).1⟩

theorem setClockDivider_value (d : DeviceThread) (r : Int) (hdev : d.deviceFound = true) :
    (d.setClockDivider r).1
        = (if r ≠ 1 ∧ Int.tmod r 2 ≠ 0 then r - 1 else r)
    ∧ (d.setClockDivider r).2.clockDivideFactor
        = (if (d.setClockDivider r).1 = 1 then 0
           else Int.tdiv (d.setClockDivider r).1 2 % 65536)
    ∧ (d.setClockDivider r).2.deviceFound = true := by
  unfold DeviceThread.setClockDivider DeviceThread.isAcquisitionActive
  simp only [hdev, Bool.not_true, Bool.false_eq_true, if_false]
  by_cases ht : d.isTransmitting = true
  · simp [ht, hdev]
  · simp [ht, hdev]

/-- C24: with a board present, `setClockDivider (r)` for `1 <= r <= 65534` returns `r`
when `r` is 1 or even and `r - 1` when `r` is odd and greater than 1; it stores the
divide factor 0 when the returned ratio is 1 and half the returned ratio otherwise; and
called again with the ratio it returned it returns that ratio and stores the same
factor. Without a board it returns 1 and leaves the controller as it was. -/
theorem setClockDivider_applied_ratio (d : DeviceThread) (r : Int) :
    (d.deviceFound = true → 1 ≤ r → r ≤ 65534 →
      (d.setClockDivider r).1 = (if r = 1 ∨ r % 2 = 0 then r else r - 1)
      ∧ (d.setClockDivider r).2.clockDivideFactor
          = (if (d.setClockDivider r).1 = 1 then 0 else (d.setClockDivider r).1 / 2)
      ∧ ((d.setClockDivider r).2.setClockDivider (d.setClockDivider r).1).1
          = (d.setClockDivider r).1
      ∧ ((d.setClockDivider r).2.setClockDivider (d.setClockDivider r).1).2.clockDivideFactor
          = (d.setClockDivider r).2.clockDivideFactor)
    ∧ (d.deviceFound = false → d.setClockDivider r = (1, d)) := by
  constructor
  · intro hdev h1 h2
    obtain ⟨a1, a2, a3⟩ := setClockDivider_value d r hdev
    have hm : Int.tmod r 2 = r % 2 := Int.tmod_eq_emod (by omega) (by omega)
    have hret : (d.setClockDivider r).1 = (if r = 1 ∨ r % 2 = 0 then r else r - 1) := by
      rw [a1, hm]
      by_cases e1 : r = 1
      · subst e1
        simp
      · by_cases e2 : r % 2 = 0
        · simp [e1, e2]
        · simp [e1, e2]
    have hpos : 1 ≤ (d.setClockDivider r).1 ∧ (d.setClockDivider r).1 ≤ 65534
        ∧ ((d.setClockDivider r).1 = 1 ∨ (d.setClockDivider r).1 % 2 = 0) := by
      rw [hret]
      by_cases e1 : r = 1
      · simp [e1]
      · by_cases e2 : r % 2 = 0
        · rw [if_pos (Or.inr e2)]
          exact ⟨h1, h2, Or.inr e2⟩
        · rw [if_neg (by rintro (e | e); exact e1 e; exact e2 e)]
          exact ⟨by omega, by omega, Or.inr (by omega)⟩
    obtain ⟨b1, b2, _⟩ := setClockDivider_value (d.setClockDivider r).2
      (d.setClockDivider r).1 a3
    have hm2 : Int.tmod (d.setClockDivider r).1 2 = (d.setClockDivider r).1 % 2 :=
      Int.tmod_eq_emod (by omega) (by omega)
    have hidem : ((d.setClockDivider r).2.setClockDivider (d.setClockDivider r).1).1
        = (d.setClockDivider r).1 := by
      rw [b1, hm2]
      rcases hpos.2.2 with e | e
      · simp [e]
      · simp [e]
    have hfac : (d.setClockDivider r).2.clockDivideFactor
        = (if (d.setClockDivider r).1 = 1 then 0 else (d.setClockDivider r).1 / 2) := by
      rw [a2]
      by_cases e : (d.setClockDivider r).1 = 1
      · simp [e]
      · have hd : Int.tdiv (d.setClockDivider r).1 2 = (d.setClockDivider r).1 / 2 :=
          Int.tdiv_eq_ediv (by omega) (by omega)
        rw [if_neg e, if_neg e, hd]
        omega
    refine ⟨hret, hfac, hidem, ?_⟩
    rw [b2, hidem, a2]
  · intro hdev
    unfold DeviceThread.setClockDivider
    simp [hdev]

theorem setClockDivider_applied_ratio_witness :
    (exampleDevice.setClockDivider 7).1 = 6
    ∧ (exampleDevice.setClockDivider 7).2.clockDivideFactor = 3
    ∧ ((exampleDevice.setClockDivider 7).2.setClockDivider 6).1 = 6
    ∧ ({ exampleDevice with deviceFound := false } : DeviceThread).setClockDivider 7
        = (1, { exampleDevice with deviceFound := false }) :=
  ⟨((setClockDivider_applied_ratio exampleDevice 7).1 rfl (by decide) (by decide)).1,
    ((setClockDivider_applied_ratio exampleDevice 7).1 rfl (by decide) (by decide)).2.1,
    ((setClockDivider_applied_ratio exampleDevice 7).1 rfl (by decide) (by decide)).2.2.1,
    (setClockDivider_applied_ratio { exampleDevice with deviceFound := false } 7).2 rfl⟩

/-! ## C30: the 16/32 channel option of the editor -/

theorem buttonClicked_second (ui : HeadstageOptionsInterface) (board : DeviceThread)
    (hdev : board.deviceFound = true)
    (h32 : board.getChannelsInHeadstage ui.hsNumber2 = 32) :
    (ui.buttonClicked board false true).2
      = board.setNumChannels ui.hsNumber2 (if ui.channelsOnHs2 = 32 then 16 else 32) := by
  unfold HeadstageOptionsInterface.buttonClicked DeviceThread.foundInputSource
  simp [hdev, h32]

/-- C30 (defect of the code): `set32Channel (1, false)` on a port whose two headstages
(slots 0 and 1) both have 32 channels records 16 channels for the second headstage in
the interface and calls `setNumChannels` for the first slot with the first headstage's
count, so the second headstage stays in 32-channel mode (32 active channels, not 16);
`set32Channel (0, false)` does switch the first headstage to 16 channels. -/
theorem set32Channel_second_headstage_unchanged :
    exampleDeviceTwo.getChannelsInHeadstage exampleOptions.hsNumber2 = 32
    ∧ (exampleOptions.set32Channel exampleDeviceTwo 1 false).1.channelsOnHs2 = 16
    ∧ (exampleOptions.set32Channel exampleDeviceTwo 1 false).2
        = exampleDeviceTwo.setNumChannels 0 32
    ∧ (exampleOptions.set32Channel exampleDeviceTwo 1 false).2.getActiveChannelsInHeadstage 1
        = 32
    ∧ (exampleDeviceTwo.setNumChannels 1 16).getActiveChannelsInHeadstage 1 = 16
    ∧ (exampleOptions.set32Channel exampleDeviceTwo 0 false).2.getActiveChannelsInHeadstage 0
        = 16 := by
  refine ⟨by decide, by decide, rfl, by decide, by decide, by decide⟩

/-! ## C28: aux values over the groups of a block -/

/-- On the frame with index `j + 1 (mod 4)` the word of aux channel `j` is stored. -/
theorem block_aux_stored (K : Consts) (api : DataBlockApi) (cfg : DecodeConfig)
    (buf : Buffer) (st : SampleState) (hA : cfg.acquireAux = true) (t s j : Nat)
    (hj : j < 3) (ht : t % 4 = j + 1) (hs : s < cfg.numStreams)
    (h : hasAux K cfg s = true) :
    (blockState K api cfg buf 0 0 st (t + 1)).auxSamples s j
      = decodeAux (readU16 buf
          (t * frameSize cfg.numStreams + 12 + 2 * cfg.numStreams + 2 * s)) := by
  have hr : (t + 3) % 4 ≠ 3 := by omega
  have h2 : j = (t + 3) % 4 := by omega
  rw [blockState_succ, decodeFrame_auxSamples_hold K api cfg buf t _ _ hA hr,
    if_pos ⟨hs, h, h2⟩]

/-- A frame whose index is not `j + 1 (mod 4)` keeps the stored sample of aux channel
`j`. -/
theorem block_aux_kept (K : Consts) (api : DataBlockApi) (cfg : DecodeConfig)
    (buf : Buffer) (st : SampleState) (hA : cfg.acquireAux = true) (t s j : Nat)
    (ht : (t + 3) % 4 ≠ j) :
    (blockState K api cfg buf 0 0 st (t + 1)).auxSamples s j
      = (blockState K api cfg buf 0 0 st t).auxSamples s j := by
  rw [blockState_succ]
  by_cases hr : (t + 3) % 4 = 3
  · rw [decodeFrame_auxSamples_refresh K api cfg buf t _ _ hr]
  · rw [decodeFrame_auxSamples_hold K api cfg buf t _ _ hA hr, if_neg]
    rintro ⟨_, _, e⟩
    exact ht e.symm

/-- At the start of group `k + 1` the stored sample of aux channel `j` is the word read
on frame `4k + 1 + j`. -/
theorem block_aux_at_group_start (K : Consts) (api : DataBlockApi) (cfg : DecodeConfig)
    (buf : Buffer) (st : SampleState) (hA : cfg.acquireAux = true) (k s j : Nat)
    (hj : j < 3) (hs : s < cfg.numStreams) (h : hasAux K cfg s = true) :
    (blockState K api cfg buf 0 0 st (4 * (k + 1))).auxSamples s j
      = decodeAux (readU16 buf
          ((4 * k + 1 + j) * frameSize cfg.numStreams + 12 + 2 * cfg.numStreams + 2 * s)) := by
  have st0 := block_aux_stored K api cfg buf st hA (4 * k + 1 + j) s j hj (by omega) hs h
  rcases (by omega : j = 0 ∨ j = 1 ∨ j = 2) with e | e | e
  · subst e
    have k1 := block_aux_kept K api cfg buf st hA (4 * k + 1 + 0 + 1) s 0 (by omega)
    have k2 := block_aux_kept K api cfg buf st hA (4 * k + 1 + 0 + 1 + 1) s 0 (by omega)
    rw [show 4 * (k + 1) = 4 * k + 1 + 0 + 1 + 1 + 1 by ring, k2, k1, st0]
  · subst e
    have k1 := block_aux_kept K api cfg buf st hA (4 * k + 1 + 1 + 1) s 1 (by omega)
    rw [show 4 * (k + 1) = 4 * k + 1 + 1 + 1 + 1 by ring, k1, st0]
  · subst e
    rw [show 4 * (k + 1) = 4 * k + 1 + 2 + 1 by ring, st0]

/-- C28: with aux acquisition on, for a stream whose chip is not `RHD2164_B` and a block
whose headers are valid, the value `updateBuffer` emits for aux channel `j` of the
stream is the same on the four frames of every aligned group `4k .. 4k+3`: on the frames
`0 .. 3` it is the sample stored before the block, and on the frames of group `k + 1` it
is the value `(raw - 32768) * 0.0000374` decoded from the stream's aux word on frame
`4k + 1 + j`, which is frame `4(k+1) - 3 + j` of the preceding group. After a full block
of `N` valid frames (`N` a positive multiple of 4) the stored sample is the word of
frame `N - 3 + j`, which the frames `0 .. 3` of the next block emit. -/
theorem aux_values_constant_per_group (K : Consts) (api : DataBlockApi)
    (d : DeviceThread) (r : UsbRead) (h : r.return_code ≠ 0) (hA : d.acquireAux = true)
    (s j : Nat) (hs : s < d.enabledStreams.length)
    (hB : arrGet d.chipId s ≠ K.CHIP_ID_RHD2164_B) (hj : j < 3) :
    (∀ i, i < 4 → 4 ≤ api.getSamplesPerDataBlock →
      (∀ t, t < 4 →
        api.checkUsbHeader r.bufferPtr (t * frameSize d.enabledStreams.length) = true) →
      ((d.updateBuffer K api r).2.sink[d.sink.length + i]?.bind
          (fun e => e.samples[chanBase d.decodeConfig d.enabledStreams.length
            + auxBase K d.decodeConfig s + j]?))
        = some (d.samples.auxSamples s j))
    ∧ (∀ k i, i < 4 → 4 * (k + 1) + 4 ≤ api.getSamplesPerDataBlock →
      (∀ t, t < 4 * (k + 1) + 4 →
        api.checkUsbHeader r.bufferPtr (t * frameSize d.enabledStreams.length) = true) →
      ((d.updateBuffer K api r).2.sink[d.sink.length + (4 * (k + 1) + i)]?.bind
          (fun e => e.samples[chanBase d.decodeConfig d.enabledStreams.length
            + auxBase K d.decodeConfig s + j]?))
        = some (decodeAux (readU16 r.bufferPtr
            ((4 * k + 1 + j) * frameSize d.enabledStreams.length + 12
              + 2 * d.enabledStreams.length + 2 * s))))
    ∧ (∀ k, api.getSamplesPerDataBlock = 4 * (k + 1) →
      (∀ t, t < 4 * (k + 1) →
        api.checkUsbHeader r.bufferPtr (t * frameSize d.enabledStreams.length) = true) →
      (d.updateBuffer K api r).2.samples.auxSamples s j
        = decodeAux (readU16 r.bufferPtr
            ((4 * k + 1 + j) * frameSize d.enabledStreams.length + 12
              + 2 * d.enabledStreams.length + 2 * s))) := by
  have hh : hasAux K d.decodeConfig s = true := by
    unfold hasAux
    exact decide_eq_true hB
  have hA' : d.decodeConfig.acquireAux = true := hA
  have hs' : s < d.decodeConfig.numStreams := hs
  refine ⟨?_, ?_, ?_⟩
  · intro i hi hN hv
    rw [updateBuffer_sink_at K api d r h 4 hN hv i hi, Option.some_bind]
    have key := block_aux_group K api d.decodeConfig r.bufferPtr d.samples hA' 0 s j hs' hh
      hj i hi
    rw [show 4 * 0 + i = i by omega] at key
    exact key
  · intro k i hi hN hv
    rw [updateBuffer_sink_at K api d r h (4 * (k + 1) + 4) hN hv (4 * (k + 1) + i)
      (by omega), Option.some_bind]
    exact (block_aux_group K api d.decodeConfig r.bufferPtr d.samples hA' (k + 1) s j hs' hh
      hj i hi).trans (congrArg some
        (block_aux_at_group_start K api d.decodeConfig r.bufferPtr d.samples hA' k s j hj
          hs' hh))
  · intro k hN hv
    have key := sampLoop_spec K api d.decodeConfig r.bufferPtr api.getSamplesPerDataBlock
      0 0 d.samples (4 * (k + 1)) (by omega)
      (by
        intro t ht
        rw [Nat.zero_add]
        exact hv t ht)
      (by
        intro hlt
        omega)
    rw [(updateBuffer_decoded K api d r h).2.1, key.2.1]
    exact block_aux_at_group_start K api d.decodeConfig r.bufferPtr d.samples hA' k s j hj
      hs' hh

theorem aux_values_constant_per_group_witness :
    ((1 : Int) ≠ 0 ∧ 4 * (0 + 1) + 4 ≤ exampleApi.getSamplesPerDataBlock)
    ∧ ∀ i, i < 4 →
      ((exampleDevice16.updateBuffer exampleConsts exampleApi
          { return_code := 1, bufferPtr := exampleAuxBlock }).2.sink[
            exampleDevice16.sink.length + (4 * (0 + 1) + i)]?.bind
          (fun e => e.samples[chanBase exampleDevice16.decodeConfig
            exampleDevice16.enabledStreams.length
            + auxBase exampleConsts exampleDevice16.decodeConfig 0 + 2]?))
        = some (decodeAux (readU16 exampleAuxBlock
            ((4 * 0 + 1 + 2) * frameSize exampleDevice16.enabledStreams.length + 12
              + 2 * exampleDevice16.enabledStreams.length + 2 * 0))) :=
  ⟨⟨by decide, by decide⟩,
    fun i hi =>
      (aux_values_constant_per_group exampleConsts exampleApi exampleDevice16
        { return_code := 1, bufferPtr := exampleAuxBlock } (by decide) rfl 0 2 (by decide)
        (by decide) (by decide)).2.1 0 i hi (by decide)
        (by
          intro t ht
          have e : frameSize exampleDevice16.enabledStreams.length = 104 := by decide
          have ht' : t < 256 := by omega
          rw [e]
          show checkUsbHeaderMagic exampleMagic exampleAuxBlock (t * 104) = true
          unfold exampleAuxBlock
          rw [exampleBlock_header]
          simpa using ht')⟩

/-! ## C29: sender and receiver of the trigger message -/

theorem handleBroadcastMessage_valid (J : JuceStringApi) (d : DeviceThread) (msg : String)
    (h : validTrigger J msg) :
    d.handleBroadcastMessage J msg =
      { d with
        digitalOutputCommands :=
          d.digitalOutputCommands ++ [{ ttlLine := triggerLine J msg, state := true }],
        digitalOutputTimers :=
          d.digitalOutputTimers ++
            [{ tllOutputLine := triggerLine J msg,
               eventDurationMs := triggerDuration J msg }] } := by
  unfold validTrigger triggerLine triggerDuration at h
  obtain ⟨h4, h0, h1, a, b, c, e⟩ := h
  unfold DeviceThread.handleBroadcastMessage triggerLine triggerDuration
  have g1 : 1 < (J.fromTokens msg).length := by omega
  have g2 : ¬ (J.getIntValue (partGet (J.fromTokens msg) 2) - 1 < 0
      ∨ 7 < J.getIntValue (partGet (J.fromTokens msg) 2) - 1) := by omega
  have g3 : ¬ (J.getIntValue (partGet (J.fromTokens msg) 3) < 10
      ∨ 5000 < J.getIntValue (partGet (J.fromTokens msg) 3)) := by omega
  simp only [h0, h1, h4, g1, g2, g3, if_true, if_false]
  rfl

/-! Example string library: it meets the contracts asked of JUCE below. -/

theorem exampleTokens_word (w : List Char) (hw : ' ' ∉ w) :
    ∀ (cur rest : List Char),
      exampleTokens cur (w ++ ' ' :: rest)
        = String.mk (cur.reverse ++ w) :: exampleTokens [] rest := by
  induction w with
  | nil =>
    intro cur rest
    simp [exampleTokens]
  | cons c t ih =>
    intro cur rest
    have hc : c ≠ ' ' := fun e => hw (e ▸ List.mem_cons_self c t)
    have ht : ' ' ∉ t := fun h => hw (List.mem_cons_of_mem c h)
    rw [List.cons_append, exampleTokens, if_neg hc, ih ht]
    simp

theorem exampleTokens_last (w : List Char) (hw : ' ' ∉ w) :
    ∀ cur : List Char, exampleTokens cur w = [String.mk (cur.reverse ++ w)] := by
  induction w with
  | nil =>
    intro cur
    simp [exampleTokens]
  | cons c t ih =>
    intro cur
    have hc : c ≠ ' ' := fun e => hw (e ▸ List.mem_cons_self c t)
    have ht : ' ' ∉ t := fun h => hw (List.mem_cons_of_mem c h)
    rw [exampleTokens, if_neg hc, ih ht]
    simp

theorem exampleJuce_splits (a b c e : String) (ha : ' ' ∉ a.data) (hb : ' ' ∉ b.data)
    (hc : ' ' ∉ c.data) (he : ' ' ∉ e.data) :
    exampleJuce.fromTokens (a ++ " " ++ b ++ " " ++ c ++ " " ++ e) = [a, b, c, e] := by
  have hd : (a ++ " " ++ b ++ " " ++ c ++ " " ++ e).data
      = a.data ++ ' ' :: (b.data ++ ' ' :: (c.data ++ ' ' :: e.data)) := by
    simp [String.data_append]
  show (if (a ++ " " ++ b ++ " " ++ c ++ " " ++ e).data = [] then []
    else exampleTokens [] (a ++ " " ++ b ++ " " ++ c ++ " " ++ e).data) = _
  rw [hd, if_neg (by simp), exampleTokens_word _ ha, exampleTokens_word _ hb,
    exampleTokens_word _ hc, exampleTokens_last _ he]
  rfl

theorem exampleJuce_case (s : String) : exampleJuce.equalsIgnoreCase s s = true :=
  decide_eq_true rfl

theorem digitChar_facts (k : Nat) (hk : k < 10) :
    (Char.ofNat (48 + k)).isDigit = true
    ∧ (((Char.ofNat (48 + k)).toNat : Nat) : Int) - 48 = (k : Int)
    ∧ Char.ofNat (48 + k) ≠ ' ' ∧ Char.ofNat (48 + k) ≠ '-' := by
  interval_cases k <;> decide

theorem exampleDecimalDigits_read :
    ∀ (fuel n : Nat) (acc : List Char), 0 < fuel → n < 10 ^ fuel →
      exampleDigits (exampleDecimalDigits fuel n acc) 0 = exampleDigits acc (n : Int) := by
  intro fuel
  induction fuel with
  | zero => intro n acc h; omega
  | succ m ih =>
    intro n acc _ hn
    obtain ⟨d1, d2, _, _⟩ := digitChar_facts (n % 10) (Nat.mod_lt n (by decide))
    have step : exampleDigits (Char.ofNat (48 + n % 10) :: acc) ((n / 10 : Nat) : Int)
        = exampleDigits acc (n : Int) := by
      rw [exampleDigits, if_pos d1, d2]
      congr 1
      omega
    rw [exampleDecimalDigits]
    by_cases h0 : n / 10 = 0
    · rw [if_pos h0]
      rw [h0] at step
      exact step
    · rw [if_neg h0]
      have hm : 0 < m := by
        rcases Nat.eq_zero_or_pos m with e | e
        · subst e
          omega
        · exact e
      have hlt : n / 10 < 10 ^ m := by
        rw [pow_succ] at hn
        exact Nat.div_lt_of_lt_mul (by omega)
      rw [ih (n / 10) _ hm hlt]
      exact step

theorem exampleDecimalDigits_chars :
    ∀ (fuel n : Nat) (acc : List Char) (c : Char), c ∈ exampleDecimalDigits fuel n acc →
      c ∈ acc ∨ (c ≠ ' ' ∧ c ≠ '-') := by
  intro fuel
  induction fuel with
  | zero =>
    intro n acc c h
    exact Or.inl h
  | succ m ih =>
    intro n acc c h
    obtain ⟨_, _, d3, d4⟩ := digitChar_facts (n % 10) (Nat.mod_lt n (by decide))
    rw [exampleDecimalDigits] at h
    by_cases h0 : n / 10 = 0
    · rw [if_pos h0] at h
      rcases List.mem_cons.mp h with e | e
      · exact Or.inr (e ▸ ⟨d3, d4⟩)
      · exact Or.inl e
    · rw [if_neg h0] at h
      rcases ih _ _ c h with e | e
      · rcases List.mem_cons.mp e with e1 | e1
        · exact Or.inr (e1 ▸ ⟨d3, d4⟩)
        · exact Or.inl e1
      · exact Or.inr e

theorem exampleJuce_reads_decimal (n : Nat) (hn : n < 10 ^ 20) :
    ' ' ∉ (String.mk (exampleDecimalDigits 20 n [])).data
    ∧ exampleJuce.getIntValue (String.mk (exampleDecimalDigits 20 n [])) = (n : Int) := by
  have hch : ∀ c, c ∈ exampleDecimalDigits 20 n [] → c ≠ ' ' ∧ c ≠ '-' := by
    intro c hc
    rcases exampleDecimalDigits_chars 20 n [] c hc with e | e
    · exact absurd e (List.not_mem_nil c)
    · exact e
  constructor
  · intro h
    exact (hch _ h).1 rfl
  · have hr := exampleDecimalDigits_read 20 n [] (by decide) hn
    show (match exampleDecimalDigits 20 n [] with
      | '-' :: rest => - exampleDigits rest 0
      | l => exampleDigits l 0) = (n : Int)
    split
    · rename_i rest heq
      exact absurd rfl (hch '-' (heq ▸ List.mem_cons_self _ _)).2
    · rw [hr]
      rfl

theorem exampleFormat_int (n : Int) (h1 : 1 ≤ n) (h8 : n ≤ 8) :
    ' ' ∉ (exampleFormat.ofInt n).data
    ∧ exampleJuce.getIntValue (exampleFormat.ofInt n) = n := by
  have := exampleJuce_reads_decimal n.toNat (by omega)
  rw [Int.toNat_of_nonneg (by omega)] at this
  exact this

theorem exampleFormat_duration (q : ℚ) (h0 : 100 ≤ q) (h1 : q ≤ 2000) :
    ' ' ∉ (exampleFormat.varToString q).data
    ∧ exampleJuce.getIntValue (exampleFormat.varToString q) = Rat.floor q := by
  have hlo : 100 ≤ Rat.floor q := Rat.le_floor.mpr (by exact_mod_cast h0)
  have hhi : Rat.floor q ≤ 2000 := by
    have a : ((Rat.floor q : Int) : ℚ) ≤ q := Int.floor_le q
    have b : ((Rat.floor q : Int) : ℚ) ≤ 2000 := le_trans a h1
    exact_mod_cast b
  have := exampleJuce_reads_decimal (Rat.floor q).toNat (by omega)
  rw [Int.toNat_of_nonneg (by omega)] at this
  exact this

/-- C29: for a selected line `L` in `0 .. 7` and a duration `D` in `[100, 2000]`, the
message `RecControllerOutput` builds (`RHDCONTROL TRIGGER `, then `String (L + 1)`, a
space and the text of `D`) makes `handleBroadcastMessage` append the command (`L`, high)
and a timer for line `L` with the integer part of `D` and change nothing else: the
sender's `+ 1` and the receiver's `- 1` cancel. The JUCE library enters through four
contracts that do not mention the message: `fromTokens` splits four words without a
space, joined by single spaces, into those words; `equalsIgnoreCase` finds a text equal
to itself; `String (int)` of a value in `1 .. 8` has no space and `getIntValue` reads it
back; `var::toString` of a value in `[100, 2000]` has no space and `getIntValue` reads
its integer part. -/
theorem triggerMessage_accepted (J : JuceStringApi) (F : JuceFormatApi) (d : DeviceThread)
    (L : Int) (D : ℚ) (hL0 : 0 ≤ L) (hL7 : L ≤ 7) (hD0 : 100 ≤ D) (hD1 : D ≤ 2000)
    (hSplit : ∀ a b c e : String,
      ' ' ∉ a.data → ' ' ∉ b.data → ' ' ∉ c.data → ' ' ∉ e.data →
      J.fromTokens (a ++ " " ++ b ++ " " ++ c ++ " " ++ e) = [a, b, c, e])
    (hCase : ∀ s : String, J.equalsIgnoreCase s s = true)
    (hInt : ∀ n : Int, 1 ≤ n → n ≤ 8 →
      ' ' ∉ (F.ofInt n).data ∧ J.getIntValue (F.ofInt n) = n)
    (hDur : ∀ q : ℚ, 100 ≤ q → q ≤ 2000 →
      ' ' ∉ (F.varToString q).data ∧ J.getIntValue (F.varToString q) = Rat.floor q) :
    d.handleBroadcastMessage J (triggerMessage F L D) =
      { d with
        digitalOutputCommands := d.digitalOutputCommands ++ [{ ttlLine := L, state := true }],
        digitalOutputTimers :=
          d.digitalOutputTimers ++
            [{ tllOutputLine := L, eventDurationMs := Rat.floor D }] } := by
  obtain ⟨hIntWord, hIntVal⟩ := hInt (L + 1) (by omega) (by omega)
  obtain ⟨hDurWord, hDurVal⟩ := hDur D hD0 hD1
  have hmsg : triggerMessage F L D
      = "RHDCONTROL" ++ " " ++ "TRIGGER" ++ " " ++ F.ofInt (L + 1) ++ " "
          ++ F.varToString D := by
    unfold triggerMessage
    have e : "RHDCONTROL TRIGGER " = "RHDCONTROL" ++ " " ++ "TRIGGER" ++ " " := by decide
    rw [e]
  have hTok : J.fromTokens (triggerMessage F L D)
      = ["RHDCONTROL", "TRIGGER", F.ofInt (L + 1), F.varToString D] := by
    rw [hmsg]
    exact hSplit "RHDCONTROL" "TRIGGER" (F.ofInt (L + 1)) (F.varToString D)
      (by decide) (by decide) hIntWord hDurWord
  have hline : triggerLine J (triggerMessage F L D) = L := by
    unfold triggerLine
    rw [hTok]
    show J.getIntValue (F.ofInt (L + 1)) - 1 = L
    rw [hIntVal]
    omega
  have hdur : triggerDuration J (triggerMessage F L D) = Rat.floor D := by
    unfold triggerDuration
    rw [hTok]
    exact hDurVal
  have hfl : 100 ≤ Rat.floor D ∧ Rat.floor D ≤ 2000 := by
    constructor
    · exact Rat.le_floor.mpr (by exact_mod_cast hD0)
    · have h1 : ((Rat.floor D : Int) : ℚ) ≤ D := Int.floor_le D
      have h2 : ((Rat.floor D : Int) : ℚ) ≤ 2000 := le_trans h1 hD1
      exact_mod_cast h2
  have hvalid : validTrigger J (triggerMessage F L D) := by
    unfold validTrigger
    rw [hline, hdur, hTok]
    exact ⟨rfl, hCase "RHDCONTROL", hCase "TRIGGER", hL0, hL7, by omega, by omega⟩
  rw [handleBroadcastMessage_valid J d _ hvalid, hline, hdur]

theorem triggerMessage_accepted_witness :
    triggerMessage exampleFormat 2 500 = "RHDCONTROL TRIGGER 3 500"
    ∧ exampleDevice.handleBroadcastMessage exampleJuce (triggerMessage exampleFormat 2 500)
      = { exampleDevice with
          digitalOutputCommands :=
            exampleDevice.digitalOutputCommands ++ [{ ttlLine := 2, state := true }],
          digitalOutputTimers :=
            exampleDevice.digitalOutputTimers ++
              [{ tllOutputLine := 2, eventDurationMs := Rat.floor 500 }] } :=
  ⟨by decide,
    triggerMessage_accepted exampleJuce exampleFormat exampleDevice 2 500 (by decide)
      (by decide) (by norm_num) (by norm_num) exampleJuce_splits exampleJuce_case
      exampleFormat_int exampleFormat_duration⟩

/-! ## Chip ids recorded by the sweep -/

theorem mem_arrSet (a : List Int) (i v x : Int) (h : x ∈ arrSet a i v) : x ∈ a ∨ x = v := by
  unfold arrSet at h
  split at h
  · exact Or.inl h
  · split at h
    · rcases List.mem_or_eq_of_mem_set h with h | h
      · exact Or.inl h
      · exact Or.inr h
    · rcases List.mem_append.mp h with h | h
      · exact Or.inl h
      · exact Or.inr (List.mem_singleton.mp h)

theorem goodDeviceId_isChipId (K : Consts) (r : Int × Int) (h : goodDeviceId K r = true) :
    isChipId K r.1 := by
  unfold goodDeviceId at h
  unfold isChipId
  simp only [Bool.or_eq_true, Bool.and_eq_true, beq_iff_eq] at h
  rcases h with (h | h) | h
  · exact Or.inl h
  · exact Or.inr (Or.inl h)
  · exact Or.inr (Or.inr h.1)

theorem sweepSlot_tmp_mem (K : Consts) (dataBlock : DataBlock) (delay : Nat) (acc : SweepAcc)
    (hs : Nat) (hacc : ∀ x, x ∈ acc.tmpChipId → x = -1 ∨ isChipId K x) :
    ∀ x, x ∈ (sweepSlot K dataBlock delay acc hs).tmpChipId → x = -1 ∨ isChipId K x := by
  intro x hx
  unfold sweepSlot at hx
  cases hg : goodDeviceId K (getDeviceId dataBlock hs)
  · simp only [hg, Bool.false_eq_true, if_false] at hx
    exact hacc x hx
  · have hid := goodDeviceId_isChipId K _ hg
    simp only [hg, if_true] at hx
    split at hx
    · dsimp only at hx
      rcases mem_arrSet _ _ _ _ hx with h | h
      · exact hacc x h
      · exact Or.inr (h ▸ hid)
    · split at hx
      · dsimp only at hx
        rcases mem_arrSet _ _ _ _ hx with h | h
        · exact hacc x h
        · exact Or.inr (h ▸ hid)
      · exact hacc x hx

theorem sweepDelay_tmp_mem (K : Consts) (blocks : Nat → DataBlock) (delay : Nat)
    (l : List Nat) :
    ∀ acc : SweepAcc, (∀ x, x ∈ acc.tmpChipId → x = -1 ∨ isChipId K x) →
      ∀ x, x ∈ (l.foldl (sweepSlot K (blocks delay) delay) acc).tmpChipId →
        x = -1 ∨ isChipId K x := by
  induction l with
  | nil => intro acc h; exact h
  | cons a t ih =>
    intro acc h
    exact ih _ (sweepSlot_tmp_mem K (blocks delay) delay acc a h)

theorem sweepFold_tmp_mem (K : Consts) (blocks : Nat → DataBlock) (numHs : Nat)
    (ds : List Nat) :
    ∀ acc : SweepAcc, (∀ x, x ∈ acc.tmpChipId → x = -1 ∨ isChipId K x) →
      ∀ x, x ∈ (ds.foldl (sweepDelay K blocks numHs) acc).tmpChipId →
        x = -1 ∨ isChipId K x := by
  induction ds with
  | nil => intro acc h; exact h
  | cons a t ih =>
    intro acc h
    exact ih _ (sweepDelay_tmp_mem K blocks a (List.range numHs) acc h)

theorem sweep_tmp_mem (K : Consts) (blocks : Nat → DataBlock) (numHs : Nat) :
    ∀ x, x ∈ (sweep K blocks numHs).tmpChipId → x = -1 ∨ isChipId K x := by
  unfold sweep
  apply sweepFold_tmp_mem
  intro x hx
  exact Or.inl (List.eq_of_mem_replicate hx)

theorem arrGet_mem_or_zero (a : List Int) (i : Nat) : arrGet a i ∈ a ∨ arrGet a i = 0 := by
  unfold arrGet
  by_cases h : i < a.length
  · left
    rw [List.getD_eq_getElem _ _ h]
    exact List.getElem_mem h
  · right
    rw [List.getD_eq_default _ _ (by omega)]

/-- A positive entry of the chip ids recorded by the sweep is an accepted chip id. -/
theorem sweep_tmp_pos (K : Consts) (blocks : Nat → DataBlock) (numHs hs : Nat)
    (h : 0 < arrGet (sweep K blocks numHs).tmpChipId hs) :
    isChipId K (arrGet (sweep K blocks numHs).tmpChipId hs) := by
  rcases arrGet_mem_or_zero (sweep K blocks numHs).tmpChipId hs with hm | hz
  · rcases sweep_tmp_mem K blocks numHs _ hm with e | e
    · omega
    · exact e
  · omega

/-! ## One pass of the assignment loop -/

theorem arrIndexOf_not_mem (a : List Int) (v : Int) (h : v ∉ a) : arrIndexOf a v = -1 := by
  unfold arrIndexOf
  rw [if_neg h]

theorem enableHeadstage_false_streams (d : DeviceThread) (hsNum : Nat) (nStr strChans : Int)
    (h : Headstage) (hh : d.headstages[hsNum]? = some h) (h0 : h.numStreams = 0)
    (hfree : h.dataStream0 ∉ d.enabledStreams) :
    (d.enableHeadstage hsNum false nStr strChans).enabledStreams = d.enabledStreams
    ∧ (d.enableHeadstage hsNum false nStr strChans).numChannelsPerDataStream
        = d.numChannelsPerDataStream
    ∧ (d.enableHeadstage hsNum false nStr strChans).chipId = d.chipId := by
  have hidx : ¬ (0 ≤ arrIndexOf d.enabledStreams (h.getDataStream 0)) := by
    have e : h.getDataStream 0 = h.dataStream0 := by
      unfold Headstage.getDataStream
      simp
    rw [e, arrIndexOf_not_mem _ _ hfree]
    omega
  have h1 : ¬ (1 < h.numStreams) := by omega
  unfold DeviceThread.enableHeadstage
  simp only [hh, Bool.false_eq_true, if_false, hidx, h1]
  refine ⟨?_, ?_, ?_⟩ <;> first | rfl | trivial

theorem enableHeadstage_true_chipId (d : DeviceThread) (hsNum : Nat) (nStr strChans : Int) :
    (d.enableHeadstage hsNum true nStr strChans).chipId = d.chipId := by
  unfold DeviceThread.enableHeadstage
  cases hh : d.headstages[hsNum]? with
  | none => rfl
  | some h =>
    simp only [if_true]
    split <;> rfl

theorem assignSlot_step (K : Consts) (tmpChipId : List Int) (a : DeviceThread.AssignAcc)
    (hs : Nat) (h : Headstage) (hget : a.device.headstages[hs]? = some h)
    (h0 : h.numStreams = 0) (hfree : h.dataStream0 ∉ a.device.enabledStreams) :
    (DeviceThread.assignSlot K tmpChipId a hs).device.headstages
        = a.device.headstages.set hs
            (grantTo h (granted K (arrGet tmpChipId hs) a.device.enabledStreams.length)
              a.device.getNumElectrodeOutputs a.device.enabledStreams.length)
    ∧ (DeviceThread.assignSlot K tmpChipId a hs).device.enabledStreams
        = a.device.enabledStreams
          ++ streamsOf (grantTo h
              (granted K (arrGet tmpChipId hs) a.device.enabledStreams.length)
              a.device.getNumElectrodeOutputs a.device.enabledStreams.length)
    ∧ (DeviceThread.assignSlot K tmpChipId a hs).device.numChannelsPerDataStream
        = a.device.numChannelsPerDataStream
          ++ countsOf (grantTo h
              (granted K (arrGet tmpChipId hs) a.device.enabledStreams.length)
              a.device.getNumElectrodeOutputs a.device.enabledStreams.length)
    ∧ (DeviceThread.assignSlot K tmpChipId a hs).chipIdx
        = a.chipIdx
          + (granted K (arrGet tmpChipId hs) a.device.enabledStreams.length).1.toNat
    ∧ (DeviceThread.assignSlot K tmpChipId a hs).device.chipId
        = (if (granted K (arrGet tmpChipId hs) a.device.enabledStreams.length).1 = 0 then
            a.device.chipId
           else if (granted K (arrGet tmpChipId hs) a.device.enabledStreams.length).1 = 1 then
            arrSet a.device.chipId a.chipIdx (arrGet tmpChipId hs)
           else
            arrSet (arrSet a.device.chipId a.chipIdx (arrGet tmpChipId hs))
              ((a.chipIdx + 1 : Nat) : Int) K.CHIP_ID_RHD2164_B) := by
  unfold DeviceThread.assignSlot granted
  simp only []
  by_cases c1 : 0 < arrGet tmpChipId hs ∧ a.device.enabledStreams.length < K.MAX_NUM_DATA_STREAMS
  · simp only [c1, and_self, if_true]
    by_cases c2 : arrGet tmpChipId hs = K.CHIP_ID_RHD2164
    · simp only [c2, if_true]
      by_cases c3 : (a.device.enabledStreams.length : Int) < (K.MAX_NUM_DATA_STREAMS : Int) - 1
      · simp only [c3, if_true]
        obtain ⟨e1, e2⟩ := enableHeadstage_true_streams
          { a.device with chipId := arrSet a.device.chipId a.chipIdx K.CHIP_ID_RHD2164 }
          hs 2 32 h hget
        have e3 := enableHeadstage_true_headstages
          { a.device with chipId := arrSet a.device.chipId a.chipIdx K.CHIP_ID_RHD2164 }
          hs 2 32 h hget
        have e4 := enableHeadstage_true_chipId
          { a.device with chipId := arrSet a.device.chipId a.chipIdx K.CHIP_ID_RHD2164 }
          hs 2 32
        dsimp only at e1 e2 e3 e4 ⊢
        rw [e1, e2, e3, e4]
        refine ⟨?_, ?_, ?_, ?_, ?_⟩
        · rfl
        · simp [streamsOf, grantTo, Headstage.getDataStream]
        · simp [countsOf, grantTo]
        · simp
        · simp
      · simp only [c3, if_false]
        obtain ⟨e1, e2⟩ := enableHeadstage_true_streams
          { a.device with chipId := arrSet a.device.chipId a.chipIdx K.CHIP_ID_RHD2164 }
          hs 1 32 h hget
        have e3 := enableHeadstage_true_headstages
          { a.device with chipId := arrSet a.device.chipId a.chipIdx K.CHIP_ID_RHD2164 }
          hs 1 32 h hget
        have e4 := enableHeadstage_true_chipId
          { a.device with chipId := arrSet a.device.chipId a.chipIdx K.CHIP_ID_RHD2164 }
          hs 1 32
        dsimp only at e1 e2 e3 e4 ⊢
        rw [e1, e2, e3, e4]
        refine ⟨?_, ?_, ?_, ?_, ?_⟩
        · rfl
        · simp [streamsOf, grantTo, Headstage.getDataStream]
        · simp [countsOf, grantTo]
        · simp
        · simp
    · simp only [c2, if_false]
      obtain ⟨e1, e2⟩ := enableHeadstage_true_streams
        { a.device with chipId := arrSet a.device.chipId a.chipIdx (arrGet tmpChipId hs) }
        hs 1 (if arrGet tmpChipId hs = 1 then 32 else 16) h hget
      have e3 := enableHeadstage_true_headstages
        { a.device with chipId := arrSet a.device.chipId a.chipIdx (arrGet tmpChipId hs) }
        hs 1 (if arrGet tmpChipId hs = 1 then 32 else 16) h hget
      have e4 := enableHeadstage_true_chipId
        { a.device with chipId := arrSet a.device.chipId a.chipIdx (arrGet tmpChipId hs) }
        hs 1 (if arrGet tmpChipId hs = 1 then 32 else 16)
      dsimp only at e1 e2 e3 e4 ⊢
      rw [e1, e2, e3, e4]
      refine ⟨?_, ?_, ?_, ?_, ?_⟩
      · rfl
      · simp [streamsOf, grantTo, Headstage.getDataStream]
      · simp [countsOf, grantTo]
      · simp
      · simp
  · simp only [c1, if_false]
    obtain ⟨e1, e2, e4⟩ := enableHeadstage_false_streams a.device hs 1 32 h hget h0 hfree
    have e3 := enableHeadstage_false_headstages a.device hs 1 32 h hget
    rw [e1, e2, e3, e4]
    refine ⟨?_, ?_, ?_, ?_, ?_⟩
    · rfl
    · simp [streamsOf, grantTo]
    · simp [countsOf, grantTo]
    · simp
    · simp

/-! ## The assignment loop as a whole -/

theorem take_succ_set (l : List Headstage) (n : Nat) (x : Headstage) (hn : n < l.length) :
    (l.set n x).take (n + 1) = l.take n ++ [x] := by
  induction l generalizing n with
  | nil => simp at hn
  | cons hd tl ih =>
    cases n with
    | zero => simp
    | succ n =>
      rw [List.set_cons_succ, List.take_succ_cons, List.take_succ_cons,
        ih n (by simpa using hn)]
      rfl

theorem getElem?_set_headstage (l : List Headstage) (n p : Nat) (x : Headstage)
    (hn : n < l.length) :
    (l.set n x)[p]? = if p = n then some x else l[p]? := by
  by_cases e : p = n
  · subst e
    simp [hn]
  · rw [if_neg e, List.getElem?_set_ne (fun h => e h.symm)]

theorem granted_cases (K : Consts) (id : Int) (len : Nat) :
    (granted K id len).1 = 0 ∨ ((granted K id len).1 = 1 ∧ 0 ≤ (granted K id len).2)
      ∨ ((granted K id len).1 = 2 ∧ (granted K id len).2 = 32) := by
  unfold granted
  split
  · split
    · split
      · exact Or.inr (Or.inr ⟨rfl, rfl⟩)
      · exact Or.inr (Or.inl ⟨rfl, by decide⟩)
    · refine Or.inr (Or.inl ⟨rfl, ?_⟩)
      dsimp only
      split <;> decide
  · exact Or.inl rfl

theorem streamsOf_length (h : Headstage) :
    (streamsOf h).length = (countsOf h).length := by
  unfold streamsOf countsOf
  split
  · rfl
  · split <;> rfl

theorem flatMap_streams_counts_length (l : List Headstage) :
    (l.flatMap streamsOf).length = (l.flatMap countsOf).length := by
  induction l with
  | nil => rfl
  | cons h t ih =>
    rw [List.flatMap_cons, List.flatMap_cons, List.length_append, List.length_append, ih,
      streamsOf_length]

theorem mem_flatMap_streamsOf (l : List Headstage) (x : Int)
    (hx : x ∈ l.flatMap streamsOf) :
    ∃ (q : Nat) (h : Headstage), l[q]? = some h ∧ h.numStreams ≠ 0
      ∧ (x = h.dataStream0 ∨ x = h.dataStream1) := by
  obtain ⟨h, hm, hxs⟩ := List.mem_flatMap.mp hx
  obtain ⟨q, hq⟩ := List.mem_iff_getElem?.mp hm
  refine ⟨q, h, hq, ?_, ?_⟩
  · intro e
    unfold streamsOf at hxs
    simp [e] at hxs
  · unfold streamsOf at hxs
    split at hxs
    · exact Or.inl (List.mem_singleton.mp hxs)
    · split at hxs
      · simp only [List.mem_cons, List.mem_singleton, List.not_mem_nil, or_false] at hxs
        exact hxs
      · simp at hxs

theorem grantTo_fields (h : Headstage) (g : Int × Int) (first : Int) (len : Nat) :
    (grantTo h g first len).dataStream0 = h.dataStream0
    ∧ (grantTo h g first len).dataStream1 = h.dataStream1
    ∧ (grantTo h g first len).halfChannels = h.halfChannels
    ∧ (grantTo h g first len).numStreams = g.1
    ∧ (g.1 ≠ 0 → (grantTo h g first len).channelsPerStream = g.2
        ∧ (grantTo h g first len).streamIndex = (len : Int)) := by
  unfold grantTo
  by_cases e : g.1 = 0
  · simp [e]
  · simp [e]

theorem streamsBelow_set (l : List Headstage) (n p : Nat) (x : Headstage) (h : p ≤ n) :
    streamsBelow (l.set n x) p = streamsBelow l p := by
  unfold streamsBelow
  rw [take_set_of_le l n p x h]

theorem scanInv_free (K : Consts) (tmp : List Int) (orig : List Headstage)
    (a : DeviceThread.AssignAcc) (n : Nat) (hdis : streamsDisjoint orig)
    (hinv : ScanInv K tmp orig a n) (h : Headstage)
    (hget : a.device.headstages[n]? = some h) :
    h.dataStream0 ∉ a.device.enabledStreams ∧ h.dataStream1 ∉ a.device.enabledStreams := by
  obtain ⟨o, ho, e0, e1, _⟩ := hinv.same n h hget
  have key : ∀ x, x ∈ a.device.enabledStreams → x ≠ h.dataStream0 ∧ x ≠ h.dataStream1 := by
    intro x hx
    rw [hinv.streams] at hx
    obtain ⟨q, hq, hqget, _, hxq⟩ := mem_flatMap_streamsOf _ x hx
    have hqn : q < n := by
      have hlt := (List.getElem?_eq_some_iff.mp hqget).1
      rw [List.length_take] at hlt
      omega
    rw [List.getElem?_take_of_lt hqn] at hqget
    obtain ⟨oq, hoq, f0, f1, _⟩ := hinv.same q hq hqget
    obtain ⟨d00, d01, d10, d11⟩ := hdis q n oq o hoq ho (by omega)
    rw [e0, e1]
    rcases hxq with e | e
    · rw [e, f0]; exact ⟨d00, d01⟩
    · rw [e, f1]; exact ⟨d10, d11⟩
  exact ⟨fun hm => (key _ hm).1 rfl, fun hm => (key _ hm).2 rfl⟩

theorem scanInv_step (K : Consts) (tmp : List Int) (orig : List Headstage)
    (a : DeviceThread.AssignAcc) (n : Nat) (hdis : streamsDisjoint orig)
    (hinv : ScanInv K tmp orig a n) (hn : n < a.device.headstages.length) :
    ScanInv K tmp orig (DeviceThread.assignSlot K tmp a n) (n + 1) := by
  have hget : a.device.headstages[n]? = some (a.device.headstages[n]) :=
    List.getElem?_eq_getElem hn
  generalize a.device.headstages[n] = h at hget
  have h0 := hinv.future n h (Nat.le_refl n) hget
  have hfree := (scanInv_free K tmp orig a n hdis hinv h hget).1
  obtain ⟨eH, eS, _, _, _⟩ := assignSlot_step K tmp a n h hget h0 hfree
  have hlen : a.device.enabledStreams.length = streamsBelow a.device.headstages n := by
    unfold streamsBelow
    rw [← hinv.streams]
  obtain ⟨g0, g1, g2, g3, g4⟩ := grantTo_fields h
    (granted K (arrGet tmp n) a.device.enabledStreams.length)
    a.device.getNumElectrodeOutputs a.device.enabledStreams.length
  generalize grantTo h (granted K (arrGet tmp n) a.device.enabledStreams.length)
    a.device.getNumElectrodeOutputs a.device.enabledStreams.length = g at eH eS g0 g1 g2 g3 g4
  constructor
  · intro p x hx
    rw [eH, getElem?_set_headstage _ _ _ _ hn] at hx
    by_cases e : p = n
    · rw [if_pos e] at hx
      obtain ⟨o, ho, e0, e1, e2⟩ := hinv.same n h hget
      have hx' : g = x := Option.some.inj hx
      subst hx'
      subst e
      exact ⟨o, ho, g0.trans e0, g1.trans e1, g2.trans e2⟩
    · rw [if_neg e] at hx
      exact hinv.same p x hx
  · intro p x hp hx
    rw [eH, getElem?_set_headstage _ _ _ _ hn, if_neg (by omega)] at hx
    exact hinv.future p x (by omega) hx
  · rw [eS, eH, take_succ_set _ _ _ hn, List.flatMap_append, hinv.streams]
    simp
  · intro p x hp hx
    rw [eH, getElem?_set_headstage _ _ _ _ hn] at hx
    rw [eH, streamsBelow_set _ _ _ _ (by omega)]
    by_cases e : p = n
    · rw [if_pos e] at hx
      have hx' : g = x := Option.some.inj hx
      subst hx'
      subst e
      rw [← hlen]
      exact ⟨g3, g4 ∘ (fun hne => g3 ▸ hne)⟩
    · rw [if_neg e] at hx
      exact hinv.outcome p x (by omega) hx

theorem granted_pos (K : Consts) (id : Int) (len : Nat) (h : (granted K id len).1 ≠ 0) :
    0 < id ∧ len < K.MAX_NUM_DATA_STREAMS := by
  unfold granted at h
  split at h
  · assumption
  · exact absurd rfl h

theorem arrSet_le_length (a : List Int) (n : Nat) (v : Int) (h : n ≤ a.length) :
    n < (arrSet a (n : Int) v).length ∧ a.length ≤ (arrSet a (n : Int) v).length := by
  rw [arrSet_nat]
  split
  · rw [List.length_set]
    omega
  · rw [List.length_append, List.length_singleton]
    omega

theorem arrGet_arrSet_le (a : List Int) (n : Nat) (v : Int) (h : n ≤ a.length) (j : Nat) :
    arrGet (arrSet a (n : Int) v) j = if j = n then v else arrGet a j := by
  by_cases hlt : n < a.length
  · exact arrGet_arrSet a n v hlt j
  · have e : n = a.length := by omega
    rw [arrSet_nat, if_neg hlt]
    unfold arrGet
    rw [List.getD_eq_getElem?_getD, List.getD_eq_getElem?_getD]
    by_cases c1 : j < a.length
    · rw [List.getElem?_append_left c1, if_neg (by omega)]
    · rw [List.getElem?_append_right (by omega)]
      by_cases c2 : j = n
      · rw [if_pos c2]
        have : j - a.length = 0 := by omega
        rw [this]
        rfl
      · rw [if_neg c2]
        have h1 : ([v] : List Int)[j - a.length]? = none := by
          apply List.getElem?_eq_none
          simp
          omega
        have h2 : a[j]? = none := List.getElem?_eq_none (by omega)
        rw [h1, h2]

theorem countNot_succ (c : List Int) (b : Int) (m : Nat) :
    ((List.range (m + 1)).filter fun s => decide (arrGet c s ≠ b)).length
      = ((List.range m).filter fun s => decide (arrGet c s ≠ b)).length
        + (if arrGet c m ≠ b then 1 else 0) := by
  rw [List.range_succ, List.filter_append, List.length_append]
  by_cases e : arrGet c m ≠ b
  · simp [e]
  · simp [e]

theorem countNot_congr (c c1 : List Int) (b : Int) (m : Nat)
    (h : ∀ s, s < m → arrGet c1 s = arrGet c s) :
    ((List.range m).filter fun s => decide (arrGet c1 s ≠ b)).length
      = ((List.range m).filter fun s => decide (arrGet c s ≠ b)).length := by
  congr 1
  apply List.filter_congr
  intro x hx
  rw [h x (List.mem_range.mp hx)]

theorem streamsOf_grant_length (h : Headstage) (n : Int)
    (hn : h.numStreams = n) (hc : n = 0 ∨ n = 1 ∨ n = 2) :
    (streamsOf h).length = n.toNat ∧ (countsOf h).length = n.toNat
      ∧ (h.isConnected = decide (n ≠ 0)) := by
  unfold streamsOf countsOf Headstage.isConnected
  rw [hn]
  rcases hc with e | e | e <;> subst e <;> simp

theorem filter_take_succ_set (l : List Headstage) (n : Nat) (x : Headstage)
    (hn : n < l.length) :
    (((l.set n x).take (n + 1)).filter Headstage.isConnected).length
      = ((l.take n).filter Headstage.isConnected).length
        + (if x.isConnected then 1 else 0) := by
  rw [take_succ_set l n x hn, List.filter_append, List.length_append]
  by_cases e : x.isConnected = true
  · simp [e]
  · simp [e]

theorem scanCount_step (K : Consts) (tmp : List Int) (orig : List Headstage)
    (a : DeviceThread.AssignAcc) (n : Nat) (hdis : streamsDisjoint orig)
    (htmp : ∀ p, 0 < arrGet tmp p → arrGet tmp p ≠ K.CHIP_ID_RHD2164_B)
    (hinv : ScanInv K tmp orig a n) (hcnt : ScanCount K a n)
    (hn : n < a.device.headstages.length) :
    ScanCount K (DeviceThread.assignSlot K tmp a n) (n + 1) := by
  have hget : a.device.headstages[n]? = some (a.device.headstages[n]) :=
    List.getElem?_eq_getElem hn
  generalize a.device.headstages[n] = h at hget
  have h0 := hinv.future n h (Nat.le_refl n) hget
  have hfree := (scanInv_free K tmp orig a n hdis hinv h hget).1
  obtain ⟨eH, eS, eN, eI, eC⟩ := assignSlot_step K tmp a n h hget h0 hfree
  obtain ⟨_, _, _, g3, _⟩ := grantTo_fields h
    (granted K (arrGet tmp n) a.device.enabledStreams.length)
    a.device.getNumElectrodeOutputs a.device.enabledStreams.length
  have hcases := granted_cases K (arrGet tmp n) a.device.enabledStreams.length
  have hpos := granted_pos K (arrGet tmp n) a.device.enabledStreams.length
  generalize granted K (arrGet tmp n) a.device.enabledStreams.length = gr
    at eH eS eN eI eC g3 hcases hpos
  have hc3 : gr.1 = 0 ∨ gr.1 = 1 ∨ gr.1 = 2 := by
    rcases hcases with e | e | e
    · exact Or.inl e
    · exact Or.inr (Or.inl e.1)
    · exact Or.inr (Or.inr e.1)
  obtain ⟨s1, s2, s3⟩ := streamsOf_grant_length _ gr.1 g3 hc3
  generalize grantTo h gr a.device.getNumElectrodeOutputs a.device.enabledStreams.length = g
    at eH eS eN g3 s1 s2 s3
  have hidx := hcnt.idx
  have hlen := hcnt.chipLen
  constructor
  · rw [eN, eH, take_succ_set _ _ _ hn, List.flatMap_append, hcnt.counts]
    simp
  · rw [eI, eS, List.length_append, s1, hidx]
  · rw [eI, eC]
    rcases hc3 with e | e | e
    · rw [if_pos e, e]
      simpa using hlen
    · rw [if_neg (by omega), if_pos e, e]
      have := (arrSet_le_length a.device.chipId a.chipIdx (arrGet tmp n) hlen).1
      simpa using this
    · rw [if_neg (by omega), if_neg (by omega), e]
      have h1 := (arrSet_le_length a.device.chipId a.chipIdx (arrGet tmp n) hlen).1
      have h2 := (arrSet_le_length (arrSet a.device.chipId a.chipIdx (arrGet tmp n))
        (a.chipIdx + 1) K.CHIP_ID_RHD2164_B (by omega)).1
      have e2 : (2 : Int).toNat = 2 := rfl
      rw [e2]
      omega
  · rw [eI, eC, eH, filter_take_succ_set _ _ _ hn, s3, ← hcnt.aux]
    rcases hc3 with e | e | e
    · rw [if_pos e, e]
      simp
    · rw [if_neg (by omega), if_pos e, e]
      have hne : arrGet tmp n ≠ K.CHIP_ID_RHD2164_B := htmp n (hpos (by omega)).1
      have e1 : (1 : Int).toNat = 1 := rfl
      rw [e1, countNot_succ, arrGet_arrSet_le _ _ _ hlen, if_pos rfl,
        countNot_congr a.device.chipId _ _ a.chipIdx
          (fun s hs => by rw [arrGet_arrSet_le _ _ _ hlen, if_neg (by omega)])]
      simp [hne]
    · rw [if_neg (by omega), if_neg (by omega), e]
      have hne : arrGet tmp n ≠ K.CHIP_ID_RHD2164_B := htmp n (hpos (by omega)).1
      have h1 := (arrSet_le_length a.device.chipId a.chipIdx (arrGet tmp n) hlen).1
      have e2 : a.chipIdx + (2 : Int).toNat = (a.chipIdx + 1) + 1 := rfl
      have q1 : arrGet (arrSet (arrSet a.device.chipId (a.chipIdx : Int) (arrGet tmp n))
          ((a.chipIdx + 1 : Nat) : Int) K.CHIP_ID_RHD2164_B) (a.chipIdx + 1)
          = K.CHIP_ID_RHD2164_B := by
        rw [arrGet_arrSet_le _ (a.chipIdx + 1) _ (by omega), if_pos rfl]
      have q0 : arrGet (arrSet (arrSet a.device.chipId (a.chipIdx : Int) (arrGet tmp n))
          ((a.chipIdx + 1 : Nat) : Int) K.CHIP_ID_RHD2164_B) a.chipIdx = arrGet tmp n := by
        rw [arrGet_arrSet_le _ (a.chipIdx + 1) _ (by omega), if_neg (by omega),
          arrGet_arrSet_le _ _ _ hlen, if_pos rfl]
      rw [e2, countNot_succ, countNot_succ, q1, q0,
        countNot_congr a.device.chipId _ _ a.chipIdx
          (fun s hs => by
            rw [arrGet_arrSet_le _ (a.chipIdx + 1) _ (by omega), if_neg (by omega),
              arrGet_arrSet_le _ _ _ hlen, if_neg (by omega)])]
      simp [hne]

theorem assignState_succ (K : Consts) (d : DeviceThread) (blocks : Nat → DataBlock)
    (n : Nat) :
    assignState K d blocks (n + 1)
      = DeviceThread.assignSlot K (sweep K blocks d.headstages.length).tmpChipId
          (assignState K d blocks n) n := by
  unfold assignState
  rw [List.range_succ, List.foldl_append]
  rfl

theorem assignState_inv (K : Consts) (d : DeviceThread) (blocks : Nat → DataBlock)
    (hdis : streamsDisjoint d.headstages) :
    ∀ n, n ≤ d.headstages.length →
      ScanInv K (sweep K blocks d.headstages.length).tmpChipId d.headstages
          (assignState K d blocks n) n
        ∧ (assignState K d blocks n).device.headstages.length = d.headstages.length := by
  intro n
  induction n with
  | zero =>
    intro _
    refine ⟨?_, ?_⟩
    · constructor
      · intro p h hh
        have hh' : (d.headstages.map fun h => { h with numStreams := 0 })[p]? = some h := hh
        rw [List.getElem?_map] at hh'
        cases ho : d.headstages[p]? with
        | none => rw [ho] at hh'; exact absurd hh' (by simp)
        | some o =>
          rw [ho] at hh'
          have e : ({ o with numStreams := 0 } : Headstage) = h := Option.some.inj hh'
          subst e
          exact ⟨o, rfl, rfl, rfl, rfl⟩
      · intro p h _ hh
        have hh' : (d.headstages.map fun h => { h with numStreams := 0 })[p]? = some h := hh
        rw [List.getElem?_map] at hh'
        cases ho : d.headstages[p]? with
        | none => rw [ho] at hh'; exact absurd hh' (by simp)
        | some o =>
          rw [ho] at hh'
          have e : ({ o with numStreams := 0 } : Headstage) = h := Option.some.inj hh'
          subst e
          rfl
      · rfl
      · intro p h hp
        exact absurd hp (Nat.not_lt_zero p)
    · exact List.length_map _ _
  | succ m ih =>
    intro hm
    obtain ⟨hinv, hl⟩ := ih (by omega)
    have hlt : m < (assignState K d blocks m).device.headstages.length := by omega
    rw [assignState_succ]
    refine ⟨scanInv_step K _ _ _ m hdis hinv hlt, ?_⟩
    have hget : (assignState K d blocks m).device.headstages[m]?
        = some ((assignState K d blocks m).device.headstages[m]) :=
      List.getElem?_eq_getElem hlt
    have h0 := hinv.future m _ (Nat.le_refl m) hget
    have hfree := (scanInv_free K _ _ _ m hdis hinv _ hget).1
    rw [(assignSlot_step K _ _ m _ hget h0 hfree).1, List.length_set, hl]

theorem assignState_count (K : Consts) (d : DeviceThread) (blocks : Nat → DataBlock)
    (hdis : streamsDisjoint d.headstages)
    (hB : ¬ isChipId K K.CHIP_ID_RHD2164_B) (hnum : d.numChannelsPerDataStream = []) :
    ∀ n, n ≤ d.headstages.length → ScanCount K (assignState K d blocks n) n := by
  intro n
  induction n with
  | zero =>
    intro _
    constructor
    · exact hnum
    · rfl
    · exact Nat.zero_le _
    · rfl
  | succ m ih =>
    intro hm
    obtain ⟨hinv, hl⟩ := assignState_inv K d blocks hdis m (by omega)
    rw [assignState_succ]
    refine scanCount_step K _ d.headstages _ m hdis ?_ hinv (ih (by omega)) (by omega)
    intro p hp e
    exact hB (e ▸ sweep_tmp_pos K blocks d.headstages.length p hp)

theorem assignState_take (K : Consts) (d : DeviceThread) (blocks : Nat → DataBlock)
    (hdis : streamsDisjoint d.headstages) (p : Nat) :
    ∀ n, p ≤ n → n ≤ d.headstages.length →
      (assignState K d blocks n).device.headstages.take p
        = (assignState K d blocks p).device.headstages.take p := by
  intro n hpn
  induction n, hpn using Nat.le_induction with
  | base => intro _; rfl
  | succ m hpm ih =>
    intro hm
    obtain ⟨hinv, hl⟩ := assignState_inv K d blocks hdis m (by omega)
    have hlt : m < (assignState K d blocks m).device.headstages.length := by omega
    have hget : (assignState K d blocks m).device.headstages[m]?
        = some ((assignState K d blocks m).device.headstages[m]) :=
      List.getElem?_eq_getElem hlt
    have h0 := hinv.future m _ (Nat.le_refl m) hget
    have hfree := (scanInv_free K _ _ _ m hdis hinv _ hget).1
    rw [assignState_succ, (assignSlot_step K _ _ m _ hget h0 hfree).1,
      take_set_of_le _ _ _ _ hpm, ih (by omega)]

theorem scanPorts_fields (K : Consts) (d : DeviceThread) (blocks : Nat → DataBlock)
    (hfound : d.deviceFound = true) :
    (d.scanPorts K blocks).headstages
        = (assignState K d blocks d.headstages.length).device.headstages
    ∧ (d.scanPorts K blocks).enabledStreams
        = (assignState K d blocks d.headstages.length).device.enabledStreams
    ∧ (d.scanPorts K blocks).numChannelsPerDataStream
        = (assignState K d blocks d.headstages.length).device.numChannelsPerDataStream
    ∧ (d.scanPorts K blocks).chipId
        = (assignState K d blocks d.headstages.length).device.chipId := by
  have hc : ¬ ((!d.deviceFound) = true) := by
    rw [hfound]
    decide
  unfold DeviceThread.scanPorts
  rw [if_neg hc]
  unfold assignState DeviceThread.setSampleRate DeviceThread.updateBoardStreams
  dsimp only
  refine ⟨?_, ?_, ?_, ?_⟩ <;> (split <;> rfl)

/-! ## The chip id recorded for a slot -/

theorem sweepSlot_tmp_view (K : Consts) (dataBlock : DataBlock) (delay : Nat) (acc : SweepAcc)
    (hs L : Nat) (hL : sweepLengths acc L) (hlt : hs < L)
    (hacc : ∀ s, s < L →
      (arrGet acc.indexFirstGoodDelay s = -1 → arrGet acc.tmpChipId s = -1)
      ∧ (arrGet acc.indexFirstGoodDelay s ≠ -1 → isChipId K (arrGet acc.tmpChipId s))) :
    ∀ s, s < L →
      (arrGet (sweepSlot K dataBlock delay acc hs).indexFirstGoodDelay s = -1 →
        arrGet (sweepSlot K dataBlock delay acc hs).tmpChipId s = -1)
      ∧ (arrGet (sweepSlot K dataBlock delay acc hs).indexFirstGoodDelay s ≠ -1 →
        isChipId K (arrGet (sweepSlot K dataBlock delay acc hs).tmpChipId s)) := by
  obtain ⟨l1, l2, l3, l4⟩ := hL
  intro s hs'
  unfold sweepSlot
  cases hg : goodDeviceId K (getDeviceId dataBlock hs)
  · simp only [hg, Bool.false_eq_true, if_false]
    exact hacc s hs'
  · have hid := goodDeviceId_isChipId K _ hg
    simp only [hg, if_true]
    by_cases h1 : arrGet acc.indexFirstGoodDelay hs = -1
    · simp only [h1, if_true]
      rw [arrGet_arrSet _ _ _ (show hs < acc.indexFirstGoodDelay.length by omega),
        arrGet_arrSet _ _ _ (show hs < acc.tmpChipId.length by omega)]
      by_cases e : s = hs
      · rw [if_pos e, if_pos e]
        exact ⟨fun h => by omega, fun _ => hid⟩
      · rw [if_neg e, if_neg e]
        exact hacc s hs'
    · simp only [h1, if_false]
      by_cases h2 : arrGet acc.indexSecondGoodDelay hs = -1
      · simp only [h2, if_true]
        rw [arrGet_arrSet _ _ _ (show hs < acc.tmpChipId.length by omega)]
        by_cases e : s = hs
        · rw [if_pos e, e]
          exact ⟨fun h => absurd h h1, fun _ => hid⟩
        · rw [if_neg e]
          exact hacc s hs'
      · simp only [h2, if_false]
        exact hacc s hs'

theorem sweepDelay_tmp_view (K : Consts) (blocks : Nat → DataBlock) (delay L : Nat)
    (l : List Nat) (hl : ∀ x, x ∈ l → x < L) :
    ∀ acc : SweepAcc, sweepLengths acc L →
      (∀ s, s < L →
        (arrGet acc.indexFirstGoodDelay s = -1 → arrGet acc.tmpChipId s = -1)
        ∧ (arrGet acc.indexFirstGoodDelay s ≠ -1 → isChipId K (arrGet acc.tmpChipId s))) →
      sweepLengths (l.foldl (sweepSlot K (blocks delay) delay) acc) L
      ∧ ∀ s, s < L →
        (arrGet (l.foldl (sweepSlot K (blocks delay) delay) acc).indexFirstGoodDelay s = -1 →
          arrGet (l.foldl (sweepSlot K (blocks delay) delay) acc).tmpChipId s = -1)
        ∧ (arrGet (l.foldl (sweepSlot K (blocks delay) delay) acc).indexFirstGoodDelay s ≠ -1 →
          isChipId K (arrGet (l.foldl (sweepSlot K (blocks delay) delay) acc).tmpChipId s)) := by
  induction l with
  | nil => intro acc hL h; exact ⟨hL, h⟩
  | cons a t ih =>
    intro acc hL h
    have ha : a < L := hl a (List.mem_cons_self a t)
    exact ih (fun x hx => hl x (List.mem_cons_of_mem a hx)) _
      (sweepSlot_spec K (blocks delay) delay acc a L hL ha).1
      (sweepSlot_tmp_view K (blocks delay) delay acc a L hL ha h)

theorem sweepFold_tmp_view (K : Consts) (blocks : Nat → DataBlock) (L numHs : Nat)
    (hn : numHs ≤ L) (ds : List Nat) :
    ∀ acc : SweepAcc, sweepLengths acc L →
      (∀ s, s < L →
        (arrGet acc.indexFirstGoodDelay s = -1 → arrGet acc.tmpChipId s = -1)
        ∧ (arrGet acc.indexFirstGoodDelay s ≠ -1 → isChipId K (arrGet acc.tmpChipId s))) →
      sweepLengths (ds.foldl (sweepDelay K blocks numHs) acc) L
      ∧ ∀ s, s < L →
        (arrGet (ds.foldl (sweepDelay K blocks numHs) acc).indexFirstGoodDelay s = -1 →
          arrGet (ds.foldl (sweepDelay K blocks numHs) acc).tmpChipId s = -1)
        ∧ (arrGet (ds.foldl (sweepDelay K blocks numHs) acc).indexFirstGoodDelay s ≠ -1 →
          isChipId K (arrGet (ds.foldl (sweepDelay K blocks numHs) acc).tmpChipId s)) := by
  induction ds with
  | nil => intro acc hL h; exact ⟨hL, h⟩
  | cons a t ih =>
    intro acc hL h
    obtain ⟨h1, h2⟩ := sweepDelay_tmp_view K blocks a L (List.range numHs)
      (fun x hx => by have := List.mem_range.mp hx; omega) acc hL h
    exact ih _ h1 h2

/-- The chip id the sweep leaves for a slot: `-1` when no delay gave a valid match, one
of the three accepted chip ids otherwise. -/
theorem sweep_tmp_view (K : Consts) (blocks : Nat → DataBlock) (numHs s : Nat)
    (hn : numHs ≤ K.MAX_NUM_DATA_STREAMS / 2) (hs : s < numHs) :
    (hitList K blocks s = [] → arrGet (sweep K blocks numHs).tmpChipId s = -1)
    ∧ (hitList K blocks s ≠ [] → isChipId K (arrGet (sweep K blocks numHs).tmpChipId s)) := by
  have hv := sweep_view K blocks numHs s hn hs
  have hfirst : arrGet (sweep K blocks numHs).indexFirstGoodDelay s
      = (viewOfHits (hitList K blocks s)).first := by
    rw [← hv]
    rfl
  have h0 : sweepLengths
      { sumGoodDelays := List.replicate (K.MAX_NUM_DATA_STREAMS / 2) 0,
        indexFirstGoodDelay := List.replicate (K.MAX_NUM_DATA_STREAMS / 2) (-1),
        indexSecondGoodDelay := List.replicate (K.MAX_NUM_DATA_STREAMS / 2) (-1),
        tmpChipId := List.replicate (K.MAX_NUM_DATA_STREAMS / 2) (-1) }
      (K.MAX_NUM_DATA_STREAMS / 2) := by
    unfold sweepLengths
    simp
  obtain ⟨_, hq⟩ := sweepFold_tmp_view K blocks (K.MAX_NUM_DATA_STREAMS / 2) numHs hn
    (List.range 16) _ h0 (by
      intro x hx
      dsimp only
      rw [arrGet_replicate _ _ _ hx]
      exact ⟨fun _ => rfl, fun h => absurd rfl h⟩)
  have hq' := hq s (by omega)
  have e : (List.range 16).foldl (sweepDelay K blocks numHs)
      { sumGoodDelays := List.replicate (K.MAX_NUM_DATA_STREAMS / 2) 0,
        indexFirstGoodDelay := List.replicate (K.MAX_NUM_DATA_STREAMS / 2) (-1),
        indexSecondGoodDelay := List.replicate (K.MAX_NUM_DATA_STREAMS / 2) (-1),
        tmpChipId := List.replicate (K.MAX_NUM_DATA_STREAMS / 2) (-1) }
      = sweep K blocks numHs := rfl
  rw [e, hfirst] at hq'
  constructor
  · intro hnil
    apply hq'.1
    rw [hnil]
    rfl
  · intro hne
    apply hq'.2
    cases hh : hitList K blocks s with
    | nil => exact absurd hh hne
    | cons a t =>
      show ((a : Nat) : Int) ≠ -1
      omega

/-! ## C26: outcome of the port scan, slot by slot -/

theorem scanInv_absent (K : Consts) (tmp : List Int) (orig : List Headstage)
    (a : DeviceThread.AssignAcc) (n : Nat) (hdis : streamsDisjoint orig)
    (hinv : ScanInv K tmp orig a n) (p : Nat) (h : Headstage)
    (hget : a.device.headstages[p]? = some h) (h0 : h.numStreams = 0) :
    h.dataStream0 ∉ a.device.enabledStreams ∧ h.dataStream1 ∉ a.device.enabledStreams := by
  obtain ⟨o, ho, e0, e1, _⟩ := hinv.same p h hget
  have key : ∀ x, x ∈ a.device.enabledStreams → x ≠ h.dataStream0 ∧ x ≠ h.dataStream1 := by
    intro x hx
    rw [hinv.streams] at hx
    obtain ⟨q, hq, hqget, hqn0, hxq⟩ := mem_flatMap_streamsOf _ x hx
    have hqn : q < n := by
      have hlt := (List.getElem?_eq_some_iff.mp hqget).1
      rw [List.length_take] at hlt
      omega
    rw [List.getElem?_take_of_lt hqn] at hqget
    have hqp : q ≠ p := by
      intro e
      rw [e, hget] at hqget
      exact hqn0 ((Option.some.inj hqget) ▸ h0)
    obtain ⟨oq, hoq, f0, f1, _⟩ := hinv.same q hq hqget
    obtain ⟨d00, d01, d10, d11⟩ := hdis q p oq o hoq ho hqp
    rw [e0, e1]
    rcases hxq with e | e
    · rw [e, f0]; exact ⟨d00, d01⟩
    · rw [e, f1]; exact ⟨d10, d11⟩
  exact ⟨fun hm => (key _ hm).1 rfl, fun hm => (key _ hm).2 rfl⟩

theorem exampleDevice_disjoint : streamsDisjoint exampleDevice.headstages := by
  intro p q hp hq h1 h2 hpq
  have e1 : ((List.range 16).map exampleHeadstage)[p]? = some hp := h1
  have e2 : ((List.range 16).map exampleHeadstage)[q]? = some hq := h2
  rw [List.getElem?_map] at e1 e2
  have hp16 : p < 16 := by
    by_contra hc
    rw [List.getElem?_eq_none (by simp; omega)] at e1
    simp at e1
  have hq16 : q < 16 := by
    by_contra hc
    rw [List.getElem?_eq_none (by simp; omega)] at e2
    simp at e2
  rw [List.getElem?_range hp16] at e1
  rw [List.getElem?_range hq16] at e2
  have f1 : exampleHeadstage p = hp := Option.some.inj e1
  have f2 : exampleHeadstage q = hq := Option.some.inj e2
  subst f1
  subst f2
  unfold exampleHeadstage
  dsimp only
  refine ⟨?_, ?_, ?_, ?_⟩ <;> omega

/-- C26: after `scanPorts` on a controller whose board was found (slots with different
stream indices, no more slots than the sweep arrays hold, chip ids 1, 2 and 4 for
RHD2132, RHD2216 and RHD2164), the enabled streams are those of the slots in slot order;
the streams enabled when slot `p` is processed are those the lower slots hold at the end;
a slot without a valid match at any of the 16 delays has stream count 0 and neither of
its stream indices is enabled; a slot with a valid match that is processed while fewer
than `MAX_NUM_DATA_STREAMS` streams are enabled has one of the three chip ids recorded,
starts at the next free position of the enabled-stream list and has 1 stream of 32
channels for RHD2132, 1 stream of 16 channels for RHD2216, and for RHD2164 2 streams of
32 channels when two streams are free and 1 stream of 32 channels when one is. -/
theorem scanPorts_slot_outcome (K : Consts) (d : DeviceThread) (blocks : Nat → DataBlock)
    (hfound : d.deviceFound = true) (hdis : streamsDisjoint d.headstages)
    (hlen : d.headstages.length ≤ K.MAX_NUM_DATA_STREAMS / 2)
    (h32 : K.CHIP_ID_RHD2132 = 1) (h16 : K.CHIP_ID_RHD2216 = 2)
    (h64 : K.CHIP_ID_RHD2164 = 4) :
    (d.scanPorts K blocks).enabledStreams
        = (d.scanPorts K blocks).headstages.flatMap streamsOf
    ∧ ∀ (p : Nat) (h : Headstage), (d.scanPorts K blocks).headstages[p]? = some h →
        (assignState K d blocks p).device.enabledStreams.length
            = streamsBelow (d.scanPorts K blocks).headstages p
        ∧ (hitList K blocks p = [] →
            h.numStreams = 0 ∧ h.dataStream0 ∉ (d.scanPorts K blocks).enabledStreams
              ∧ h.dataStream1 ∉ (d.scanPorts K blocks).enabledStreams)
        ∧ (hitList K blocks p ≠ [] →
            (assignState K d blocks p).device.enabledStreams.length
              < K.MAX_NUM_DATA_STREAMS →
            isChipId K (arrGet (sweep K blocks d.headstages.length).tmpChipId p)
            ∧ h.streamIndex
                = ((assignState K d blocks p).device.enabledStreams.length : Int)
            ∧ (arrGet (sweep K blocks d.headstages.length).tmpChipId p = K.CHIP_ID_RHD2132 →
                h.numStreams = 1 ∧ h.channelsPerStream = 32)
            ∧ (arrGet (sweep K blocks d.headstages.length).tmpChipId p = K.CHIP_ID_RHD2216 →
                h.numStreams = 1 ∧ h.channelsPerStream = 16)
            ∧ (arrGet (sweep K blocks d.headstages.length).tmpChipId p = K.CHIP_ID_RHD2164 →
                ((assignState K d blocks p).device.enabledStreams.length + 1
                    < K.MAX_NUM_DATA_STREAMS →
                  h.numStreams = 2 ∧ h.channelsPerStream = 32)
                ∧ ((assignState K d blocks p).device.enabledStreams.length + 1
                    = K.MAX_NUM_DATA_STREAMS →
                  h.numStreams = 1 ∧ h.channelsPerStream = 32))) := by
  obtain ⟨fH, fS, _, _⟩ := scanPorts_fields K d blocks hfound
  obtain ⟨hinv, hl⟩ := assignState_inv K d blocks hdis d.headstages.length (Nat.le_refl _)
  have htake : (assignState K d blocks d.headstages.length).device.headstages.take
      d.headstages.length = (assignState K d blocks d.headstages.length).device.headstages := by
    apply List.take_of_length_le
    omega
  rw [fH, fS]
  constructor
  · have := hinv.streams
    rw [htake] at this
    exact this
  · intro p h hget
    have hp : p < d.headstages.length := by
      have := (List.getElem?_eq_some_iff.mp hget).1
      omega
    have hbelow : (assignState K d blocks p).device.enabledStreams.length
        = streamsBelow (assignState K d blocks d.headstages.length).device.headstages p := by
      obtain ⟨hinvp, _⟩ := assignState_inv K d blocks hdis p (by omega)
      rw [hinvp.streams]
      unfold streamsBelow
      rw [assignState_take K d blocks hdis p d.headstages.length (by omega) (Nat.le_refl _)]
    obtain ⟨o1, o2⟩ := hinv.outcome p h hp hget
    obtain ⟨t1, t2⟩ := sweep_tmp_view K blocks d.headstages.length p hlen hp
    rw [← hbelow] at o1 o2
    refine ⟨hbelow, ?_, ?_⟩
    · intro hnil
      have e := t1 hnil
      have h0 : h.numStreams = 0 := by
        rw [o1, e]
        unfold granted
        rw [if_neg (by omega)]
      exact ⟨h0, scanInv_absent K _ _ _ _ hdis hinv p h hget h0⟩
    · intro hne hfree
      have hid := t2 hne
      have hposid : 0 < arrGet (sweep K blocks d.headstages.length).tmpChipId p := by
        rcases hid with e | e | e <;> omega
      have hg : granted K (arrGet (sweep K blocks d.headstages.length).tmpChipId p)
          (assignState K d blocks p).device.enabledStreams.length
          = if arrGet (sweep K blocks d.headstages.length).tmpChipId p = K.CHIP_ID_RHD2164 then
              (if ((assignState K d blocks p).device.enabledStreams.length : Int)
                  < (K.MAX_NUM_DATA_STREAMS : Int) - 1 then (2, 32) else (1, 32))
            else (1, if arrGet (sweep K blocks d.headstages.length).tmpChipId p = 1
              then 32 else 16) := by
        unfold granted
        rw [if_pos ⟨hposid, hfree⟩]
      rw [hg] at o1 o2
      have hn0 : h.numStreams ≠ 0 := by
        rw [o1]
        split
        · split <;> simp
        · simp
      obtain ⟨o3, o4⟩ := o2 hn0
      refine ⟨hid, o4, ?_, ?_, ?_⟩
      · intro e
        rw [if_neg (by omega)] at o1 o3
        rw [if_pos (by omega)] at o3
        exact ⟨o1, o3⟩
      · intro e
        rw [if_neg (by omega)] at o1 o3
        rw [if_neg (by omega)] at o3
        exact ⟨o1, o3⟩
      · intro e
        rw [if_pos e] at o1 o3
        constructor
        · intro hf
          rw [if_pos (by omega)] at o1 o3
          exact ⟨o1, o3⟩
        · intro hf
          rw [if_neg (by omega)] at o1 o3
          exact ⟨o1, o3⟩

theorem scanPorts_slot_outcome_witness :
    (exampleDevice.scanPorts exampleConsts exampleScanBlocks).enabledStreams
        = (exampleDevice.scanPorts exampleConsts exampleScanBlocks).headstages.flatMap
            streamsOf
    ∧ (exampleDevice.scanPorts exampleConsts exampleScanBlocks).enabledStreams = [0]
    ∧ hitList exampleConsts exampleScanBlocks 0 = [3, 4, 5, 6]
    ∧ hitList exampleConsts exampleScanBlocks 1 = [] :=
  ⟨(scanPorts_slot_outcome exampleConsts exampleDevice exampleScanBlocks rfl
      exampleDevice_disjoint (by decide) rfl rfl rfl).1, by decide, by decide, by decide⟩

/-! ## Channel count toggles keep the stream tables and the registry in agreement -/

theorem sameButFirst_fields (h h1 : Headstage) (r : sameButFirst h h1) :
    h1.numStreams = h.numStreams ∧ h1.channelsPerStream = h.channelsPerStream
    ∧ h1.halfChannels = h.halfChannels ∧ h1.streamIndex = h.streamIndex
    ∧ h1.isConnected = h.isConnected ∧ h1.getNumChannels = h.getNumChannels
    ∧ h1.getNumActiveChannels = h.getNumActiveChannels := by
  unfold sameButFirst at r
  rw [r]
  exact ⟨rfl, rfl, rfl, rfl, rfl, rfl, rfl⟩

theorem assignFirstChannels_rel (l : List Headstage) :
    ∀ c : Int, List.Forall₂ sameButFirst l (DeviceThread.assignFirstChannels c l) := by
  induction l with
  | nil =>
    intro c
    unfold DeviceThread.assignFirstChannels
    exact List.Forall₂.nil
  | cons hd tl ih =>
    intro c
    unfold DeviceThread.assignFirstChannels
    split
    · exact List.Forall₂.cons rfl (ih _)
    · exact List.Forall₂.cons rfl (ih _)

theorem rel_activeSum (l l1 : List Headstage) (r : List.Forall₂ sameButFirst l l1) :
    activeSum l1 = activeSum l
    ∧ (l1.filter Headstage.isConnected).length = (l.filter Headstage.isConnected).length := by
  induction r with
  | nil => exact ⟨rfl, rfl⟩
  | cons hr _ ih =>
    obtain ⟨_, _, _, _, c, _, a⟩ := sameButFirst_fields _ _ hr
    rw [activeSum_cons, activeSum_cons, ih.1, c, a]
    refine ⟨rfl, ?_⟩
    rw [List.filter_cons, List.filter_cons, c]
    split
    · rw [List.length_cons, List.length_cons, ih.2]
    · exact ih.2

theorem rel_getElem? (l l1 : List Headstage) (r : List.Forall₂ sameButFirst l l1) :
    ∀ (p : Nat) (h1 : Headstage), l1[p]? = some h1 →
      ∃ h, l[p]? = some h ∧ sameButFirst h h1 := by
  induction r with
  | nil =>
    intro p h1 hh
    simp at hh
  | cons hr _ ih =>
    intro p h1 hh
    cases p with
    | zero =>
      simp only [List.getElem?_cons_zero] at hh ⊢
      exact ⟨_, rfl, (Option.some.inj hh) ▸ hr⟩
    | succ p =>
      simp only [List.getElem?_cons_succ] at hh ⊢
      exact ih p h1 hh

theorem countsAgree_of_rel (K : Consts) (d : DeviceThread) (l1 : List Headstage)
    (hinv : CountsAgree K d) (r : List.Forall₂ sameButFirst d.headstages l1) :
    CountsAgree K { d with headstages := l1 } := by
  obtain ⟨ra, rf⟩ := rel_activeSum _ _ r
  have rg := rel_getElem? _ _ r
  constructor
  · exact hinv.len
  · exact hinv.nonneg
  · exact hinv.total.trans ra.symm
  · intro h1 hm
    obtain ⟨p, hp⟩ := List.mem_iff_getElem?.mp hm
    obtain ⟨h, hh, hr⟩ := rg p h1 hp
    rw [(sameButFirst_fields _ _ hr).1]
    exact hinv.streamsNonneg h (List.mem_iff_getElem?.mpr ⟨p, hh⟩)
  · intro p h1 hp h32
    obtain ⟨h, hh, hr⟩ := rg p h1 hp
    obtain ⟨_, _, _, f4, _, f6, f7⟩ := sameButFirst_fields _ _ hr
    rw [f4, f7]
    exact hinv.pos p h hh (f6 ▸ h32)
  · intro p q hp hq hpq gp gq cp cq
    obtain ⟨h, hh, hr⟩ := rg p hp gp
    obtain ⟨k, hk, kr⟩ := rg q hq gq
    obtain ⟨_, _, _, f4, _, f6, _⟩ := sameButFirst_fields _ _ hr
    obtain ⟨_, _, _, k4, _, k6, _⟩ := sameButFirst_fields _ _ kr
    rw [f4, k4]
    exact hinv.dist p q h k hpq hh hk (f6 ▸ cp) (k6 ▸ cq)
  · exact hinv.aux.trans rf.symm

theorem sum_set_int (l : List Int) (i : Nat) (v : Int) (hi : i < l.length) :
    (l.set i v).sum = l.sum - arrGet l i + v := by
  induction l generalizing i with
  | nil => simp at hi
  | cons a t ih =>
    cases i with
    | zero =>
      simp only [List.set_cons_zero, List.sum_cons, arrGet, List.getD_cons_zero]
      ring
    | succ i =>
      have := ih i (by simpa using hi)
      simp only [List.set_cons_succ, List.sum_cons, this]
      unfold arrGet
      simp only [List.getD_cons_succ]
      ring

theorem activeSum_set (l : List Headstage) (n : Nat) (h x : Headstage)
    (hget : l[n]? = some h) :
    activeSum (l.set n x)
      = activeSum l - (if h.isConnected then h.getNumActiveChannels else 0)
        + (if x.isConnected then x.getNumActiveChannels else 0) := by
  induction l generalizing n with
  | nil => simp at hget
  | cons a t ih =>
    cases n with
    | zero =>
      simp only [List.getElem?_cons_zero] at hget
      have e : a = h := Option.some.inj hget
      subst e
      rw [List.set_cons_zero, activeSum_cons, activeSum_cons]
      ring
    | succ n =>
      simp only [List.getElem?_cons_succ] at hget
      rw [List.set_cons_succ, activeSum_cons, activeSum_cons, ih n hget]
      ring

theorem filter_set_connected (l : List Headstage) (n : Nat) (h x : Headstage)
    (hget : l[n]? = some h) (hc : x.isConnected = h.isConnected) :
    ((l.set n x).filter Headstage.isConnected).length
      = (l.filter Headstage.isConnected).length := by
  induction l generalizing n with
  | nil => simp at hget
  | cons a t ih =>
    cases n with
    | zero =>
      simp only [List.getElem?_cons_zero] at hget
      have e : a = h := Option.some.inj hget
      subst e
      rw [List.set_cons_zero, List.filter_cons, List.filter_cons, hc]
      split <;> rfl
    | succ n =>
      simp only [List.getElem?_cons_succ] at hget
      rw [List.set_cons_succ, List.filter_cons, List.filter_cons]
      split
      · rw [List.length_cons, List.length_cons, ih n hget]
      · exact ih n hget

theorem setHalf_agree (K : Consts) (d : DeviceThread) (hsNum : Nat) (v : Int)
    (hv : v = 16 ∨ v = 32) (hinv : CountsAgree K d) (h : Headstage)
    (hget : d.headstages[hsNum]? = some h) (c : h.getNumChannels = 32) :
    CountsAgree K
      { d with
        headstages := d.headstages.set hsNum
          { h with halfChannels := decide (v < h.getNumChannels) },
        numChannelsPerDataStream :=
          arrSet d.numChannelsPerDataStream
            (({ h with halfChannels := decide (v < h.getNumChannels) } : Headstage).getStreamIndex
              0) v } := by
  obtain ⟨p0, p1, p2⟩ := hinv.pos hsNum h hget c
  have hlt : hsNum < d.headstages.length := (List.getElem?_eq_some_iff.mp hget).1
  have hidx : ({ h with halfChannels := decide (v < h.getNumChannels) } : Headstage).getStreamIndex
      0 = ((h.streamIndex.toNat : Nat) : Int) := by
    unfold Headstage.getStreamIndex
    dsimp only
    omega
  rw [hidx, arrSet_nat, if_pos p1]
  have hact : ({ h with halfChannels := decide (v < h.getNumChannels) }
      : Headstage).getNumActiveChannels = v := by
    unfold Headstage.getNumActiveChannels
    have e : ({ h with halfChannels := decide (v < h.getNumChannels) }
        : Headstage).getNumChannels = 32 := c
    rw [e]
    dsimp only
    rw [c]
    rcases hv with e | e <;> subst e <;> decide
  have hconn : h.isConnected = true := by
    have h0 := hinv.streamsNonneg h (List.mem_iff_getElem?.mpr ⟨hsNum, hget⟩)
    unfold Headstage.getNumChannels at c
    unfold Headstage.isConnected
    have hne : h.numStreams ≠ 0 := by
      intro e
      rw [e] at c
      simp at c
    exact decide_eq_true (by omega)
  have key : ∀ (p : Nat) (x : Headstage),
      (d.headstages.set hsNum { h with halfChannels := decide (v < h.getNumChannels) })[p]?
        = some x →
      ∃ o, d.headstages[p]? = some o ∧ x.streamIndex = o.streamIndex
        ∧ x.getNumChannels = o.getNumChannels ∧ x.numStreams = o.numStreams
        ∧ (p ≠ hsNum → x = o)
        ∧ (p = hsNum → x = { h with halfChannels := decide (v < h.getNumChannels) }
            ∧ o = h) := by
    intro p x hx
    rw [getElem?_set_headstage _ _ _ _ hlt] at hx
    by_cases e : p = hsNum
    · rw [if_pos e] at hx
      have hx' := Option.some.inj hx
      subst hx'
      exact ⟨h, e ▸ hget, rfl, rfl, rfl, fun ne => absurd e ne, fun _ => ⟨rfl, rfl⟩⟩
    · rw [if_neg e] at hx
      exact ⟨x, hx, rfl, rfl, rfl, fun _ => rfl, fun e1 => absurd e1 e⟩
  constructor
  · show (d.numChannelsPerDataStream.set h.streamIndex.toNat v).length = _
    rw [List.length_set]
    exact hinv.len
  · intro x hx
    rcases List.mem_or_eq_of_mem_set hx with hm | he
    · exact hinv.nonneg x hm
    · rcases hv with e | e <;> omega
  · show (d.numChannelsPerDataStream.set h.streamIndex.toNat v).sum = activeSum (d.headstages.set _ _)
    rw [sum_set_int _ _ _ p1, activeSum_set _ _ h _ hget, hact, p2, hinv.total]
    have e : ({ h with halfChannels := decide (v < h.getNumChannels) } : Headstage).isConnected
        = h.isConnected := rfl
    rw [e, hconn]
    simp
  · intro x hx
    obtain ⟨p, hp⟩ := List.mem_iff_getElem?.mp hx
    obtain ⟨o, ho, _, _, e, _, _⟩ := key p x hp
    rw [e]
    exact hinv.streamsNonneg o (List.mem_iff_getElem?.mpr ⟨p, ho⟩)
  · intro p x hp h32
    obtain ⟨o, ho, e1, e2, _, e4, e5⟩ := key p x hp
    obtain ⟨q0, q1, q2⟩ := hinv.pos p o ho (e2 ▸ h32)
    show 0 ≤ x.streamIndex
      ∧ x.streamIndex.toNat < (d.numChannelsPerDataStream.set h.streamIndex.toNat v).length
      ∧ arrGet (d.numChannelsPerDataStream.set h.streamIndex.toNat v) x.streamIndex.toNat
          = x.getNumActiveChannels
    rw [List.length_set, e1]
    refine ⟨q0, q1, ?_⟩
    have hset : d.numChannelsPerDataStream.set h.streamIndex.toNat v
        = arrSet d.numChannelsPerDataStream ((h.streamIndex.toNat : Nat) : Int) v := by
      rw [arrSet_nat, if_pos p1]
    rw [hset, arrGet_arrSet _ _ _ p1]
    by_cases e : p = hsNum
    · obtain ⟨ex, eo⟩ := e5 e
      rw [eo, if_pos rfl, ex, hact]
    · have ex := e4 e
      have hd := hinv.dist p hsNum o h e ho hget (e2 ▸ h32) c
      rw [if_neg (by omega), ex, q2]
  · intro p q hp hq hpq gp gq cp cq
    obtain ⟨o, ho, e1, e2, _, _, _⟩ := key p hp gp
    obtain ⟨k, hk, k1, k2, _, _, _⟩ := key q hq gq
    rw [e1, k1]
    exact hinv.dist p q o k hpq ho hk (e2 ▸ cp) (k2 ▸ cq)
  · exact hinv.aux.trans (filter_set_connected d.headstages hsNum h
      { h with halfChannels := decide (v < h.getNumChannels) } hget rfl).symm

theorem setNumChannels_agree (K : Consts) (d : DeviceThread) (hsNum : Nat) (v : Int)
    (hv : v = 16 ∨ v = 32) (hinv : CountsAgree K d) :
    CountsAgree K (d.setNumChannels hsNum v) := by
  unfold DeviceThread.setNumChannels
  cases hget : d.headstages[hsNum]? with
  | none => exact hinv
  | some h =>
    dsimp only
    by_cases c : h.getNumChannels = 32
    · rw [if_pos c]
      exact countsAgree_of_rel K _ _ (setHalf_agree K d hsNum v hv hinv h hget c)
        (assignFirstChannels_rel _ 0)
    · rw [if_neg c]
      exact countsAgree_of_rel K d _ hinv (assignFirstChannels_rel _ 0)

theorem applyToggle_agree (K : Consts) (d : DeviceThread) (op : ToggleOp) (numHs : Nat)
    (hop : validToggle numHs op) (hinv : CountsAgree K d) :
    CountsAgree K (applyToggle d op) := by
  cases op with
  | setNumChannels hsNum numChannels =>
    exact setNumChannels_agree K d hsNum numChannels hop.2 hinv
  | enableAuxs t =>
    exact ⟨hinv.len, hinv.nonneg, hinv.total, hinv.streamsNonneg, hinv.pos, hinv.dist,
      hinv.aux⟩
  | enableAdcs t =>
    exact ⟨hinv.len, hinv.nonneg, hinv.total, hinv.streamsNonneg, hinv.pos, hinv.dist,
      hinv.aux⟩

theorem applyToggles_agree (K : Consts) (numHs : Nat) (ops : List ToggleOp) :
    ∀ d : DeviceThread, (∀ op, op ∈ ops → validToggle numHs op) → CountsAgree K d →
      CountsAgree K (applyToggles d ops) := by
  induction ops with
  | nil => intro d _ h; exact h
  | cons op t ih =>
    intro d hops h
    exact ih (applyToggle d op) (fun o ho => hops o (List.mem_cons_of_mem op ho))
      (applyToggle_agree K d op numHs (hops op (List.mem_cons_self op t)) h)

/-! ## Agreement after the first scan -/

theorem flatMap_counts_sum (l : List Headstage)
    (hl : ∀ h, h ∈ l →
      (h.numStreams = 0 ∨ h.numStreams = 1 ∨ h.numStreams = 2) ∧ h.halfChannels = false) :
    (l.flatMap countsOf).sum = activeSum l := by
  induction l with
  | nil => rfl
  | cons a t ih =>
    obtain ⟨hn, hh⟩ := hl a (List.mem_cons_self a t)
    rw [List.flatMap_cons, List.sum_append, activeSum_cons,
      ih (fun h hm => hl h (List.mem_cons_of_mem a hm))]
    congr 1
    unfold countsOf Headstage.isConnected Headstage.getNumActiveChannels
      Headstage.getNumChannels
    rw [hh]
    rcases hn with e | e | e <;> rw [e] <;> simp
    ring

theorem streamsBelow_cons_succ (a : Headstage) (t : List Headstage) (p : Nat) :
    streamsBelow (a :: t) (p + 1) = (streamsOf a).length + streamsBelow t p := by
  unfold streamsBelow
  rw [List.take_succ_cons, List.flatMap_cons, List.length_append]

theorem streamsBelow_eq_counts (l : List Headstage) (p : Nat) :
    streamsBelow l p = ((l.take p).flatMap countsOf).length :=
  flatMap_streams_counts_length _

theorem counts_at_streamsBelow (l : List Headstage) :
    ∀ (p : Nat) (h : Headstage), l[p]? = some h → h.numStreams = 1 →
      streamsBelow l p < (l.flatMap countsOf).length
      ∧ arrGet (l.flatMap countsOf) (streamsBelow l p) = h.channelsPerStream := by
  induction l with
  | nil =>
    intro p h hh
    simp at hh
  | cons a t ih =>
    intro p h hh h1
    cases p with
    | zero =>
      simp only [List.getElem?_cons_zero] at hh
      have e : a = h := Option.some.inj hh
      subst e
      have hc : countsOf a = [a.channelsPerStream] := by
        unfold countsOf
        rw [if_pos h1]
      rw [List.flatMap_cons, hc]
      unfold streamsBelow arrGet
      simp
    | succ p =>
      simp only [List.getElem?_cons_succ] at hh
      obtain ⟨i1, i2⟩ := ih p h hh h1
      rw [streamsBelow_cons_succ, List.flatMap_cons, List.length_append, streamsOf_length]
      refine ⟨by omega, ?_⟩
      unfold arrGet at i2 ⊢
      rw [List.getD_eq_getElem?_getD, List.getElem?_append_right (by omega)]
      rw [List.getD_eq_getElem?_getD] at i2
      have e : (countsOf a).length + streamsBelow t p - (countsOf a).length
          = streamsBelow t p := by omega
      rw [e]
      exact i2

theorem streamsBelow_strict (l : List Headstage) :
    ∀ (p q : Nat) (h : Headstage), l[p]? = some h → h.numStreams = 1 → p < q →
      streamsBelow l p < streamsBelow l q := by
  induction l with
  | nil =>
    intro p q h hh
    simp at hh
  | cons a t ih =>
    intro p q h hh h1 hpq
    cases q with
    | zero => omega
    | succ q =>
      cases p with
      | zero =>
        simp only [List.getElem?_cons_zero] at hh
        have e : a = h := Option.some.inj hh
        subst e
        have hs : streamsOf a = [a.dataStream0] := by
          unfold streamsOf
          rw [if_pos h1]
        rw [streamsBelow_cons_succ, hs]
        unfold streamsBelow
        simp
      | succ p =>
        simp only [List.getElem?_cons_succ] at hh
        rw [streamsBelow_cons_succ, streamsBelow_cons_succ]
        have := ih p q h hh h1 (by omega)
        omega

theorem countsAgree_of_scan (K : Consts) (tmp : List Int) (orig : List Headstage)
    (a : DeviceThread.AssignAcc) (n : Nat) (hn : a.device.headstages.length = n)
    (hinv : ScanInv K tmp orig a n) (hcnt : ScanCount K a n)
    (horig : ∀ o, o ∈ orig → o.halfChannels = false) :
    CountsAgree K a.device := by
  subst hn
  have htake : a.device.headstages.take a.device.headstages.length = a.device.headstages :=
    List.take_of_length_le (Nat.le_refl _)
  have hS := hinv.streams
  have hC := hcnt.counts
  rw [htake] at hS hC
  have facts : ∀ (p : Nat) (h : Headstage), a.device.headstages[p]? = some h →
      h.halfChannels = false
      ∧ (h.numStreams = 0
        ∨ (h.numStreams = 1 ∧ 0 ≤ h.channelsPerStream
            ∧ h.streamIndex = (streamsBelow a.device.headstages p : Int))
        ∨ (h.numStreams = 2 ∧ h.channelsPerStream = 32)) := by
    intro p h hh
    have hp : p < a.device.headstages.length := (List.getElem?_eq_some_iff.mp hh).1
    obtain ⟨o, ho, _, _, e⟩ := hinv.same p h hh
    refine ⟨e.trans (horig o (List.mem_iff_getElem?.mpr ⟨p, ho⟩)), ?_⟩
    obtain ⟨o1, o2⟩ := hinv.outcome p h hp hh
    rcases granted_cases K (arrGet tmp p) (streamsBelow a.device.headstages p) with g | g | g
    · exact Or.inl (o1.trans g)
    · have h1 : h.numStreams = 1 := o1.trans g.1
      obtain ⟨c1, c2⟩ := o2 (by omega)
      exact Or.inr (Or.inl ⟨h1, c1 ▸ g.2, c2⟩)
    · have h2 : h.numStreams = 2 := o1.trans g.1
      obtain ⟨c1, _⟩ := o2 (by omega)
      exact Or.inr (Or.inr ⟨h2, c1.trans g.2⟩)
  have only32 : ∀ (p : Nat) (h : Headstage), a.device.headstages[p]? = some h →
      h.getNumChannels = 32 →
      h.numStreams = 1 ∧ h.channelsPerStream = 32 ∧ h.halfChannels = false
        ∧ h.streamIndex = (streamsBelow a.device.headstages p : Int) := by
    intro p h hh c
    obtain ⟨f0, f⟩ := facts p h hh
    unfold Headstage.getNumChannels at c
    rcases f with e | ⟨e, _, e2⟩ | ⟨e, e1⟩
    · rw [e] at c
      simp at c
    · rw [e] at c
      exact ⟨e, by omega, f0, e2⟩
    · rw [e, e1] at c
      omega
  constructor
  · rw [hC, hS]
    exact (flatMap_streams_counts_length _).symm
  · intro x hx
    rw [hC] at hx
    obtain ⟨h, hm, hxs⟩ := List.mem_flatMap.mp hx
    obtain ⟨p, hp⟩ := List.mem_iff_getElem?.mp hm
    obtain ⟨_, f⟩ := facts p h hp
    unfold countsOf at hxs
    rcases f with e | ⟨e, e1, _⟩ | ⟨e, e1⟩
    · rw [e] at hxs
      simp at hxs
    · rw [e] at hxs
      simp at hxs
      omega
    · rw [e] at hxs
      simp at hxs
      omega
  · rw [hC]
    apply flatMap_counts_sum
    intro h hm
    obtain ⟨p, hp⟩ := List.mem_iff_getElem?.mp hm
    obtain ⟨f0, f⟩ := facts p h hp
    refine ⟨?_, f0⟩
    rcases f with e | ⟨e, _, _⟩ | ⟨e, _⟩
    · exact Or.inl e
    · exact Or.inr (Or.inl e)
    · exact Or.inr (Or.inr e)
  · intro h hm
    obtain ⟨p, hp⟩ := List.mem_iff_getElem?.mp hm
    obtain ⟨_, f⟩ := facts p h hp
    rcases f with e | ⟨e, _, _⟩ | ⟨e, _⟩ <;> omega
  · intro p h hh c
    obtain ⟨e1, e2, e3, e4⟩ := only32 p h hh c
    obtain ⟨i1, i2⟩ := counts_at_streamsBelow a.device.headstages p h hh e1
    rw [hC, e4, Int.toNat_ofNat]
    refine ⟨Int.ofNat_nonneg _, i1, ?_⟩
    rw [i2]
    unfold Headstage.getNumActiveChannels Headstage.getNumChannels
    rw [e1, e2, e3]
    decide
  · intro p q hp hq hpq gp gq cp cq
    obtain ⟨e1, _, _, e4⟩ := only32 p hp gp cp
    obtain ⟨k1, _, _, k4⟩ := only32 q hq gq cq
    rw [e4, k4]
    rcases Nat.lt_or_gt_of_ne hpq with hlt | hgt
    · have := streamsBelow_strict a.device.headstages p q hp gp e1 hlt
      omega
    · have := streamsBelow_strict a.device.headstages q p hq gq k1 hgt
      omega
  · have := hcnt.aux
    rw [htake, hcnt.idx] at this
    exact this

theorem countsAgree_fresh (K : Consts) (d : DeviceThread) (hfresh : freshController d) :
    CountsAgree K d := by
  obtain ⟨hS, hN, hH, _⟩ := hfresh
  have hdis : ∀ x, x ∈ d.headstages → x.isConnected = false := by
    intro x hx
    unfold Headstage.isConnected
    rw [(hH x hx).1]
    decide
  have hno : ∀ (p : Nat) (h : Headstage), d.headstages[p]? = some h →
      ¬ h.getNumChannels = 32 := by
    intro p h hh c
    unfold Headstage.getNumChannels at c
    rw [(hH h (List.mem_iff_getElem?.mpr ⟨p, hh⟩)).1] at c
    simp at c
  constructor
  · rw [hS, hN]
  · intro x hx
    rw [hN] at hx
    simp at hx
  · rw [hN, activeSum_disconnected _ hdis]
    rfl
  · intro h hm
    rw [(hH h hm).1]
  · intro p h hh c
    exact absurd c (hno p h hh)
  · intro p q hp hq _ gp _ cp
    exact absurd cp (hno p hp gp)
  · rw [hS]
    have : d.headstages.filter Headstage.isConnected = [] := by
      rw [List.filter_eq_nil_iff]
      intro x hx
      rw [hdis x hx]
      simp
    rw [this]
    rfl

theorem countsAgree_congr (K : Consts) (d d1 : DeviceThread) (hinv : CountsAgree K d)
    (e1 : d1.headstages = d.headstages) (e2 : d1.enabledStreams = d.enabledStreams)
    (e3 : d1.numChannelsPerDataStream = d.numChannelsPerDataStream)
    (e4 : d1.chipId = d.chipId) : CountsAgree K d1 := by
  constructor
  · rw [e3, e2]; exact hinv.len
  · rw [e3]; exact hinv.nonneg
  · rw [e3, e1]; exact hinv.total
  · rw [e1]; exact hinv.streamsNonneg
  · rw [e1, e3]; exact hinv.pos
  · rw [e1]; exact hinv.dist
  · rw [e1, e2, e4]; exact hinv.aux

theorem scanPorts_agree (K : Consts) (d : DeviceThread) (blocks : Nat → DataBlock)
    (hfresh : freshController d) (hB : ¬ isChipId K K.CHIP_ID_RHD2164_B) :
    CountsAgree K (d.scanPorts K blocks) := by
  cases hf : d.deviceFound with
  | false =>
    have e : d.scanPorts K blocks = d := by
      unfold DeviceThread.scanPorts
      rw [if_pos (by rw [hf]; rfl)]
    rw [e]
    exact countsAgree_fresh K d hfresh
  | true =>
    obtain ⟨f1, f2, f3, f4⟩ := scanPorts_fields K d blocks hf
    obtain ⟨_, hN, hH, hdis⟩ := hfresh
    obtain ⟨hinv, hl⟩ := assignState_inv K d blocks hdis d.headstages.length (Nat.le_refl _)
    have hcnt := assignState_count K d blocks hdis hB hN d.headstages.length (Nat.le_refl _)
    exact countsAgree_congr K _ _
      (countsAgree_of_scan K _ d.headstages _ _ hl hinv hcnt (fun o ho => (hH o ho).2))
      f1 f2 f3 f4

/-! ## C27: values per frame and `getNumChannels` -/

theorem range_map_toNat_sum (l : List Int) (hl : ∀ x, x ∈ l → 0 ≤ x) :
    ((((List.range l.length).map fun s => (arrGet l s).toNat).sum : Nat) : Int) = l.sum := by
  induction l with
  | nil => rfl
  | cons a t ih =>
    have ha := hl a (List.mem_cons_self a t)
    have ht := ih (fun x hx => hl x (List.mem_cons_of_mem a hx))
    rw [List.length_cons, List.range_succ_eq_map, List.map_cons, List.map_map, List.sum_cons,
      List.sum_cons]
    have e : ((fun s => (arrGet (a :: t) s).toNat) ∘ Nat.succ)
        = fun s => (arrGet t s).toNat := by
      funext s
      simp [arrGet]
    have e0 : arrGet (a :: t) 0 = a := by simp [arrGet]
    rw [e, e0, Nat.cast_add, ht, Int.toNat_of_nonneg ha]

theorem frameWidth_eq_getNumChannels (K : Consts) (d : DeviceThread)
    (hinv : CountsAgree K d) : (frameWidth K d : Int) = d.getNumChannels := by
  rw [getNumChannels_eq, getNumElectrodeOutputs_eq, ← hinv.total]
  unfold frameWidth
  rw [← hinv.len, hinv.len, hinv.aux]
  have e := range_map_toNat_sum d.numChannelsPerDataStream hinv.nonneg
  rw [hinv.len] at e
  rw [Nat.cast_add, Nat.cast_add, e]
  cases d.acquireAux <;> cases d.acquireAdc <;> simp

theorem exampleDevice_fresh : freshController exampleDevice := by
  refine ⟨rfl, rfl, ?_, exampleDevice_disjoint⟩
  intro h hm
  have hm' : h ∈ (List.range 16).map exampleHeadstage := hm
  obtain ⟨i, _, e⟩ := List.mem_map.mp hm'
  subst e
  exact ⟨rfl, rfl⟩

/-- C27: after `scanPorts` on a freshly constructed controller, whatever the sweep read
back (the chip id `CHIP_ID_RHD2164_B` not being one of the three ids the sweep accepts),
and then any sequence of `setNumChannels` calls on existing slots with 16 or 32
channels, `enableAuxs` calls and `enableAdcs` calls, every frame the decoder of
`updateBuffer` decodes has as many values as the sum of `numChannelsPerDataStream` over
the enabled streams, plus 3 per enabled stream whose chip id is not `CHIP_ID_RHD2164_B`
when aux is enabled, plus 8 when ADC is enabled, and that number is `getNumChannels ()`. -/
theorem frame_width_is_getNumChannels (K : Consts) (api : DataBlockApi) (d : DeviceThread)
    (blocks : Nat → DataBlock) (ops : List ToggleOp) (hfresh : freshController d)
    (hB : ¬ isChipId K K.CHIP_ID_RHD2164_B)
    (hops : ∀ op, op ∈ ops → validToggle d.headstages.length op) :
    (∀ (buf : Buffer) (samp f : Nat) (st : SampleState),
      (decodeFrame K api (applyToggles (d.scanPorts K blocks) ops).decodeConfig
          buf samp f st).emission.samples.length
        = frameWidth K (applyToggles (d.scanPorts K blocks) ops))
    ∧ (frameWidth K (applyToggles (d.scanPorts K blocks) ops) : Int)
        = (applyToggles (d.scanPorts K blocks) ops).getNumChannels := by
  constructor
  · intro buf samp f st
    rw [decodeFrame_samples_length]
    rfl
  · exact frameWidth_eq_getNumChannels K _
      (applyToggles_agree K d.headstages.length ops _ hops
        (scanPorts_agree K d blocks hfresh hB))

theorem frame_width_is_getNumChannels_witness :
    (frameWidth exampleConsts
        (applyToggles (exampleDevice.scanPorts exampleConsts exampleScanBlocks)
          [ToggleOp.setNumChannels 0 16, ToggleOp.enableAdcs true]) : Int)
      = (applyToggles (exampleDevice.scanPorts exampleConsts exampleScanBlocks)
          [ToggleOp.setNumChannels 0 16, ToggleOp.enableAdcs true]).getNumChannels
    ∧ (applyToggles (exampleDevice.scanPorts exampleConsts exampleScanBlocks)
          [ToggleOp.setNumChannels 0 16, ToggleOp.enableAdcs true]).getNumChannels = 27 :=
  ⟨(frame_width_is_getNumChannels exampleConsts exampleApi exampleDevice exampleScanBlocks
      [ToggleOp.setNumChannels 0 16, ToggleOp.enableAdcs true] exampleDevice_fresh
      (by unfold isChipId; decide)
      (by
        intro op hop
        rcases List.mem_cons.mp hop with e | hop
        · subst e
          exact ⟨by decide, Or.inl rfl⟩
        · rcases List.mem_cons.mp hop with e | hop
          · subst e
            trivial
          · exact absurd hop (List.not_mem_nil op))).2,
    by decide⟩

end RhdRec
